import Mathlib

/-!
prometheus-cgroup-v2-exporter: a shallow embedding of the discovery and collection core.

The development embeds, from the Go sources,

* `internal/cgroup/scanner.go`: `Scanner`, `NewScanner`, `Scan` (with the callback it hands
  to `filepath.Walk`), `readControllers`, `getCgroupName`, `SetMaxCgroups`;
* `internal/collector/collector.go`: `BaseCollector` with its cache operations,
  `NewCollectors`, `CollectorMetrics`;
* `internal/collector/{cpu,memory,io,pids}.go`: the four subsystem collectors.

Go strings are lists of characters (`GoString`), so that every string operation is a
structural recursion that evaluates in the kernel.  The file system the scanner walks is an
explicit tree (`FsNode`); `filepath.Walk`, `filepath.Join`, `filepath.Clean`, `os.Stat` and
`os.ReadFile` are modelled after the Go standard library on that tree.
-/

namespace CgroupExporter

deriving instance DecidableEq for Except

/-! ## Go strings -/

/-- A Go string, as the list of its characters. -/
abbrev GoString := List Char

/-- Go `strings.HasPrefix`. -/
def HasPrefix (s pre : GoString) : Bool :=
  pre.isPrefixOf s

/-- Go `strings.TrimPrefix`: `s` without the leading `pre`, or `s` itself when `pre` does
not lead it. -/
def TrimPrefix (s pre : GoString) : GoString :=
  if HasPrefix s pre then s.drop pre.length else s

/-- Go `strings.ReplaceAll(s, old, new)` for a one-character `old`. -/
def ReplaceAll (s : GoString) (old : Char) (new : GoString) : GoString :=
  match s with
  | [] => []
  | c :: rest => (if c = old then new else [c]) ++ ReplaceAll rest old new

/-- Go `unicode.IsSpace`: the Unicode White_Space property. -/
def isSpace (c : Char) : Bool :=
  let n := c.toNat
  (9 ≤ n && n ≤ 13) || n = 32 || n = 0x85 || n = 0xA0 || n = 0x1680 ||
    (0x2000 ≤ n && n ≤ 0x200A) || n = 0x2028 || n = 0x2029 || n = 0x202F ||
    n = 0x205F || n = 0x3000

/-- Go `strings.TrimSpace`. -/
def TrimSpace (s : GoString) : GoString :=
  ((s.dropWhile isSpace).reverse.dropWhile isSpace).reverse

/-- The loop of Go `strings.Fields`: `cur` is the field being read, reversed. -/
def fieldsLoop : GoString → GoString → List GoString
  | [], cur => if cur = [] then [] else [cur.reverse]
  | c :: rest, cur =>
    if isSpace c then
      (if cur = [] then [] else [cur.reverse]) ++ fieldsLoop rest []
    else fieldsLoop rest (c :: cur)

/-- Go `strings.Fields`: the maximal runs of non-space characters. -/
def Fields (s : GoString) : List GoString :=
  fieldsLoop s []

/-! ## `filepath.Clean` and `filepath.Join` (Unix) -/

/-- The inner loop of the `..` case of `filepath.Clean`: `out.w` is lowered until the byte
just dropped is a separator or `dotdot` is reached.  The buffer is kept reversed and
`dropped` is the byte at index `out.w`. -/
def cleanBacktrackLoop (dotdot : Nat) (dropped : Char) : List Char → List Char
  | [] => []
  | c :: rest =>
    if dotdot < (c :: rest).length ∧ dropped ≠ '/' then cleanBacktrackLoop dotdot c rest
    else c :: rest

/-- The `..` case of `filepath.Clean` when it can backtrack (`out.w > dotdot`). -/
def cleanBacktrack (dotdot : Nat) : List Char → List Char
  | [] => []
  | c :: rest => cleanBacktrackLoop dotdot c rest

/-- The `..` case of `filepath.Clean`, on the reversed buffer and `dotdot`. -/
def cleanDotDot (rooted : Bool) (rout : List Char) (dotdot : Nat) : List Char × Nat :=
  if dotdot < rout.length then (cleanBacktrack dotdot rout, dotdot)
  else if !rooted then
    let rout1 := if 0 < rout.length then '/' :: rout else rout
    let rout2 := '.' :: '.' :: rout1
    (rout2, rout2.length)
  else (rout, dotdot)

/-- Where the main loop of `filepath.Clean` stands: at the start of a path element, in the
middle of copying one, or on the second dot of a `..` element it has already handled. -/
inductive CleanMode where
  | start : CleanMode
  | copy : CleanMode
  | dot2 : CleanMode
deriving DecidableEq

/-- The unread path is at its end or at a separator. -/
def atElemEnd : List Char → Bool
  | [] => true
  | c :: _ => c = '/'

/-- The unread path, after a first dot, continues with the second dot of a `..` element. -/
def atDotDot : List Char → Bool
  | [] => false
  | c :: rest => c = '.' && atElemEnd rest

/-- The `default` case of `filepath.Clean`: a separator is added before a real path element
unless the buffer is empty (or holds only the root separator). -/
def cleanAddSlash (rooted : Bool) (rout : List Char) : List Char :=
  if (rooted && rout.length != 1) || (!rooted && rout.length != 0) then '/' :: rout else rout

/-- The main loop of `filepath.Clean` over the unread part of the path; `rout` is the output
buffer, reversed, and `dd` is `dotdot`. -/
def cleanLoop (rooted : Bool) : CleanMode → List Char → List Char → Nat → List Char
  | _, [], rout, _ => rout
  | .copy, c :: rest, rout, dd =>
    if c = '/' then cleanLoop rooted .start rest rout dd
    else cleanLoop rooted .copy rest (c :: rout) dd
  | .dot2, _ :: rest, rout, dd => cleanLoop rooted .start rest rout dd
  | .start, c :: rest, rout, dd =>
    if c = '/' then cleanLoop rooted .start rest rout dd
    else if c = '.' ∧ atElemEnd rest then cleanLoop rooted .start rest rout dd
    else if c = '.' ∧ atDotDot rest then
      cleanLoop rooted .dot2 rest (cleanDotDot rooted rout dd).1 (cleanDotDot rooted rout dd).2
    else cleanLoop rooted .copy rest (c :: cleanAddSlash rooted rout) dd

/-- Go `filepath.Clean` on Unix. -/
def Clean (path : GoString) : GoString :=
  match path with
  | [] => ['.']
  | c :: rest =>
    let out :=
      if c = '/' then (cleanLoop true .start rest ['/'] 1).reverse
      else (cleanLoop false .start (c :: rest) [] 0).reverse
    if out = [] then ['.'] else out

/-- Go `filepath.Join` of two elements: empty elements are ignored and the result is
cleaned. -/
def Join (a b : GoString) : GoString :=
  if a ≠ [] then Clean (a ++ '/' :: b)
  else if b ≠ [] then Clean b
  else []

/-! ## The file system seen by `filepath.Walk` -/

/-- The errors of the file-system calls that the scanner tells apart: `os.IsNotExist` holds
of `notExist` only. -/
inductive IOError where
  | notExist : IOError
  | permission : IOError
  | isDirectory : IOError
deriving DecidableEq

/-- Go `os.IsNotExist`. -/
def IsNotExist : Option IOError → Bool
  | some .notExist => true
  | _ => false

mutual
/-- What a path leads to.  `broken e`: `lstat` on the path fails with `e`.  `file c`: a
non-directory, whose content can be read (`some`) or not (`none`).  `dir listable es`: a
directory with entries `es`, in the order `readDirNames` lists them; `listable = false` when
reading the directory fails (its entries can then still be reached by name). -/
inductive FsNode where
  | broken (e : IOError) : FsNode
  | file (content : Option GoString) : FsNode
  | dir (listable : Bool) (entries : FsEntries) : FsNode
/-- The entries of a directory: a name and what it leads to. -/
inductive FsEntries where
  | nil : FsEntries
  | cons (name : GoString) (node : FsNode) (rest : FsEntries) : FsEntries
end

/-- Go `FileInfo.IsDir` of the `lstat` result. -/
def FsNode.IsDir : FsNode → Bool
  | .dir _ _ => true
  | _ => false

/-- The entry called `name`, if there is one. -/
def FsEntries.lookup (name : GoString) : FsEntries → Option FsNode
  | .nil => none
  | .cons n node rest => if n = name then some node else rest.lookup name

/-- The entries of a directory node (none for the other nodes). -/
def FsNode.entries : FsNode → FsEntries
  | .dir _ es => es
  | _ => .nil

/-- Go `os.Stat` of the entry `name` of the directory `d`: the error, or `none` when the
call succeeds. -/
def osStat (d : FsNode) (name : GoString) : Option IOError :=
  match d.entries.lookup name with
  | none => some .notExist
  | some (.broken e) => some e
  | some _ => none

/-- Go `os.ReadFile` of the entry `name` of the directory `d`. -/
def osReadFile (d : FsNode) (name : GoString) : Except IOError GoString :=
  match d.entries.lookup name with
  | none => .error .notExist
  | some (.broken e) => .error e
  | some (.file (some c)) => .ok c
  | some (.file none) => .error .permission
  | some (.dir _ _) => .error .isDirectory

/-! ## `filepath.Walk` -/

/-- The errors a `WalkFunc` can return; `nil` is `none : Option WalkError`. -/
inductive WalkError where
  | SkipDir : WalkError
  | SkipAll : WalkError
  | other (e : IOError) : WalkError
deriving DecidableEq

/-- Go `filepath.WalkFunc`, with the state its closure captures made explicit: the visited
path, the `lstat` result (`none` for a nil `FileInfo`) and the error of reaching the path. -/
abbrev WalkFunc (σ : Type) :=
  σ → GoString → Option FsNode → Option IOError → σ × Option WalkError

mutual
/-- Go `filepath.walk`: `info` is the `lstat` result of `path`. -/
def walk {σ : Type} (fn : WalkFunc σ) (path : GoString) (info : FsNode) (s : σ) :
    σ × Option WalkError :=
  match info with
  | .dir listable es =>
    if listable then
      if (fn s path (some (.dir listable es)) none).2 ≠ none then
        fn s path (some (.dir listable es)) none
      else walkNames fn path es (fn s path (some (.dir listable es)) none).1
    else fn s path (some (.dir listable es)) (some .permission)
  | .file c => fn s path (some (.file c)) none
  | .broken e => fn s path none (some e)
/-- The loop of Go `filepath.walk` over the names of a directory. -/
def walkNames {σ : Type} (fn : WalkFunc σ) (path : GoString) (es : FsEntries) (s : σ) :
    σ × Option WalkError :=
  match es with
  | .nil => (s, none)
  | .cons name (.broken e) rest =>
    if (fn s (Join path name) none (some e)).2 ≠ none ∧
        (fn s (Join path name) none (some e)).2 ≠ some .SkipDir then
      fn s (Join path name) none (some e)
    else walkNames fn path rest (fn s (Join path name) none (some e)).1
  | .cons name (.file c) rest =>
    if (walk fn (Join path name) (.file c) s).2 ≠ none then walk fn (Join path name) (.file c) s
    else walkNames fn path rest (walk fn (Join path name) (.file c) s).1
  | .cons name (.dir l es1) rest =>
    if (walk fn (Join path name) (.dir l es1) s).2 ≠ none ∧
        (walk fn (Join path name) (.dir l es1) s).2 ≠ some .SkipDir then
      walk fn (Join path name) (.dir l es1) s
    else walkNames fn path rest (walk fn (Join path name) (.dir l es1) s).1
end

/-- Go `filepath.Walk`: `root` leads to `fs`; `SkipDir` and `SkipAll` at the top become
`nil`. -/
def Walk {σ : Type} (fn : WalkFunc σ) (root : GoString) (fs : FsNode) (s : σ) :
    σ × Option WalkError :=
  let r := match fs with
    | .broken e => fn s root none (some e)
    | info => walk fn root info s
  if r.2 = some .SkipDir ∨ r.2 = some .SkipAll then (r.1, none) else r

/-! ## `internal/cgroup/scanner.go` -/

/-- Go `context.Context`, as far as a callee can observe it: whether it is already done. -/
structure Context where
  done : Bool
deriving DecidableEq

/-- Go `context.Background()`. -/
def Context.Background : Context :=
  { done := false }

/-- The `Scanner` struct (the logger is left out: it only writes log lines). -/
structure Scanner where
  cgroupPath : GoString
  maxCgroups : Int
deriving DecidableEq

/-- The `CgroupInfo` struct.  `Processes` is never assigned by the scanner and `LastScanned`
is the wall clock at the time the node is built; neither is read anywhere. -/
structure CgroupInfo where
  Path : GoString
  Name : GoString
  Controllers : List GoString
deriving DecidableEq

/-- The name of the controller-list file. -/
def controllersName : GoString :=
  "cgroup.controllers".toList

/-- `NewScanner`. -/
def NewScanner (cgroupPath : GoString) : Scanner :=
  { cgroupPath := cgroupPath, maxCgroups := 10000 }

/-- `Scanner.SetMaxCgroups`. -/
def Scanner.SetMaxCgroups (s : Scanner) (max : Int) : Scanner :=
  { s with maxCgroups := max }

/-- `Scanner.readControllers`, on the directory that holds the controller-list file. -/
def Scanner.readControllers (_s : Scanner) (d : FsNode) : Except IOError (List GoString) :=
  match osReadFile d controllersName with
  | .error e => .error e
  | .ok data => .ok (Fields (TrimSpace data))

/-- `Scanner.getCgroupName`. -/
def Scanner.getCgroupName (s : Scanner) (path : GoString) : GoString :=
  let relativePath := TrimPrefix (TrimPrefix path s.cgroupPath) "/".toList
  if relativePath = [] then "root".toList
  else ReplaceAll relativePath '/' ".".toList

/-- The callback `Scan` hands to `filepath.Walk`; the captured `cgroups` slice is the state.
`filepath.Walk` passes a nil `FileInfo` only together with an error, so the `none` case after
the error test is never met. -/
def Scanner.scanFn (s : Scanner) : WalkFunc (List CgroupInfo) :=
  fun cgroups path info err =>
    if err ≠ none then (cgroups, none)
    else
      match info with
      | none => (cgroups, none)
      | some d =>
        if !d.IsDir then (cgroups, none)
        else if (cgroups.length : Int) ≥ s.maxCgroups then (cgroups, some .SkipDir)
        else if IsNotExist (osStat d controllersName) then (cgroups, none)
        else
          match s.readControllers d with
          | .error _ => (cgroups, none)
          | .ok controllers =>
            (cgroups ++ [{ Path := path, Name := s.getCgroupName path,
                           Controllers := controllers }], none)

/-- `Scanner.Scan`: `fs` is what `s.cgroupPath` leads to.  The result is the node list, or
the wrapped error of the walk.  The context is not consulted, as in the source. -/
def Scanner.Scan (s : Scanner) (_ctx : Context) (fs : FsNode) :
    Except WalkError (List CgroupInfo) :=
  match (Walk s.scanFn s.cgroupPath fs []).2 with
  | some err => .error err
  | none => .ok (Walk s.scanFn s.cgroupPath fs []).1

/-! ## Counting control groups -/

/-- The directory `d` holds a readable controller-list file. -/
def FsNode.holdsControllers (d : FsNode) : Bool :=
  match osReadFile d controllersName with
  | .ok _ => true
  | .error _ => false

mutual
/-- The number of directories of the tree that hold a readable controller-list file. -/
def FsNode.countGroups : FsNode → Nat
  | .dir l es => (if (FsNode.dir l es).holdsControllers then 1 else 0) + es.countGroups
  | .file _ => 0
  | .broken _ => 0
/-- The number of such directories below the entries of a directory. -/
def FsEntries.countGroups : FsEntries → Nat
  | .nil => 0
  | .cons _ node rest => node.countGroups + rest.countGroups
end

mutual
/-- The number of directories that hold a readable controller-list file and can be listed,
as can every directory above them up to the root of the tree. -/
def FsNode.countListed : FsNode → Nat
  | .dir l es =>
    if l then (if (FsNode.dir l es).holdsControllers then 1 else 0) + es.countListed else 0
  | .file _ => 0
  | .broken _ => 0
/-- The number of such directories below the entries of a directory. -/
def FsEntries.countListed : FsEntries → Nat
  | .nil => 0
  | .cons _ node rest => node.countListed + rest.countListed
end

/-- The length of the node list after a sub-walk that starts with `k` nodes and meets `n`
further control groups, under the cap `M`. -/
def capped (M k n : Nat) : Nat :=
  if M ≤ k then k else min (k + n) M


/-! ## `internal/config/config.go` -/

/-- `WebConfig`. -/
structure WebConfig where
  ListenAddress : String
  TelemetryPath : String
deriving DecidableEq

/-- `CgroupConfig`; durations are in nanoseconds, as Go `time.Duration`. -/
structure CgroupConfig where
  Path : GoString
  RefreshInterval : Int
deriving DecidableEq

/-- `CPUCollectorConfig`. -/
structure CPUCollectorConfig where
  Enabled : Bool
  IncludePressure : Bool
deriving DecidableEq

/-- `MemoryCollectorConfig`. -/
structure MemoryCollectorConfig where
  Enabled : Bool
  IncludePressure : Bool
  IncludeSwap : Bool
deriving DecidableEq

/-- `IOCollectorConfig`. -/
structure IOCollectorConfig where
  Enabled : Bool
  IncludePressure : Bool
  Devices : List String
deriving DecidableEq

/-- `PIDsCollectorConfig`. -/
structure PIDsCollectorConfig where
  Enabled : Bool
deriving DecidableEq

/-- `CollectorsConfig`; the field `Io` is the field `IO` of the source. -/
structure CollectorsConfig where
  CPU : CPUCollectorConfig
  Memory : MemoryCollectorConfig
  Io : IOCollectorConfig
  PIDs : PIDsCollectorConfig
deriving DecidableEq

/-- `LoggingConfig`. -/
structure LoggingConfig where
  Level : String
  Format : String
deriving DecidableEq

/-- `AdvancedConfig`. -/
structure AdvancedConfig where
  MaxCgroups : Int
  ScanInterval : Int
  CacheDuration : Int
deriving DecidableEq

/-- `Config`. -/
structure Config where
  Web : WebConfig
  Cgroup : CgroupConfig
  Collectors : CollectorsConfig
  Logging : LoggingConfig
  Advanced : AdvancedConfig
deriving DecidableEq

/-! ## Go maps with string keys -/

/-- A Go `map[string]V`: its entries, one per key. -/
structure GoMap (V : Type) where
  entries : List (String × V)
deriving DecidableEq

/-- Go `make(map[string]V)`. -/
def GoMap.make {V : Type} : GoMap V :=
  { entries := [] }

/-- Go `v, ok := m[k]`: `none` when the key is absent. -/
def GoMap.get {V : Type} (m : GoMap V) (k : String) : Option V :=
  m.entries.lookup k

/-- Go `m[k] = v`. -/
def GoMap.set {V : Type} (m : GoMap V) (k : String) (v : V) : GoMap V :=
  { entries := (k, v) :: m.entries.filter (fun e => e.1 ≠ k) }

/-- Go `len(m)`. -/
def GoMap.len {V : Type} (m : GoMap V) : Nat :=
  m.entries.length

/-- The keys of the map. -/
def GoMap.keys {V : Type} (m : GoMap V) : List String :=
  m.entries.map Prod.fst

/-! ## Go `time` -/

/-- The largest `time.Duration`, in nanoseconds. -/
def maxDuration : Int :=
  2 ^ 63 - 1

/-- The smallest `time.Duration`, in nanoseconds. -/
def minDuration : Int :=
  -(2 ^ 63)

/-- The zero `time.Time` (1 January of year 1, UTC), in nanoseconds since the Unix epoch. -/
def zeroTime : Int :=
  -62135596800 * 1000000000

/-- Go `time.Since(t)` when the clock reads `now`: the difference, saturated to the range
of `time.Duration`. -/
def timeSince (now t : Int) : Int :=
  if now - t > maxDuration then maxDuration
  else if now - t < minDuration then minDuration
  else now - t

/-! ## `internal/collector/collector.go`: the base collector and its cache -/

/-- The `BaseCollector` struct.  `V` is the type of the non-nil values an `interface{}`
holds, so that a cached `interface{}` is an `Option V`.  The logger and the mutex are left
out: each cache operation runs as a whole under the lock. -/
structure BaseCollector (V : Type) where
  name : String
  enabled : Bool
  config : Config
  scanner : Scanner
  cache : GoMap (Option V)
  cacheTime : Int
  cacheTTL : Int

/-- `NewBaseCollector`; `cacheTime` is left at the zero `time.Time`. -/
def NewBaseCollector {V : Type} (name : String) (enabled : Bool) (cfg : Config) :
    BaseCollector V :=
  { name := name
    enabled := enabled
    config := cfg
    scanner := NewScanner cfg.Cgroup.Path
    cache := GoMap.make
    cacheTime := zeroTime
    cacheTTL := cfg.Advanced.CacheDuration }

/-- `BaseCollector.Name`. -/
def BaseCollector.Name {V : Type} (bc : BaseCollector V) : String :=
  bc.name

/-- `BaseCollector.Enabled`. -/
def BaseCollector.Enabled {V : Type} (bc : BaseCollector V) : Bool :=
  bc.enabled

/-- `BaseCollector.GetCachedData`, called when the clock reads `now`. -/
def BaseCollector.GetCachedData {V : Type} (bc : BaseCollector V) (key : String)
    (now : Int) : Option V × Bool :=
  if timeSince now bc.cacheTime > bc.cacheTTL then (none, false)
  else
    match bc.cache.get key with
    | some data => (data, true)
    | none => (none, false)

/-- `BaseCollector.SetCachedData`, called when the clock reads `now`. -/
def BaseCollector.SetCachedData {V : Type} (bc : BaseCollector V) (key : String)
    (data : Option V) (now : Int) : BaseCollector V :=
  { bc with cache := bc.cache.set key data, cacheTime := now }

/-- `BaseCollector.ClearCache`. -/
def BaseCollector.ClearCache {V : Type} (bc : BaseCollector V) : BaseCollector V :=
  { bc with cache := GoMap.make }

/-- A run of `SetCachedData` calls, each with its key, value and clock reading. -/
def BaseCollector.setAll {V : Type} (bc : BaseCollector V) :
    List (String × Option V × Int) → BaseCollector V
  | [] => bc
  | (k, v, t) :: rest => (bc.SetCachedData k v t).setAll rest

/-! ## The Prometheus client library, as far as the collectors use it

A `float64` metric value is modelled by an exact integer; clock readings and durations are
kept in nanoseconds instead of floating-point seconds. -/

/-- Go `prometheus.BuildFQName`. -/
def BuildFQName (namespace_ subsystem name : String) : String :=
  if name = "" then ""
  else
    (if namespace_ ≠ "" then namespace_ ++ "_" else "") ++
      (if subsystem ≠ "" then subsystem ++ "_" else "") ++ name

/-- Go `prometheus.Opts` (the fields the collectors set). -/
structure Opts where
  Namespace : String
  Subsystem : String
  Name : String
  Help : String
deriving DecidableEq

/-- Go `prometheus.Desc`: the fully-qualified name, the help text and the label names. -/
structure Desc where
  fqName : String
  help : String
  variableLabels : List String
deriving DecidableEq

/-- The descriptor built from the options of a metric. -/
def Opts.desc (o : Opts) (labels : List String) : Desc :=
  { fqName := BuildFQName o.Namespace o.Subsystem o.Name, help := o.Help,
    variableLabels := labels }

/-- The kinds of metric the collectors create. -/
inductive MetricKind where
  | counter : MetricKind
  | gauge : MetricKind
  | histogram : MetricKind
deriving DecidableEq

/-- One sample sent on the `Collect` channel: its descriptor, label values and value (for a
histogram, the observations). -/
structure Sample where
  desc : Desc
  kind : MetricKind
  labelValues : List GoString
  value : Int
  observations : List Int
deriving DecidableEq

/-- Go `prometheus.CounterVec` / `prometheus.GaugeVec`: the descriptor and one value per
tuple of label values seen so far. -/
structure MetricVec where
  desc : Desc
  kind : MetricKind
  children : List (List GoString × Int)
deriving DecidableEq

/-- Go `prometheus.NewCounterVec`. -/
def NewCounterVec (o : Opts) (labels : List String) : MetricVec :=
  { desc := o.desc labels, kind := .counter, children := [] }

/-- Go `prometheus.NewGaugeVec`. -/
def NewGaugeVec (o : Opts) (labels : List String) : MetricVec :=
  { desc := o.desc labels, kind := .gauge, children := [] }

/-- The value update behind `WithLabelValues(lvs...)`: the child is created at `0` when it
does not exist yet. -/
def updateChild (f : Int → Int) (lvs : List GoString) :
    List (List GoString × Int) → List (List GoString × Int)
  | [] => [(lvs, f 0)]
  | (l, x) :: rest => if l = lvs then (l, f x) :: rest else (l, x) :: updateChild f lvs rest

/-- Go `vec.WithLabelValues(lvs...).Add(x)`. -/
def MetricVec.Add (v : MetricVec) (lvs : List GoString) (x : Int) : MetricVec :=
  { v with children := updateChild (fun y => y + x) lvs v.children }

/-- Go `vec.WithLabelValues(lvs...).Set(x)`. -/
def MetricVec.Set (v : MetricVec) (lvs : List GoString) (x : Int) : MetricVec :=
  { v with children := updateChild (fun _ => x) lvs v.children }

/-- Go `vec.Describe(ch)`. -/
def MetricVec.Describe (v : MetricVec) : List Desc :=
  [v.desc]

/-- Go `vec.Collect(ch)`: one sample per child. -/
def MetricVec.Collect (v : MetricVec) : List Sample :=
  v.children.map fun c =>
    { desc := v.desc, kind := v.kind, labelValues := c.1, value := c.2, observations := [] }

/-- `Describe` of a vector held through a pointer that may be nil. -/
def describeOpt : Option MetricVec → List Desc
  | some v => v.Describe
  | none => []

/-- `Collect` of a vector held through a pointer that may be nil. -/
def collectOpt : Option MetricVec → List Sample
  | some v => v.Collect
  | none => []

/-- Go `prometheus.Counter`, `prometheus.Gauge`, `prometheus.Histogram` without labels: the
descriptor, the current value and (for a histogram) the observations made so far. -/
structure Metric where
  desc : Desc
  kind : MetricKind
  value : Int
  observations : List Int
deriving DecidableEq

/-- Go `prometheus.NewHistogram` (with the default buckets). -/
def NewHistogram (o : Opts) : Metric :=
  { desc := o.desc [], kind := .histogram, value := 0, observations := [] }

/-- Go `prometheus.NewCounter`. -/
def NewCounter (o : Opts) : Metric :=
  { desc := o.desc [], kind := .counter, value := 0, observations := [] }

/-- Go `prometheus.NewGauge`. -/
def NewGauge (o : Opts) : Metric :=
  { desc := o.desc [], kind := .gauge, value := 0, observations := [] }

/-- Go `Histogram.Observe`. -/
def Metric.Observe (m : Metric) (x : Int) : Metric :=
  { m with observations := m.observations ++ [x] }

/-- Go `Counter.Inc`. -/
def Metric.Inc (m : Metric) : Metric :=
  { m with value := m.value + 1 }

/-- Go `Gauge.Set`; `Gauge.SetToCurrentTime` is `Set` of the clock reading. -/
def Metric.Set (m : Metric) (x : Int) : Metric :=
  { m with value := x }

/-- Go `m.Describe(ch)`. -/
def Metric.Describe (m : Metric) : List Desc :=
  [m.desc]

/-- Go `m.Collect(ch)`. -/
def Metric.Collect (m : Metric) : List Sample :=
  [{ desc := m.desc, kind := m.kind, labelValues := [], value := m.value,
     observations := m.observations }]

/-! ## `internal/collector/collector.go`: the self-observability metrics -/

/-- The `CollectorMetrics` struct. -/
structure CollectorMetrics where
  ScrapeDuration : Metric
  ScrapeErrors : Metric
  LastScrapeTime : Metric
  CgroupsScraped : Metric
deriving DecidableEq

/-- `NewCollectorMetrics`. -/
def NewCollectorMetrics (subsystem : String) : CollectorMetrics :=
  { ScrapeDuration := NewHistogram
      { Namespace := "prometheus_cgroup_v2_exporter", Subsystem := subsystem,
        Name := "scrape_duration_seconds", Help := "Time spent scraping metrics" }
    ScrapeErrors := NewCounter
      { Namespace := "prometheus_cgroup_v2_exporter", Subsystem := subsystem,
        Name := "scrape_errors_total", Help := "Total number of scrape errors" }
    LastScrapeTime := NewGauge
      { Namespace := "prometheus_cgroup_v2_exporter", Subsystem := subsystem,
        Name := "last_scrape_timestamp_seconds",
        Help := "Unix timestamp of the last successful scrape" }
    CgroupsScraped := NewGauge
      { Namespace := "prometheus_cgroup_v2_exporter", Subsystem := subsystem,
        Name := "cgroups_scraped", Help := "Number of cgroups scraped in the last collection" } }

/-- `CollectorMetrics.Describe`. -/
def CollectorMetrics.Describe (cm : CollectorMetrics) : List Desc :=
  cm.ScrapeDuration.Describe ++ cm.ScrapeErrors.Describe ++ cm.LastScrapeTime.Describe ++
    cm.CgroupsScraped.Describe

/-- `CollectorMetrics.Collect`. -/
def CollectorMetrics.Collect (cm : CollectorMetrics) : List Sample :=
  cm.ScrapeDuration.Collect ++ cm.ScrapeErrors.Collect ++ cm.LastScrapeTime.Collect ++
    cm.CgroupsScraped.Collect

/-- What one `Collect` call of a subsystem collector meets: the tree the hierarchy root leads
to while the scan runs, and the three clock readings it takes (`time.Now()` at the start,
`time.Since(start)` and `SetToCurrentTime()` in the deferred function). -/
structure ScrapeEnv where
  fs : FsNode
  start : Int
  finished : Int
  stamped : Int

/-- The outcome of one `Collect` call on a collector of type `C`: the collector afterwards,
the samples sent on the channel, in order, and the number of `Scan` calls made. -/
structure CollectResult (C : Type) where
  collector : C
  samples : List Sample
  scans : Nat

/-- The deferred function of every `Collect`: the duration is observed and the last-scrape
gauge is set to the current time. -/
def CollectorMetrics.deferred (cm : CollectorMetrics) (env : ScrapeEnv) : CollectorMetrics :=
  { cm with
    ScrapeDuration := cm.ScrapeDuration.Observe (timeSince env.finished env.start)
    LastScrapeTime := cm.LastScrapeTime.Set env.stamped }

/-! ## `internal/collector/cpu.go` -/

/-- The `CPUCollector` struct: the embedded base collector, the self-observability metrics and
the metric vectors; a vector that `initMetrics` leaves nil is `none`. -/
structure CPUCollector (V : Type) where
  base : BaseCollector V
  metrics : CollectorMetrics
  cpuUsageTotal : MetricVec
  cpuUserTotal : MetricVec
  cpuSystemTotal : MetricVec
  cpuThrottledTotal : MetricVec
  cpuPeriodsTotal : MetricVec
  cpuPressureTotal : Option MetricVec

/-- `CPUCollector.initMetrics`, on the base collector and self-observability metrics that
`NewCPUCollector` has just built. -/
def CPUCollector.initMetrics {V : Type} (base : BaseCollector V) (metrics : CollectorMetrics) :
    CPUCollector V :=
  { base := base
    metrics := metrics
    cpuUsageTotal := NewCounterVec
      { Namespace := "cgroup", Subsystem := "cpu", Name := "usage_seconds_total",
        Help := "Total CPU time consumed by cgroup" }
      ["cgroup", "mode"]
    cpuUserTotal := NewCounterVec
      { Namespace := "cgroup", Subsystem := "cpu", Name := "user_seconds_total",
        Help := "Total CPU time spent in user mode by cgroup" }
      ["cgroup"]
    cpuSystemTotal := NewCounterVec
      { Namespace := "cgroup", Subsystem := "cpu", Name := "system_seconds_total",
        Help := "Total CPU time spent in system mode by cgroup" }
      ["cgroup"]
    cpuThrottledTotal := NewCounterVec
      { Namespace := "cgroup", Subsystem := "cpu", Name := "throttled_seconds_total",
        Help := "Total time spent throttled by cgroup" }
      ["cgroup"]
    cpuPeriodsTotal := NewCounterVec
      { Namespace := "cgroup", Subsystem := "cpu", Name := "periods_total",
        Help := "Total number of CPU periods by cgroup" }
      ["cgroup"]
    cpuPressureTotal :=
      if base.config.Collectors.CPU.IncludePressure then
        some (NewCounterVec
          { Namespace := "cgroup", Subsystem := "cpu", Name := "pressure_seconds_total",
            Help := "Total CPU pressure stall time by cgroup" }
          ["cgroup", "type"])
      else none }

/-- `NewCPUCollector`. -/
def NewCPUCollector {V : Type} (cfg : Config) : CPUCollector V :=
  CPUCollector.initMetrics (NewBaseCollector "cpu" cfg.Collectors.CPU.Enabled cfg)
    (NewCollectorMetrics "cpu")

/-- `CPUCollector.Describe`: the descriptors sent on the channel, in order. -/
def CPUCollector.Describe {V : Type} (c : CPUCollector V) : List Desc :=
  if !c.base.Enabled then []
  else
    c.cpuUsageTotal.Describe ++
      c.cpuUserTotal.Describe ++
      c.cpuSystemTotal.Describe ++
      c.cpuThrottledTotal.Describe ++
      c.cpuPeriodsTotal.Describe ++
      describeOpt c.cpuPressureTotal ++
      c.metrics.Describe

/-- `CPUCollector.collectCgroupMetrics`: the stub of the source, which ignores the group. -/
def CPUCollector.collectCgroupMetrics {V : Type} (c : CPUCollector V) (_cgroup : CgroupInfo) :
    CPUCollector V :=
  { c with
    cpuUsageTotal := c.cpuUsageTotal.Add ["example".toList, "user".toList] 0
    cpuUserTotal := c.cpuUserTotal.Add ["example".toList] 0
    cpuSystemTotal := c.cpuSystemTotal.Add ["example".toList] 0 }

/-- The part of `CPUCollector.Collect` that follows the scan, on the result `r` of the scan:
the error branch, or the bookkeeping, the per-group loop and the emission of the samples;
the deferred function runs last in both. -/
def CPUCollector.collectWith {V : Type} (c : CPUCollector V) (env : ScrapeEnv)
    (r : Except WalkError (List CgroupInfo)) : CollectResult (CPUCollector V) :=
  match r with
  | .error _ =>
    { collector :=
        { c with
          metrics :=
            CollectorMetrics.deferred
              { c.metrics with ScrapeErrors := c.metrics.ScrapeErrors.Inc } env }
      samples := []
      scans := 1 }
  | .ok cgroups =>
    let c1 : CPUCollector V :=
      { c with
        metrics :=
          { c.metrics with CgroupsScraped := c.metrics.CgroupsScraped.Set cgroups.length } }
    let c2 := cgroups.foldl (fun acc cgroup => acc.collectCgroupMetrics cgroup) c1
    { collector := { c2 with metrics := c2.metrics.deferred env }
      samples :=
        c2.cpuUsageTotal.Collect ++
          c2.cpuUserTotal.Collect ++
          c2.cpuSystemTotal.Collect ++
          c2.cpuThrottledTotal.Collect ++
          c2.cpuPeriodsTotal.Collect ++
          collectOpt c2.cpuPressureTotal ++
          c2.metrics.Collect
      scans := 1 }

/-- `CPUCollector.Collect`. -/
def CPUCollector.Collect {V : Type} (c : CPUCollector V) (env : ScrapeEnv) :
    CollectResult (CPUCollector V) :=
  if !c.base.Enabled then { collector := c, samples := [], scans := 0 }
  else c.collectWith env (c.base.scanner.Scan Context.Background env.fs)


/-! ## `internal/collector/memory.go` -/

/-- The `MemoryCollector` struct: the embedded base collector, the self-observability metrics and
the metric vectors; a vector that `initMetrics` leaves nil is `none`. -/
structure MemoryCollector (V : Type) where
  base : BaseCollector V
  metrics : CollectorMetrics
  memoryUsageBytes : MetricVec
  memoryLimitBytes : MetricVec
  memoryCacheBytes : MetricVec
  memoryRSSBytes : MetricVec
  memoryOOMEvents : MetricVec
  memorySwapUsageBytes : Option MetricVec
  memoryPressureTotal : Option MetricVec

/-- `MemoryCollector.initMetrics`, on the base collector and self-observability metrics that
`NewMemoryCollector` has just built. -/
def MemoryCollector.initMetrics {V : Type} (base : BaseCollector V) (metrics : CollectorMetrics) :
    MemoryCollector V :=
  { base := base
    metrics := metrics
    memoryUsageBytes := NewGaugeVec
      { Namespace := "cgroup", Subsystem := "memory", Name := "usage_bytes",
        Help := "Current memory usage by cgroup" }
      ["cgroup"]
    memoryLimitBytes := NewGaugeVec
      { Namespace := "cgroup", Subsystem := "memory", Name := "limit_bytes",
        Help := "Memory limit for cgroup" }
      ["cgroup"]
    memoryCacheBytes := NewGaugeVec
      { Namespace := "cgroup", Subsystem := "memory", Name := "cache_bytes",
        Help := "Cache memory usage by cgroup" }
      ["cgroup"]
    memoryRSSBytes := NewGaugeVec
      { Namespace := "cgroup", Subsystem := "memory", Name := "rss_bytes",
        Help := "RSS memory usage by cgroup" }
      ["cgroup"]
    memoryOOMEvents := NewCounterVec
      { Namespace := "cgroup", Subsystem := "memory", Name := "oom_events_total",
        Help := "Total number of OOM events by cgroup" }
      ["cgroup"]
    memorySwapUsageBytes :=
      if base.config.Collectors.Memory.IncludeSwap then
        some (NewGaugeVec
          { Namespace := "cgroup", Subsystem := "memory", Name := "swap_usage_bytes",
            Help := "Swap usage by cgroup" }
          ["cgroup"])
      else none
    memoryPressureTotal :=
      if base.config.Collectors.Memory.IncludePressure then
        some (NewCounterVec
          { Namespace := "cgroup", Subsystem := "memory", Name := "pressure_seconds_total",
            Help := "Total memory pressure stall time by cgroup" }
          ["cgroup", "type"])
      else none }

/-- `NewMemoryCollector`. -/
def NewMemoryCollector {V : Type} (cfg : Config) : MemoryCollector V :=
  MemoryCollector.initMetrics (NewBaseCollector "memory" cfg.Collectors.Memory.Enabled cfg)
    (NewCollectorMetrics "memory")

/-- `MemoryCollector.Describe`: the descriptors sent on the channel, in order. -/
def MemoryCollector.Describe {V : Type} (c : MemoryCollector V) : List Desc :=
  if !c.base.Enabled then []
  else
    c.memoryUsageBytes.Describe ++
      c.memoryLimitBytes.Describe ++
      c.memoryCacheBytes.Describe ++
      c.memoryRSSBytes.Describe ++
      c.memoryOOMEvents.Describe ++
      describeOpt c.memorySwapUsageBytes ++
      describeOpt c.memoryPressureTotal ++
      c.metrics.Describe

/-- `MemoryCollector.collectCgroupMetrics`: the stub of the source, which ignores the group. -/
def MemoryCollector.collectCgroupMetrics {V : Type} (c : MemoryCollector V) (_cgroup : CgroupInfo) :
    MemoryCollector V :=
  { c with
    memoryUsageBytes := c.memoryUsageBytes.Set ["example".toList] 0
    memoryLimitBytes := c.memoryLimitBytes.Set ["example".toList] 0
    memoryCacheBytes := c.memoryCacheBytes.Set ["example".toList] 0 }

/-- The part of `MemoryCollector.Collect` that follows the scan, on the result `r` of the scan:
the error branch, or the bookkeeping, the per-group loop and the emission of the samples;
the deferred function runs last in both. -/
def MemoryCollector.collectWith {V : Type} (c : MemoryCollector V) (env : ScrapeEnv)
    (r : Except WalkError (List CgroupInfo)) : CollectResult (MemoryCollector V) :=
  match r with
  | .error _ =>
    { collector :=
        { c with
          metrics :=
            CollectorMetrics.deferred
              { c.metrics with ScrapeErrors := c.metrics.ScrapeErrors.Inc } env }
      samples := []
      scans := 1 }
  | .ok cgroups =>
    let c1 : MemoryCollector V :=
      { c with
        metrics :=
          { c.metrics with CgroupsScraped := c.metrics.CgroupsScraped.Set cgroups.length } }
    let c2 := cgroups.foldl (fun acc cgroup => acc.collectCgroupMetrics cgroup) c1
    { collector := { c2 with metrics := c2.metrics.deferred env }
      samples :=
        c2.memoryUsageBytes.Collect ++
          c2.memoryLimitBytes.Collect ++
          c2.memoryCacheBytes.Collect ++
          c2.memoryRSSBytes.Collect ++
          c2.memoryOOMEvents.Collect ++
          collectOpt c2.memorySwapUsageBytes ++
          collectOpt c2.memoryPressureTotal ++
          c2.metrics.Collect
      scans := 1 }

/-- `MemoryCollector.Collect`. -/
def MemoryCollector.Collect {V : Type} (c : MemoryCollector V) (env : ScrapeEnv) :
    CollectResult (MemoryCollector V) :=
  if !c.base.Enabled then { collector := c, samples := [], scans := 0 }
  else c.collectWith env (c.base.scanner.Scan Context.Background env.fs)


/-! ## `internal/collector/io.go` -/

/-- The `IOCollector` struct: the embedded base collector, the self-observability metrics and
the metric vectors; a vector that `initMetrics` leaves nil is `none`. -/
structure IOCollector (V : Type) where
  base : BaseCollector V
  metrics : CollectorMetrics
  ioReadBytesTotal : MetricVec
  ioWriteBytesTotal : MetricVec
  ioReadOpsTotal : MetricVec
  ioWriteOpsTotal : MetricVec
  ioPressureTotal : Option MetricVec

/-- `IOCollector.initMetrics`, on the base collector and self-observability metrics that
`NewIOCollector` has just built. -/
def IOCollector.initMetrics {V : Type} (base : BaseCollector V) (metrics : CollectorMetrics) :
    IOCollector V :=
  { base := base
    metrics := metrics
    ioReadBytesTotal := NewCounterVec
      { Namespace := "cgroup", Subsystem := "io", Name := "read_bytes_total",
        Help := "Total bytes read by cgroup" }
      ["cgroup", "device"]
    ioWriteBytesTotal := NewCounterVec
      { Namespace := "cgroup", Subsystem := "io", Name := "write_bytes_total",
        Help := "Total bytes written by cgroup" }
      ["cgroup", "device"]
    ioReadOpsTotal := NewCounterVec
      { Namespace := "cgroup", Subsystem := "io", Name := "read_operations_total",
        Help := "Total read operations by cgroup" }
      ["cgroup", "device"]
    ioWriteOpsTotal := NewCounterVec
      { Namespace := "cgroup", Subsystem := "io", Name := "write_operations_total",
        Help := "Total write operations by cgroup" }
      ["cgroup", "device"]
    ioPressureTotal :=
      if base.config.Collectors.Io.IncludePressure then
        some (NewCounterVec
          { Namespace := "cgroup", Subsystem := "io", Name := "pressure_seconds_total",
            Help := "Total I/O pressure stall time by cgroup" }
          ["cgroup", "type"])
      else none }

/-- `NewIOCollector`. -/
def NewIOCollector {V : Type} (cfg : Config) : IOCollector V :=
  IOCollector.initMetrics (NewBaseCollector "io" cfg.Collectors.Io.Enabled cfg)
    (NewCollectorMetrics "io")

/-- `IOCollector.Describe`: the descriptors sent on the channel, in order. -/
def IOCollector.Describe {V : Type} (c : IOCollector V) : List Desc :=
  if !c.base.Enabled then []
  else
    c.ioReadBytesTotal.Describe ++
      c.ioWriteBytesTotal.Describe ++
      c.ioReadOpsTotal.Describe ++
      c.ioWriteOpsTotal.Describe ++
      describeOpt c.ioPressureTotal ++
      c.metrics.Describe

/-- `IOCollector.collectCgroupMetrics`: the stub of the source, which ignores the group. -/
def IOCollector.collectCgroupMetrics {V : Type} (c : IOCollector V) (_cgroup : CgroupInfo) :
    IOCollector V :=
  { c with
    ioReadBytesTotal := c.ioReadBytesTotal.Add ["example".toList, "sda".toList] 0
    ioWriteBytesTotal := c.ioWriteBytesTotal.Add ["example".toList, "sda".toList] 0 }

/-- The part of `IOCollector.Collect` that follows the scan, on the result `r` of the scan:
the error branch, or the bookkeeping, the per-group loop and the emission of the samples;
the deferred function runs last in both. -/
def IOCollector.collectWith {V : Type} (c : IOCollector V) (env : ScrapeEnv)
    (r : Except WalkError (List CgroupInfo)) : CollectResult (IOCollector V) :=
  match r with
  | .error _ =>
    { collector :=
        { c with
          metrics :=
            CollectorMetrics.deferred
              { c.metrics with ScrapeErrors := c.metrics.ScrapeErrors.Inc } env }
      samples := []
      scans := 1 }
  | .ok cgroups =>
    let c1 : IOCollector V :=
      { c with
        metrics :=
          { c.metrics with CgroupsScraped := c.metrics.CgroupsScraped.Set cgroups.length } }
    let c2 := cgroups.foldl (fun acc cgroup => acc.collectCgroupMetrics cgroup) c1
    { collector := { c2 with metrics := c2.metrics.deferred env }
      samples :=
        c2.ioReadBytesTotal.Collect ++
          c2.ioWriteBytesTotal.Collect ++
          c2.ioReadOpsTotal.Collect ++
          c2.ioWriteOpsTotal.Collect ++
          collectOpt c2.ioPressureTotal ++
          c2.metrics.Collect
      scans := 1 }

/-- `IOCollector.Collect`. -/
def IOCollector.Collect {V : Type} (c : IOCollector V) (env : ScrapeEnv) :
    CollectResult (IOCollector V) :=
  if !c.base.Enabled then { collector := c, samples := [], scans := 0 }
  else c.collectWith env (c.base.scanner.Scan Context.Background env.fs)


/-! ## `internal/collector/pids.go` -/

/-- The `PIDsCollector` struct: the embedded base collector, the self-observability metrics and
the metric vectors; a vector that `initMetrics` leaves nil is `none`. -/
structure PIDsCollector (V : Type) where
  base : BaseCollector V
  metrics : CollectorMetrics
  processesCount : MetricVec
  processesRunning : MetricVec
  processesSleeping : MetricVec
  processesZombie : MetricVec

/-- `PIDsCollector.initMetrics`, on the base collector and self-observability metrics that
`NewPIDsCollector` has just built. -/
def PIDsCollector.initMetrics {V : Type} (base : BaseCollector V) (metrics : CollectorMetrics) :
    PIDsCollector V :=
  { base := base
    metrics := metrics
    processesCount := NewGaugeVec
      { Namespace := "cgroup", Subsystem := "processes", Name := "count",
        Help := "Number of processes in cgroup" }
      ["cgroup"]
    processesRunning := NewGaugeVec
      { Namespace := "cgroup", Subsystem := "processes", Name := "running",
        Help := "Number of running processes in cgroup" }
      ["cgroup"]
    processesSleeping := NewGaugeVec
      { Namespace := "cgroup", Subsystem := "processes", Name := "sleeping",
        Help := "Number of sleeping processes in cgroup" }
      ["cgroup"]
    processesZombie := NewGaugeVec
      { Namespace := "cgroup", Subsystem := "processes", Name := "zombie",
        Help := "Number of zombie processes in cgroup" }
      ["cgroup"] }

/-- `NewPIDsCollector`. -/
def NewPIDsCollector {V : Type} (cfg : Config) : PIDsCollector V :=
  PIDsCollector.initMetrics (NewBaseCollector "pids" cfg.Collectors.PIDs.Enabled cfg)
    (NewCollectorMetrics "pids")

/-- `PIDsCollector.Describe`: the descriptors sent on the channel, in order. -/
def PIDsCollector.Describe {V : Type} (c : PIDsCollector V) : List Desc :=
  if !c.base.Enabled then []
  else
    c.processesCount.Describe ++
      c.processesRunning.Describe ++
      c.processesSleeping.Describe ++
      c.processesZombie.Describe ++
      c.metrics.Describe

/-- `PIDsCollector.collectCgroupMetrics`: the stub of the source, which ignores the group. -/
def PIDsCollector.collectCgroupMetrics {V : Type} (c : PIDsCollector V) (_cgroup : CgroupInfo) :
    PIDsCollector V :=
  { c with
    processesCount := c.processesCount.Set ["example".toList] 0
    processesRunning := c.processesRunning.Set ["example".toList] 0 }

/-- The part of `PIDsCollector.Collect` that follows the scan, on the result `r` of the scan:
the error branch, or the bookkeeping, the per-group loop and the emission of the samples;
the deferred function runs last in both. -/
def PIDsCollector.collectWith {V : Type} (c : PIDsCollector V) (env : ScrapeEnv)
    (r : Except WalkError (List CgroupInfo)) : CollectResult (PIDsCollector V) :=
  match r with
  | .error _ =>
    { collector :=
        { c with
          metrics :=
            CollectorMetrics.deferred
              { c.metrics with ScrapeErrors := c.metrics.ScrapeErrors.Inc } env }
      samples := []
      scans := 1 }
  | .ok cgroups =>
    let c1 : PIDsCollector V :=
      { c with
        metrics :=
          { c.metrics with CgroupsScraped := c.metrics.CgroupsScraped.Set cgroups.length } }
    let c2 := cgroups.foldl (fun acc cgroup => acc.collectCgroupMetrics cgroup) c1
    { collector := { c2 with metrics := c2.metrics.deferred env }
      samples :=
        c2.processesCount.Collect ++
          c2.processesRunning.Collect ++
          c2.processesSleeping.Collect ++
          c2.processesZombie.Collect ++
          c2.metrics.Collect
      scans := 1 }

/-- `PIDsCollector.Collect`. -/
def PIDsCollector.Collect {V : Type} (c : PIDsCollector V) (env : ScrapeEnv) :
    CollectResult (PIDsCollector V) :=
  if !c.base.Enabled then { collector := c, samples := [], scans := 0 }
  else c.collectWith env (c.base.scanner.Scan Context.Background env.fs)


/-! ## `internal/collector/collector.go`: the collector registry -/

/-- The `Collector` interface, over the four types that implement it. -/
inductive Collector (V : Type) where
  | cpu (c : CPUCollector V) : Collector V
  | memory (c : MemoryCollector V) : Collector V
  | io (c : IOCollector V) : Collector V
  | pids (c : PIDsCollector V) : Collector V

/-- `Collector.Name`, through the embedded base collector. -/
def Collector.Name {V : Type} : Collector V → String
  | .cpu c => c.base.Name
  | .memory c => c.base.Name
  | .io c => c.base.Name
  | .pids c => c.base.Name

/-- `Collector.Enabled`, through the embedded base collector. -/
def Collector.Enabled {V : Type} : Collector V → Bool
  | .cpu c => c.base.Enabled
  | .memory c => c.base.Enabled
  | .io c => c.base.Enabled
  | .pids c => c.base.Enabled

/-- `Collector.Describe`. -/
def Collector.Describe {V : Type} : Collector V → List Desc
  | .cpu c => c.Describe
  | .memory c => c.Describe
  | .io c => c.Describe
  | .pids c => c.Describe

/-- `NewCollectors`: the map of the enabled collectors, or the error. -/
def NewCollectors {V : Type} (cfg : Config) : Except String (GoMap (Collector V)) :=
  let collectors0 : GoMap (Collector V) := GoMap.make
  let collectors1 :=
    if cfg.Collectors.CPU.Enabled then collectors0.set "cpu" (.cpu (NewCPUCollector cfg))
    else collectors0
  let collectors2 :=
    if cfg.Collectors.Memory.Enabled then
      collectors1.set "memory" (.memory (NewMemoryCollector cfg))
    else collectors1
  let collectors3 :=
    if cfg.Collectors.Io.Enabled then collectors2.set "io" (.io (NewIOCollector cfg))
    else collectors2
  let collectors4 :=
    if cfg.Collectors.PIDs.Enabled then collectors3.set "pids" (.pids (NewPIDsCollector cfg))
    else collectors3
  if collectors4.len = 0 then .error "no collectors enabled"
  else .ok collectors4

/-! ## Notions used to state the properties -/

mutual
/-- Every directory of the tree can be listed. -/
def FsNode.allListable : FsNode → Bool
  | .dir l es => l && es.allListable
  | .file _ => true
  | .broken _ => true
/-- Every directory below the entries can be listed. -/
def FsEntries.allListable : FsEntries → Bool
  | .nil => true
  | .cons _ node rest => node.allListable && rest.allListable
end

/-- The path at or below `root` with relative part `rel`: `root` itself for the empty `rel`,
and `root + "/" + rel` otherwise. -/
def pathBelow (root rel : GoString) : GoString :=
  if rel = [] then root else root ++ '/' :: rel

/-- A relative path whose derived name cannot clash: it holds no `.` and is not `root`. -/
def plainRel (rel : GoString) : Prop :=
  '.' ∉ rel ∧ rel ≠ "root".toList

/-! ## Sample inputs -/

/-- A controller-list file that can be read. -/
def controllersFile : FsNode :=
  .file (some "cpu memory io pids\n".toList)

/-- A control group that cannot be listed (search permission without read permission),
although its controller-list file can be read. -/
def unlistableGroup : FsNode :=
  .dir false (.cons controllersName controllersFile .nil)

/-- A hierarchy with the groups `a`, `a/b` and `a.b` below the root group. -/
def clashTree : FsNode :=
  .dir true
    (.cons "a".toList
      (.dir true
        (.cons "b".toList (.dir true (.cons controllersName controllersFile .nil))
          (.cons controllersName controllersFile .nil)))
      (.cons "a.b".toList (.dir true (.cons controllersName controllersFile .nil))
        (.cons controllersName controllersFile .nil)))

/-- A hierarchy with the single group `root` below the root group. -/
def rootNamedTree : FsNode :=
  .dir true
    (.cons controllersName controllersFile
      (.cons "root".toList (.dir true (.cons controllersName controllersFile .nil)) .nil))

/-- The default hierarchy root. -/
def sysFsCgroup : GoString :=
  "/sys/fs/cgroup".toList

/-- The configuration of the tests of the source, with a cache duration of `ttl` and the
four collectors switched as given. -/
def sampleConfig (ttl : Int) (cpu memory io pids : Bool) : Config :=
  { Web := { ListenAddress := ":9753", TelemetryPath := "/metrics" }
    Cgroup := { Path := sysFsCgroup, RefreshInterval := 15000000000 }
    Collectors :=
      { CPU := { Enabled := cpu, IncludePressure := true }
        Memory := { Enabled := memory, IncludePressure := true, IncludeSwap := true }
        Io := { Enabled := io, IncludePressure := true, Devices := [] }
        PIDs := { Enabled := pids } }
    Logging := { Level := "info", Format := "logfmt" }
    Advanced := { MaxCgroups := 10000, ScanInterval := 30000000000, CacheDuration := ttl } }

/-- A base collector with a cache of numbers and a cache duration of `ttl`. -/
def sampleBase (ttl : Int) : BaseCollector Nat :=
  NewBaseCollector "test" true (sampleConfig ttl true true true true)

/-- A scrape of the tree `fs` that starts at `1000` and ends at `2000`. -/
def sampleEnv (fs : FsNode) : ScrapeEnv :=
  { fs := fs, start := 1000, finished := 2000, stamped := 2001 }


/-! ## `internal/config/config.go`: validation -/

/-- The map literal `validLogLevels` of `validate`. -/
def validLogLevels : GoMap Bool :=
  { entries := [("debug", true), ("info", true), ("warn", true), ("error", true)] }

/-- The map literal `validLogFormats` of `validate`. -/
def validLogFormats : GoMap Bool :=
  { entries := [("logfmt", true), ("json", true)] }

/-- Go `m[k]` on a `map[string]bool`: the zero value `false` for an absent key. -/
def GoMap.index (m : GoMap Bool) (k : String) : Bool :=
  (m.get k).getD false

/-- `validate`: the message of the error it returns, or `none` for a nil error. -/
def validate (config : Config) : Option String :=
  if config.Web.ListenAddress = "" then some "web.listen_address cannot be empty"
  else if config.Web.TelemetryPath = "" then some "web.telemetry_path cannot be empty"
  else if config.Cgroup.Path = [] then some "cgroup.path cannot be empty"
  else if config.Cgroup.RefreshInterval ≤ 0 then some "cgroup.refresh_interval must be positive"
  else if !validLogLevels.index config.Logging.Level then
    some ("invalid log level: " ++ config.Logging.Level)
  else if !validLogFormats.index config.Logging.Format then
    some ("invalid log format: " ++ config.Logging.Format)
  else if config.Advanced.MaxCgroups ≤ 0 then some "advanced.max_cgroups must be positive"
  else if config.Advanced.ScanInterval ≤ 0 then some "advanced.scan_interval must be positive"
  else if config.Advanced.CacheDuration ≤ 0 then some "advanced.cache_duration must be positive"
  else none

/-! ## Further notions used to state the properties -/

mutual
/-- The paths of the directories of the tree at `path` that hold a readable controller-list
file, parents before children and entries in listing order. -/
def FsNode.groupPaths (path : GoString) : FsNode → List GoString
  | .dir l es =>
    (if (FsNode.dir l es).holdsControllers then [path] else []) ++ es.groupPaths path
  | .file _ => []
  | .broken _ => []
/-- The paths of such directories below the entries of the directory at `path`. -/
def FsEntries.groupPaths (path : GoString) : FsEntries → List GoString
  | .nil => []
  | .cons name node rest => node.groupPaths (Join path name) ++ rest.groupPaths path
end

mutual
/-- The paths of the directories that hold a readable controller-list file and can be listed,
as can every directory above them, in the same order. -/
def FsNode.listedGroupPaths (path : GoString) : FsNode → List GoString
  | .dir l es =>
    if l then
      (if (FsNode.dir l es).holdsControllers then [path] else []) ++ es.listedGroupPaths path
    else []
  | .file _ => []
  | .broken _ => []
/-- The paths of such directories below the entries of the directory at `path`. -/
def FsEntries.listedGroupPaths (path : GoString) : FsEntries → List GoString
  | .nil => []
  | .cons name node rest =>
    node.listedGroupPaths (Join path name) ++ rest.listedGroupPaths path
end

/-- The reference definition of the derived name, on the path relative to the hierarchy
root: `root` for the root itself, and otherwise the relative path with every `/` replaced
by `.`. -/
def referenceName (rel : GoString) : GoString :=
  if rel = [] then "root".toList
  else rel.map fun c => if c = '/' then '.' else c

/-- The descriptors that the four collectors built from `cfg` describe, CPU first, then
memory, I/O and PIDs. -/
def describedDescs (V : Type) (cfg : Config) : List Desc :=
  (NewCPUCollector cfg : CPUCollector V).Describe ++
    (NewMemoryCollector cfg : MemoryCollector V).Describe ++
    (NewIOCollector cfg : IOCollector V).Describe ++
    (NewPIDsCollector cfg : PIDsCollector V).Describe

/-- The fully-qualified names of the metrics that the four collectors built from `cfg`
describe. -/
def describedNames (V : Type) (cfg : Config) : List String :=
  (describedDescs V cfg).map Desc.fqName

/-- The descriptor `d` names a metric `<ns>_<sub>_<name>`, built by `BuildFQName` from the
namespace `ns`, the subsystem `sub` and a non-empty name. -/
def namedUnder (ns sub : String) (d : Desc) : Prop :=
  ∃ name : String, name ≠ "" ∧ d.fqName = BuildFQName ns sub name ∧
    d.fqName = ns ++ "_" ++ sub ++ "_" ++ name

/-- The subsystems that the naming convention of the specification lists. -/
def specSubsystems : List String :=
  ["cpu", "memory", "io", "processes"]

/-- A metric name of the form `<namespace>_<subsystem>_<name>` for one of the given
subsystems. -/
def hasSubsystemForm (subsystems : List String) (fqName : String) : Prop :=
  ∃ ns sub name : String, ns ≠ "" ∧ name ≠ "" ∧ sub ∈ subsystems ∧
    fqName = ns ++ "_" ++ sub ++ "_" ++ name

/-! ## Further sample inputs -/

/-- A control group without children. -/
def leafGroup : FsNode :=
  .dir true (.cons controllersName controllersFile .nil)

/-- The two-level hierarchy of the end-to-end scenario: the groups `workload-a` and
`workload-b` below a root that holds no controller-list file. -/
def workloadTree : FsNode :=
  .dir true (.cons "workload-a".toList leafGroup (.cons "workload-b".toList leafGroup .nil))

/-- A root group with one child group `a` that cannot be listed, although its controller-list
file can be read. -/
def hiddenGroupTree : FsNode :=
  .dir true (.cons "a".toList unlistableGroup (.cons controllersName controllersFile .nil))

/-- A root group with four entries: `gone`, which cannot be stat'ed; `locked`, a directory
whose controller-list file cannot be read, with a child group `inner`; and the groups `ok1`
and `ok2`. -/
def faultyTree : FsNode :=
  .dir true
    (.cons controllersName controllersFile
      (.cons "gone".toList (.broken .notExist)
        (.cons "locked".toList
          (.dir true (.cons controllersName (.file none) (.cons "inner".toList leafGroup .nil)))
          (.cons "ok1".toList leafGroup (.cons "ok2".toList leafGroup .nil)))))

/-- The configuration of the tests of the source with everything enabled and a maximum of
`max` groups. -/
def cappedConfig (max : Int) : Config :=
  { sampleConfig 60 true true true true with
    Advanced := { MaxCgroups := max, ScanInterval := 30000000000, CacheDuration := 60 } }


/-! ## Notions for the cancellation signal, the visits of the walk, the labels of the samples
and the feature toggles -/

/-- A context that is already cancelled. -/
def cancelledContext : Context :=
  { done := true }

/-- The scan callback with a log of its calls: besides the captured `cgroups` slice, the
state holds the paths the callback has been called on, in order. -/
def Scanner.visitFn (s : Scanner) : WalkFunc (List CgroupInfo × List GoString) :=
  fun st path info err =>
    (((s.scanFn st.1 path info err).1, st.2 ++ [path]), (s.scanFn st.1 path info err).2)

/-- The metric vectors a CPU collector holds, in the order of the struct fields: the five
fixed ones, and the pressure vector when its pointer is not nil. -/
def CPUCollector.vecs {V : Type} (c : CPUCollector V) : List MetricVec :=
  [c.cpuUsageTotal, c.cpuUserTotal, c.cpuSystemTotal, c.cpuThrottledTotal, c.cpuPeriodsTotal]
    ++ c.cpuPressureTotal.toList

/-- The metric vectors a memory collector holds, in the order of the struct fields: the five
fixed ones, then the swap and the pressure vector when their pointers are not nil. -/
def MemoryCollector.vecs {V : Type} (c : MemoryCollector V) : List MetricVec :=
  [c.memoryUsageBytes, c.memoryLimitBytes, c.memoryCacheBytes, c.memoryRSSBytes,
    c.memoryOOMEvents] ++ c.memorySwapUsageBytes.toList ++ c.memoryPressureTotal.toList

/-- The metric vectors an I/O collector holds, in the order of the struct fields: the four
fixed ones, and the pressure vector when its pointer is not nil. -/
def IOCollector.vecs {V : Type} (c : IOCollector V) : List MetricVec :=
  [c.ioReadBytesTotal, c.ioWriteBytesTotal, c.ioReadOpsTotal, c.ioWriteOpsTotal]
    ++ c.ioPressureTotal.toList

/-- The names of the metric families a collector describes. -/
def describedFamilies (descs : List Desc) : List String :=
  descs.map Desc.fqName

/-- The fixed business families of the CPU collector. -/
def cpuFixedFamilies : List String :=
  ["cgroup_cpu_usage_seconds_total", "cgroup_cpu_user_seconds_total",
    "cgroup_cpu_system_seconds_total", "cgroup_cpu_throttled_seconds_total",
    "cgroup_cpu_periods_total"]

/-- The fixed business families of the memory collector. -/
def memoryFixedFamilies : List String :=
  ["cgroup_memory_usage_bytes", "cgroup_memory_limit_bytes", "cgroup_memory_cache_bytes",
    "cgroup_memory_rss_bytes", "cgroup_memory_oom_events_total"]

/-- The fixed business families of the I/O collector. -/
def ioFixedFamilies : List String :=
  ["cgroup_io_read_bytes_total", "cgroup_io_write_bytes_total",
    "cgroup_io_read_operations_total", "cgroup_io_write_operations_total"]

/-- The configuration of the tests of the source with the memory collector disabled and its
two toggles set. -/
def memoryOffConfig : Config :=
  sampleConfig 60 true false true true

/-- The configuration of the tests of the source with every collector enabled and every
feature toggle cleared. -/
def togglesOffConfig : Config :=
  { sampleConfig 60 true true true true with
    Collectors :=
      { CPU := { Enabled := true, IncludePressure := false }
        Memory := { Enabled := true, IncludePressure := false, IncludeSwap := false }
        Io := { Enabled := true, IncludePressure := false, Devices := [] }
        PIDs := { Enabled := true } } }

/-- The names of the metric families of a list of samples. -/
def sampleFamilies (samples : List Sample) : List String :=
  samples.map fun x => x.desc.fqName

/-- Every child of the vector has `example` as its first label value. -/
def MetricVec.allExample (v : MetricVec) : Prop :=
  ∀ p ∈ v.children, p.1.head? = some "example".toList

/-- The family name and the label values of each sample of a list. -/
def sampleLabels (samples : List Sample) : List (String × List GoString) :=
  samples.map fun x => (x.desc.fqName, x.labelValues)

/-- A CPU pressure vector that has received the value `7` under the label values
`workload-a`, `some`. -/
def pressuredVec : MetricVec :=
  (NewCounterVec
    { Namespace := "cgroup", Subsystem := "cpu", Name := "pressure_seconds_total",
      Help := "Total CPU pressure stall time by cgroup" }
    ["cgroup", "type"]).Add ["workload-a".toList, "some".toList] 7

/-- The CPU collector of the test configuration, holding `pressuredVec` as its pressure
vector. -/
def pressuredCPUCollector : CPUCollector Nat :=
  { (NewCPUCollector (sampleConfig 60 true true true true) : CPUCollector Nat) with
    cpuPressureTotal := some pressuredVec }

theorem capped_capped (M k a b : Nat) : capped M (capped M k a) b = capped M k (a + b) := by
  unfold capped
  split_ifs <;> omega

theorem capped_zero (M k : Nat) : capped M k 0 = k := by
  unfold capped
  split_ifs <;> omega

/-- The callback on a directory that was listed without error. -/
theorem scanFn_dir (s : Scanner) (st : List CgroupInfo) (path : GoString) (l : Bool)
    (es : FsEntries) :
    s.scanFn st path (some (.dir l es)) none =
      if (st.length : Int) ≥ s.maxCgroups then (st, some .SkipDir)
      else
        match osReadFile (.dir l es) controllersName with
        | .ok c =>
          (st ++ [{ Path := path, Name := s.getCgroupName path,
                    Controllers := Fields (TrimSpace c) }], none)
        | .error _ => (st, none) := by
  by_cases h1 : (st.length : Int) ≥ s.maxCgroups
  · simp [Scanner.scanFn, FsNode.IsDir, h1]
  · cases hl : (FsNode.dir l es).entries.lookup controllersName with
    | none => simp [Scanner.scanFn, FsNode.IsDir, h1, Scanner.readControllers, osStat, osReadFile, hl, IsNotExist]
    | some n =>
      cases n with
      | broken e => cases e <;> simp [Scanner.scanFn, FsNode.IsDir, h1, Scanner.readControllers, osStat, osReadFile, hl, IsNotExist]
      | file c => cases c <;> simp [Scanner.scanFn, FsNode.IsDir, h1, Scanner.readControllers, osStat, osReadFile, hl, IsNotExist]
      | dir l2 es2 => simp [Scanner.scanFn, FsNode.IsDir, h1, Scanner.readControllers, osStat, osReadFile, hl, IsNotExist]

/-- The callback on a path that was reached with an error. -/
theorem scanFn_err (s : Scanner) (st : List CgroupInfo) (path : GoString)
    (info : Option FsNode) (e : IOError) :
    s.scanFn st path info (some e) = (st, none) := by
  simp [Scanner.scanFn]

/-- The callback on a non-directory. -/
theorem scanFn_file (s : Scanner) (st : List CgroupInfo) (path : GoString)
    (c : Option GoString) :
    s.scanFn st path (some (.file c)) none = (st, none) := by
  simp [Scanner.scanFn, FsNode.IsDir]

theorem walk_scan_dir_true (s : Scanner) (path : GoString) (es : FsEntries)
    (st : List CgroupInfo) :
    walk s.scanFn path (.dir true es) st =
      if (s.scanFn st path (some (.dir true es)) none).2 ≠ none then
        s.scanFn st path (some (.dir true es)) none
      else walkNames s.scanFn path es (s.scanFn st path (some (.dir true es)) none).1 := by
  rw [walk]
  simp

theorem walk_scan_dir_false (s : Scanner) (path : GoString) (es : FsEntries)
    (st : List CgroupInfo) :
    walk s.scanFn path (.dir false es) st = (st, none) := by
  rw [walk]
  simp [scanFn_err]

theorem walk_scan_file (s : Scanner) (path : GoString) (c : Option GoString)
    (st : List CgroupInfo) :
    walk s.scanFn path (.file c) st = (st, none) := by
  rw [walk]
  simp [scanFn_file]

theorem walk_scan_broken (s : Scanner) (path : GoString) (e : IOError)
    (st : List CgroupInfo) :
    walk s.scanFn path (.broken e) st = (st, none) := by
  rw [walk]
  simp [scanFn_err]

mutual
/-- The walk of a subtree under the scan callback: the length of the node list grows to the
cap and no more, and the only error that comes back is `SkipDir`, from a directory. -/
theorem walk_scan_length (s : Scanner) (M : Nat) (hM : s.maxCgroups = (M : Int))
    (node : FsNode) (path : GoString) (st : List CgroupInfo) :
    (walk s.scanFn path node st).1.length = capped M st.length node.countListed ∧
      ((walk s.scanFn path node st).2 = none ∨
        ((walk s.scanFn path node st).2 = some .SkipDir ∧ node.IsDir = true)) := by
  cases node with
  | broken e => simp [walk_scan_broken, FsNode.countListed, capped_zero]
  | file c => simp [walk_scan_file, FsNode.countListed, capped_zero]
  | dir l es =>
    cases l with
    | false => simp [walk_scan_dir_false, FsNode.countListed, capped_zero]
    | true =>
      rw [walk_scan_dir_true, scanFn_dir]
      by_cases h1 : (st.length : Int) ≥ s.maxCgroups
      · have h2 : M ≤ st.length := by rw [hM] at h1; exact_mod_cast h1
        simp [h1, capped, h2, FsNode.IsDir]
      · have h2 : ¬ M ≤ st.length := by rw [hM] at h1; exact_mod_cast h1
        have ih := walkNames_scan_length s M hM es path
        cases hr : osReadFile (FsNode.dir true es) controllersName with
        | error e =>
          simp only [h1, if_false, ne_eq, not_true_eq_false]
          simp [FsNode.countListed, FsNode.holdsControllers, hr, ih]
        | ok c =>
          simp only [h1, if_false, ne_eq, not_true_eq_false]
          have h3 := ih (st ++ [⟨path, s.getCgroupName path, Fields (TrimSpace c)⟩])
          simp only [FsNode.countListed, FsNode.holdsControllers, hr, if_true, h3]
          refine ⟨?_, Or.inl trivial⟩
          rw [← capped_capped]
          congr 1
          simp [capped, h2]
          omega
/-- The walk of the entries of a directory under the scan callback. -/
theorem walkNames_scan_length (s : Scanner) (M : Nat) (hM : s.maxCgroups = (M : Int))
    (es : FsEntries) (path : GoString) (st : List CgroupInfo) :
    (walkNames s.scanFn path es st).1.length = capped M st.length es.countListed ∧
      (walkNames s.scanFn path es st).2 = none := by
  cases es with
  | nil => simp [walkNames, FsEntries.countListed, capped_zero]
  | cons name node rest =>
    have ihr := walkNames_scan_length s M hM rest path
    cases node with
    | broken e =>
      rw [walkNames]
      simp [scanFn_err, FsEntries.countListed, FsNode.countListed, ihr]
    | file c =>
      rw [walkNames]
      simp [walk_scan_file, FsEntries.countListed, FsNode.countListed, ihr]
    | dir l es1 =>
      have ihn := walk_scan_length s M hM (.dir l es1) (Join path name) st
      rw [walkNames]
      have hne : ¬ ((walk s.scanFn (Join path name) (.dir l es1) st).2 ≠ none ∧
          (walk s.scanFn (Join path name) (.dir l es1) st).2 ≠ some .SkipDir) := by
        rcases ihn.2 with h | h
        · simp [h]
        · simp [h.1]
      rw [if_neg hne]
      refine ⟨?_, (ihr _).2⟩
      rw [(ihr _).1, ihn.1, capped_capped]
      rfl
end


/-! ## The scan: how many nodes it returns -/

/-- The scan under a cap `M`: the walk from the root never ends in an error and gathers
`min n M` nodes, `n` being the number of listed control groups. -/
theorem Scan_eq_ok (root : GoString) (M : Nat) (ctx : Context) (fs : FsNode) :
    ∃ l, ((NewScanner root).SetMaxCgroups M).Scan ctx fs = .ok l ∧
      l.length = min fs.countListed M := by
  set s := (NewScanner root).SetMaxCgroups M with hs
  have hM : s.maxCgroups = (M : Int) := rfl
  have hw := walk_scan_length s M hM fs s.cgroupPath []
  have hcap : capped M 0 fs.countListed = min fs.countListed M := by
    unfold capped
    split_ifs <;> omega
  have hW : Walk s.scanFn s.cgroupPath fs [] = ((walk s.scanFn s.cgroupPath fs []).1, none) := by
    cases fs with
    | broken e => simp [Walk, walk_scan_broken, scanFn_err]
    | file c =>
      rcases hw.2 with h | h
      · simp [Walk, h]
        exact Prod.ext rfl h
      · simp [Walk, h.1]
    | dir l es =>
      rcases hw.2 with h | h
      · simp [Walk, h]
        exact Prod.ext rfl h
      · simp [Walk, h.1]
  refine ⟨(walk s.scanFn s.cgroupPath fs []).1, ?_, ?_⟩
  · simp [Scanner.Scan, hW]
  · rw [hw.1]
    simpa using hcap

mutual
theorem countListed_eq_countGroups (node : FsNode) (h : node.allListable = true) :
    node.countListed = node.countGroups := by
  cases node with
  | broken e => simp [FsNode.countListed, FsNode.countGroups]
  | file c => simp [FsNode.countListed, FsNode.countGroups]
  | dir l es =>
    simp only [FsNode.allListable, Bool.and_eq_true] at h
    obtain ⟨hl, hes⟩ := h
    subst hl
    simp [FsNode.countListed, FsNode.countGroups, countListed_eq_countGroups_entries es hes]
theorem countListed_eq_countGroups_entries (es : FsEntries) (h : es.allListable = true) :
    es.countListed = es.countGroups := by
  cases es with
  | nil => simp [FsEntries.countListed, FsEntries.countGroups]
  | cons name node rest =>
    simp only [FsEntries.allListable, Bool.and_eq_true] at h
    simp [FsEntries.countListed, FsEntries.countGroups, countListed_eq_countGroups node h.1,
      countListed_eq_countGroups_entries rest h.2]
end

/-- C1 (as stated, refuted): the hierarchy root is a control group that can be searched but
not listed; it holds a readable `cgroup.controllers` file, so `N = 1`, yet under the cap
`M = 5` the scan does not return `min 1 5 = 1` node (it returns none). -/
theorem Scan_count_unlistable_counterexample :
    ¬ ∃ l, ((NewScanner sysFsCgroup).SetMaxCgroups 5).Scan Context.Background unlistableGroup
        = .ok l ∧ l.length = min unlistableGroup.countGroups 5 := by
  rintro ⟨l, h1, h2⟩
  have h3 : ((NewScanner sysFsCgroup).SetMaxCgroups 5).Scan Context.Background unlistableGroup
      = .ok [] := by decide
  rw [h3] at h1
  cases h1
  revert h2
  decide

/-- C1 (amended): for every hierarchy tree and every cap `M ≥ 0` set with `SetMaxCgroups`,
`Scan` returns no error and exactly `min N' M` nodes, where `N'` counts the directories that
hold a readable `cgroup.controllers` file and can be listed, as can every directory above
them; when every directory of the tree can be listed, `N'` is the number `N` of directories
that hold a readable `cgroup.controllers` file. -/
theorem Scan_returns_min_listed_cap (root : GoString) (M : Nat) (ctx : Context) (fs : FsNode) :
    ∃ l, ((NewScanner root).SetMaxCgroups M).Scan ctx fs = .ok l ∧
      l.length = min fs.countListed M ∧ l.length ≤ M ∧
      (fs.allListable = true → l.length = min fs.countGroups M) := by
  obtain ⟨l, h1, h2⟩ := Scan_eq_ok root M ctx fs
  refine ⟨l, h1, h2, ?_, ?_⟩
  · omega
  · intro h
    rw [h2, countListed_eq_countGroups fs h]

/-- The amended C1 at the tree `clashTree`, all of whose directories can be listed, under the
cap `2`. -/
theorem Scan_returns_min_listed_cap_witness :
    clashTree.allListable = true ∧
      ∃ l, ((NewScanner sysFsCgroup).SetMaxCgroups (2 : Nat)).Scan Context.Background clashTree
          = .ok l ∧ l.length = min clashTree.countGroups 2 := by
  refine ⟨by decide, ?_⟩
  obtain ⟨l, h1, _, _, h4⟩ :=
    Scan_returns_min_listed_cap sysFsCgroup 2 Context.Background clashTree
  exact ⟨l, h1, h4 (by decide)⟩

/-! ## The scan: an unreadable root -/

/-- C2 (the code at the failing input): when `lstat` of the hierarchy root fails (the root
does not exist, say), or when the root directory cannot be listed, `Scan` returns the empty
node list and no error. -/
theorem Scan_unreadable_root_returns_no_error (s : Scanner) (ctx : Context) :
    (∀ e : IOError, s.Scan ctx (.broken e) = .ok []) ∧
      (∀ es : FsEntries, s.Scan ctx (.dir false es) = .ok []) := by
  constructor
  · intro e
    simp [Scanner.Scan, Walk, scanFn_err]
  · intro es
    simp [Scanner.Scan, Walk, walk_scan_dir_false]


/-! ## The scan: the nodes it returns -/

/-- The first component of `Walk` is the state the walk from the root ends in. -/
theorem Walk_fst {σ : Type} (fn : WalkFunc σ) (root : GoString) (fs : FsNode) (s : σ) :
    (Walk fn root fs s).1 = (walk fn root fs s).1 := by
  cases fs <;> simp only [Walk, walk] <;> split_ifs <;> rfl

/-- The node list a scan returns is the one the walk from the root has gathered. -/
theorem Scan_ok_eq_walk (s : Scanner) (ctx : Context) (fs : FsNode) (l : List CgroupInfo)
    (h : s.Scan ctx fs = .ok l) : l = (walk s.scanFn s.cgroupPath fs []).1 := by
  unfold Scanner.Scan at h
  split at h
  · cases h
  · rw [Walk_fst] at h
    cases h
    rfl

mutual
/-- A property that holds of every node the callback builds holds of every node a walk
adds. -/
theorem walk_scan_forall (s : Scanner) (Q : CgroupInfo → Prop)
    (hQ : ∀ path ctrl, Q { Path := path, Name := s.getCgroupName path, Controllers := ctrl })
    (node : FsNode) (path : GoString) (st : List CgroupInfo) (h : ∀ n ∈ st, Q n) :
    ∀ n ∈ (walk s.scanFn path node st).1, Q n := by
  cases node with
  | broken e => simpa [walk_scan_broken] using h
  | file c => simpa [walk_scan_file] using h
  | dir l es =>
    cases l with
    | false => simpa [walk_scan_dir_false] using h
    | true =>
      rw [walk_scan_dir_true, scanFn_dir]
      by_cases h1 : (st.length : Int) ≥ s.maxCgroups
      · simpa [h1] using h
      · cases hr : osReadFile (FsNode.dir true es) controllersName with
        | error e =>
          simp only [h1, if_false, ne_eq, not_true_eq_false]
          exact walkNames_scan_forall s Q hQ es path st h
        | ok c =>
          simp only [h1, if_false, ne_eq, not_true_eq_false]
          apply walkNames_scan_forall s Q hQ es path
          intro n hn
          rcases List.mem_append.mp hn with hn | hn
          · exact h n hn
          · rw [List.mem_singleton.mp hn]
            exact hQ _ _
/-- The same for the walk of the entries of a directory. -/
theorem walkNames_scan_forall (s : Scanner) (Q : CgroupInfo → Prop)
    (hQ : ∀ path ctrl, Q { Path := path, Name := s.getCgroupName path, Controllers := ctrl })
    (es : FsEntries) (path : GoString) (st : List CgroupInfo) (h : ∀ n ∈ st, Q n) :
    ∀ n ∈ (walkNames s.scanFn path es st).1, Q n := by
  cases es with
  | nil => simpa [walkNames] using h
  | cons name node rest =>
    cases node with
    | broken e =>
      rw [walkNames]
      simp only [scanFn_err, ne_eq, not_true_eq_false, false_and, if_false]
      exact walkNames_scan_forall s Q hQ rest path st h
    | file c =>
      rw [walkNames]
      simp only [walk_scan_file, ne_eq, not_true_eq_false, if_false]
      exact walkNames_scan_forall s Q hQ rest path st h
    | dir l es1 =>
      have ihn := walk_scan_forall s Q hQ (.dir l es1) (Join path name) st h
      rw [walkNames]
      split_ifs
      · exact ihn
      · exact walkNames_scan_forall s Q hQ rest path _ ihn
end

/-- Every node a scan returns is named by `getCgroupName` from its path. -/
theorem Scan_node_name (s : Scanner) (ctx : Context) (fs : FsNode) (l : List CgroupInfo)
    (h : s.Scan ctx fs = .ok l) : ∀ n ∈ l, n.Name = s.getCgroupName n.Path := by
  rw [Scan_ok_eq_walk s ctx fs l h]
  exact walk_scan_forall s (fun n => n.Name = s.getCgroupName n.Path) (fun _ _ => rfl) fs
    s.cgroupPath [] (by simp)

/-! ## The derived name -/

theorem TrimPrefix_append (root x : GoString) : TrimPrefix (root ++ x) root = x := by
  simp [TrimPrefix, HasPrefix, List.isPrefixOf_iff_prefix]

theorem TrimPrefix_self (root : GoString) : TrimPrefix root root = [] := by
  simpa using TrimPrefix_append root []

/-- The derived name of a path at or below the root, by its relative part. -/
theorem getCgroupName_pathBelow (s : Scanner) (rel : GoString) :
    s.getCgroupName (pathBelow s.cgroupPath rel) =
      if rel = [] then "root".toList else ReplaceAll rel '/' ".".toList := by
  unfold Scanner.getCgroupName pathBelow
  by_cases h : rel = []
  · subst h
    simp [TrimPrefix_self, TrimPrefix, HasPrefix]
  · simp only [h, if_false, TrimPrefix_append]
    have h2 : TrimPrefix ('/' :: rel) "/".toList = rel := by
      simpa using TrimPrefix_append "/".toList rel
    rw [h2]
    simp [h]

theorem ReplaceAll_cons (c : Char) (rest : GoString) :
    ReplaceAll (c :: rest) '/' ".".toList =
      (if c = '/' then '.' else c) :: ReplaceAll rest '/' ".".toList := by
  rw [ReplaceAll]
  split_ifs <;> rfl

/-- Replacing `/` by `.` loses nothing on strings that hold no `.`. -/
theorem ReplaceAll_injective : ∀ a b : GoString, '.' ∉ a → '.' ∉ b →
    ReplaceAll a '/' ".".toList = ReplaceAll b '/' ".".toList → a = b
  | [], [], _, _, _ => rfl
  | [], d :: b, _, _, h => by
    rw [ReplaceAll_cons, ReplaceAll] at h
    cases h
  | c :: a, [], _, _, h => by
    rw [ReplaceAll_cons, ReplaceAll] at h
    cases h
  | c :: a, d :: b, ha, hb, h => by
    rw [ReplaceAll_cons, ReplaceAll_cons] at h
    simp only [List.mem_cons, not_or] at ha hb
    have ht := ReplaceAll_injective a b ha.2 hb.2 (List.cons.inj h).2
    have hh := (List.cons.inj h).1
    have hc : c = d := by
      by_cases h1 : c = '/' <;> by_cases h2 : d = '/'
      · rw [h1, h2]
      · rw [if_pos h1, if_neg h2] at hh
        exact absurd hh hb.1
      · rw [if_neg h1, if_pos h2] at hh
        exact absurd hh.symm ha.1
      · rw [if_neg h1, if_neg h2] at hh
        exact hh
    rw [hc, ht]


/-- C3 (as stated, refuted): below the root `/sys/fs/cgroup` the distinct paths `a/b` and
`a.b` get the same name `a.b`, and the group `root` gets the name `root` of the hierarchy
root; the scans of `clashTree` and of `rootNamedTree` return nodes with these names. -/
theorem getCgroupName_clash_counterexample :
    ("/sys/fs/cgroup/a/b".toList ≠ "/sys/fs/cgroup/a.b".toList ∧
      (NewScanner sysFsCgroup).getCgroupName "/sys/fs/cgroup/a/b".toList =
        (NewScanner sysFsCgroup).getCgroupName "/sys/fs/cgroup/a.b".toList) ∧
    ("/sys/fs/cgroup/root".toList ≠ "/sys/fs/cgroup".toList ∧
      (NewScanner sysFsCgroup).getCgroupName "/sys/fs/cgroup/root".toList =
        (NewScanner sysFsCgroup).getCgroupName "/sys/fs/cgroup".toList) ∧
    ((NewScanner sysFsCgroup).Scan Context.Background clashTree).map
        (fun l => l.map fun n => (n.Path, n.Name)) =
      .ok [("/sys/fs/cgroup".toList, "root".toList), ("/sys/fs/cgroup/a".toList, "a".toList),
        ("/sys/fs/cgroup/a/b".toList, "a.b".toList),
        ("/sys/fs/cgroup/a.b".toList, "a.b".toList)] ∧
    ((NewScanner sysFsCgroup).Scan Context.Background rootNamedTree).map
        (fun l => l.map fun n => (n.Path, n.Name)) =
      .ok [("/sys/fs/cgroup".toList, "root".toList),
        ("/sys/fs/cgroup/root".toList, "root".toList)] := by
  decide

/-- C3 (amended): for every hierarchy root and every two distinct paths at or below it whose
relative parts hold no `.` and are not literally `root` (the root itself, with the empty
relative part, is one of them), `getCgroupName` returns two different names; so two nodes
returned by one `Scan` that have two such paths have different names. -/
theorem getCgroupName_injective_on_plain (s : Scanner) (rel1 rel2 : GoString)
    (h1 : plainRel rel1) (h2 : plainRel rel2)
    (hne : pathBelow s.cgroupPath rel1 ≠ pathBelow s.cgroupPath rel2) :
    s.getCgroupName (pathBelow s.cgroupPath rel1) ≠
        s.getCgroupName (pathBelow s.cgroupPath rel2) ∧
      ∀ (ctx : Context) (fs : FsNode) (l : List CgroupInfo), s.Scan ctx fs = .ok l →
        ∀ n1 ∈ l, ∀ n2 ∈ l, n1.Path = pathBelow s.cgroupPath rel1 →
          n2.Path = pathBelow s.cgroupPath rel2 → n1.Name ≠ n2.Name := by
  have hrel : rel1 ≠ rel2 := fun h => hne (by rw [h])
  have hroot : ReplaceAll "root".toList '/' ".".toList = "root".toList := by decide
  have hdot : '.' ∉ "root".toList := by decide
  have key : s.getCgroupName (pathBelow s.cgroupPath rel1) ≠
      s.getCgroupName (pathBelow s.cgroupPath rel2) := by
    rw [getCgroupName_pathBelow, getCgroupName_pathBelow]
    intro h
    by_cases e1 : rel1 = [] <;> by_cases e2 : rel2 = []
    · exact hrel (e1.trans e2.symm)
    · rw [if_pos e1, if_neg e2, ← hroot] at h
      exact h2.2 (ReplaceAll_injective _ _ hdot h2.1 h).symm
    · rw [if_neg e1, if_pos e2, ← hroot] at h
      exact h1.2 (ReplaceAll_injective _ _ h1.1 hdot h)
    · rw [if_neg e1, if_neg e2] at h
      exact hrel (ReplaceAll_injective _ _ h1.1 h2.1 h)
  refine ⟨key, ?_⟩
  intro ctx fs l hl n1 hn1 n2 hn2 hp1 hp2
  rw [Scan_node_name s ctx fs l hl n1 hn1, Scan_node_name s ctx fs l hl n2 hn2, hp1, hp2]
  exact key

/-- The amended C3 at the root `/sys/fs/cgroup` and the relative paths `a` and `a/b`. -/
theorem getCgroupName_injective_on_plain_witness :
    (plainRel "a".toList ∧ plainRel "a/b".toList ∧
      pathBelow sysFsCgroup "a".toList ≠ pathBelow sysFsCgroup "a/b".toList) ∧
    (NewScanner sysFsCgroup).getCgroupName (pathBelow sysFsCgroup "a".toList) ≠
      (NewScanner sysFsCgroup).getCgroupName (pathBelow sysFsCgroup "a/b".toList) :=
  ⟨⟨by unfold plainRel; decide, by unfold plainRel; decide, by decide⟩,
    (getCgroupName_injective_on_plain (NewScanner sysFsCgroup) "a".toList "a/b".toList
      (by unfold plainRel; decide) (by unfold plainRel; decide) (by decide)).1⟩


/-! ## The cache of the base collector -/

theorem GoMap.get_make {V : Type} (k : String) : (GoMap.make : GoMap V).get k = none := rfl

theorem GoMap.get_set_self {V : Type} (m : GoMap V) (k : String) (v : V) :
    (m.set k v).get k = some v := by
  simp [GoMap.get, GoMap.set, List.lookup]

theorem lookup_filter_ne {V : Type} (k k2 : String) (hk : k2 ≠ k) :
    ∀ l : List (String × V),
      (l.filter (fun e => !decide (e.1 = k))).lookup k2 = l.lookup k2
  | [] => rfl
  | (a, b) :: rest => by
    have ih := lookup_filter_ne k k2 hk rest
    by_cases ha : a = k
    · have h2 : (k2 == a) = false := by simp [ha, hk]
      rw [List.filter_cons_of_neg (by simp [ha]), List.lookup_cons, h2, ih]
    · rw [List.filter_cons_of_pos (by simp [ha]), List.lookup_cons, List.lookup_cons, ih]

theorem GoMap.get_set_other {V : Type} (m : GoMap V) (k k2 : String) (v : V) (hk : k2 ≠ k) :
    (m.set k v).get k2 = m.get k2 := by
  have h2 : (k2 == k) = false := by simp [hk]
  have h3 := lookup_filter_ne k k2 hk m.entries
  simp only [GoMap.get, GoMap.set, List.lookup_cons, h2]
  simpa using h3

/-- `time.Since` is the plain difference when that is a `time.Duration`. -/
theorem timeSince_eq (now t : Int) (h1 : minDuration ≤ now - t) (h2 : now - t ≤ maxDuration) :
    timeSince now t = now - t := by
  unfold timeSince
  split_ifs <;> omega

theorem timeSince_le (now t : Int) (h : 0 ≤ now - t) : timeSince now t ≤ now - t := by
  unfold timeSince minDuration
  split_ifs <;> omega

theorem timeSince_gt (now t ttl : Int) (h1 : ttl < maxDuration) (h2 : ttl < now - t) :
    timeSince now t > ttl := by
  unfold timeSince
  split_ifs <;> omega

/-- A lookup in a cache that is fresh at `now` finds what the map holds. -/
theorem GetCachedData_fresh {V : Type} (bc : BaseCollector V) (k : String) (v : Option V)
    (now : Int) (hget : bc.cache.get k = some v) (h0 : 0 ≤ now - bc.cacheTime)
    (h1 : now - bc.cacheTime ≤ bc.cacheTTL) : bc.GetCachedData k now = (v, true) := by
  have h := timeSince_le now bc.cacheTime h0
  unfold BaseCollector.GetCachedData
  rw [if_neg (by omega), hget]

/-- A lookup in a cache that is stale at `now` misses. -/
theorem GetCachedData_stale {V : Type} (bc : BaseCollector V) (k : String) (now : Int)
    (h1 : bc.cacheTTL < maxDuration) (h2 : bc.cacheTTL < now - bc.cacheTime) :
    bc.GetCachedData k now = (none, false) := by
  have h := timeSince_gt now bc.cacheTime bc.cacheTTL h1 h2
  unfold BaseCollector.GetCachedData
  rw [if_pos h]

/-- Stores on other keys, made while the cache is fresh at `now`, keep it fresh and keep
the entry of `k`. -/
theorem setAll_keeps {V : Type} (k : String) (v : Option V) (now : Int) :
    ∀ (ops : List (String × Option V × Int)) (bc : BaseCollector V),
      bc.cache.get k = some v → 0 ≤ now - bc.cacheTime → now - bc.cacheTime ≤ bc.cacheTTL →
      (∀ op ∈ ops, op.1 ≠ k ∧ 0 ≤ now - op.2.2 ∧ now - op.2.2 ≤ bc.cacheTTL) →
      (bc.setAll ops).GetCachedData k now = (v, true)
  | [], bc, hget, h0, h1, _ => GetCachedData_fresh bc k v now hget h0 h1
  | (k2, v2, t2) :: rest, bc, hget, _, _, hops => by
    have hop := hops (k2, v2, t2) (List.mem_cons_self _ _)
    rw [BaseCollector.setAll]
    apply setAll_keeps k v now rest (bc.SetCachedData k2 v2 t2)
    · show (bc.cache.set k2 v2).get k = some v
      rw [GoMap.get_set_other _ _ _ _ (Ne.symm hop.1), hget]
    · exact hop.2.1
    · exact hop.2.2
    · intro op hmem
      exact hops op (List.mem_cons_of_mem _ hmem)

/-- C4: cache round trip.  After `SetCachedData(k, v)` at time `t`, and after any further
`SetCachedData` calls on other keys at times between `t` and `now` (no call on `k`, no
`ClearCache`), `GetCachedData(k)` at a time `now` with `0 ≤ now - t < cacheTTL` returns
`(v, true)`. -/
theorem cache_round_trip {V : Type} (bc : BaseCollector V) (k : String) (v : Option V)
    (t now : Int) (ops : List (String × Option V × Int))
    (h0 : 0 ≤ now - t) (h1 : now - t < bc.cacheTTL)
    (hops : ∀ op ∈ ops, op.1 ≠ k ∧ t ≤ op.2.2 ∧ op.2.2 ≤ now) :
    ((bc.SetCachedData k v t).setAll ops).GetCachedData k now = (v, true) := by
  apply setAll_keeps k v now ops (bc.SetCachedData k v t)
  · exact GoMap.get_set_self _ _ _
  · exact h0
  · show now - t ≤ bc.cacheTTL
    omega
  · intro op hmem
    obtain ⟨ha, hb, hc⟩ := hops op hmem
    refine ⟨ha, by omega, ?_⟩
    show now - op.2.2 ≤ bc.cacheTTL
    omega

/-- C4 at a cache duration of `60`: a store on `k` at `100`, a store on another key at `120`
and the lookup of `k` at `130`. -/
theorem cache_round_trip_witness :
    ((0 : Int) ≤ 130 - 100 ∧ (130 : Int) - 100 < (sampleBase 60).cacheTTL) ∧
      (((sampleBase 60).SetCachedData "k" (some 7) 100).setAll
        [("other", some 8, 120)]).GetCachedData "k" 130 = (some 7, true) :=
  ⟨⟨by decide, by decide⟩,
    cache_round_trip (sampleBase 60) "k" (some 7) 100 130 [("other", some 8, 120)]
      (by decide) (by decide) (by
        intro op hmem
        rw [List.mem_singleton] at hmem
        subst hmem
        decide)⟩

/-- C5 (as stated, refuted): with a cache duration of `60`, an entry stored at `100` is
still served at `160`, when `now - t` is exactly the duration; and with a cache duration of
`0` an entry is served at the instant it is stored. -/
theorem GetCachedData_boundary_counterexample :
    ((160 : Int) - 100 ≥ (sampleBase 60).cacheTTL ∧
      ((sampleBase 60).SetCachedData "k" (some 7) 100).GetCachedData "k" 160 = (some 7, true)) ∧
    ((100 : Int) - 100 ≥ (sampleBase 0).cacheTTL ∧
      ((sampleBase 0).SetCachedData "k" (some 7) 100).GetCachedData "k" 100 = (some 7, true)) := by
  decide

/-- C5 (amended): a cache entry is served only while `now - producedAt ≤ cacheTTL`: after a
single `SetCachedData(k, v)` at time `t`, every `GetCachedData(k)` at a time `now` with
`now - t > cacheTTL` returns a miss (for a `cacheTTL` below the largest `time.Duration`, at
which `time.Since` saturates). -/
theorem GetCachedData_miss_after_ttl {V : Type} (bc : BaseCollector V) (k : String)
    (v : Option V) (t now : Int) (hmax : bc.cacheTTL < maxDuration)
    (h : now - t > bc.cacheTTL) :
    (bc.SetCachedData k v t).GetCachedData k now = (none, false) :=
  GetCachedData_stale (bc.SetCachedData k v t) k now hmax h

/-- The amended C5 at a cache duration of `60`: stored at `100`, looked up at `161`. -/
theorem GetCachedData_miss_after_ttl_witness :
    ((sampleBase 60).cacheTTL < maxDuration ∧ (161 : Int) - 100 > (sampleBase 60).cacheTTL) ∧
      ((sampleBase 60).SetCachedData "k" (some 7) 100).GetCachedData "k" 161 = (none, false) :=
  ⟨⟨by decide, by decide⟩,
    GetCachedData_miss_after_ttl (sampleBase 60) "k" (some 7) 100 161 (by decide) (by decide)⟩


/-- C6 (as stated, refuted): with a cache duration of `60`, the entry of `k1` stored at `0`
is stale at `110`, but a store on the other key `k2` at `100` makes the lookup of `k1` at
`110` a hit again. -/
theorem GetCachedData_revalidated_counterexample :
    ("k1" ≠ "k2" ∧ (110 : Int) - 0 ≥ (sampleBase 60).cacheTTL) ∧
      ((sampleBase 60).SetCachedData "k1" (some 1) 0).GetCachedData "k1" 110 = (none, false) ∧
      (((sampleBase 60).SetCachedData "k1" (some 1) 0).SetCachedData "k2" (some 2)
        100).GetCachedData "k1" 110 = (some 1, true) := by
  decide

/-- C6 (amended): staleness is kept for the cache as a whole, by the time of the latest
`SetCachedData` on any key.  For every two distinct keys `k1` and `k2`, if `k1` was stored at
`t1` and `k2` is stored later at `t2`, a `GetCachedData(k1)` at a time `now` with
`now - t2 > cacheTTL` returns a miss (for a `cacheTTL` below the largest `time.Duration`),
and one with `0 ≤ now - t2 ≤ cacheTTL` returns the value stored for `k1`, whatever
`now - t1` is. -/
theorem GetCachedData_whole_cache_staleness {V : Type} (bc : BaseCollector V)
    (k1 k2 : String) (v1 v2 : Option V) (t1 t2 now : Int) (hk : k1 ≠ k2) :
    (bc.cacheTTL < maxDuration → now - t2 > bc.cacheTTL →
        ((bc.SetCachedData k1 v1 t1).SetCachedData k2 v2 t2).GetCachedData k1 now
          = (none, false)) ∧
      (0 ≤ now - t2 → now - t2 ≤ bc.cacheTTL →
        ((bc.SetCachedData k1 v1 t1).SetCachedData k2 v2 t2).GetCachedData k1 now
          = (v1, true)) := by
  constructor
  · intro hmax h
    exact GetCachedData_stale _ k1 now hmax h
  · intro h0 h1
    apply GetCachedData_fresh _ k1 v1 now _ h0 h1
    show ((bc.cache.set k1 v1).set k2 v2).get k1 = some v1
    rw [GoMap.get_set_other _ _ _ _ hk, GoMap.get_set_self]

/-- The amended C6 at a cache duration of `60`: `k1` stored at `0`, `k2` at `100`; the lookup
of `k1` misses at `161` and hits at `110`. -/
theorem GetCachedData_whole_cache_staleness_witness :
    ("k1" ≠ "k2" ∧ (sampleBase 60).cacheTTL < maxDuration ∧
        (161 : Int) - 100 > (sampleBase 60).cacheTTL ∧ (0 : Int) ≤ 110 - 100 ∧
        (110 : Int) - 100 ≤ (sampleBase 60).cacheTTL) ∧
      (((sampleBase 60).SetCachedData "k1" (some 1) 0).SetCachedData "k2" (some 2)
        100).GetCachedData "k1" 161 = (none, false) ∧
      (((sampleBase 60).SetCachedData "k1" (some 1) 0).SetCachedData "k2" (some 2)
        100).GetCachedData "k1" 110 = (some 1, true) :=
  ⟨by decide,
    (GetCachedData_whole_cache_staleness (sampleBase 60) "k1" "k2" (some 1) (some 2) 0 100 161
      (by decide)).1 (by decide) (by decide),
    (GetCachedData_whole_cache_staleness (sampleBase 60) "k1" "k2" (some 1) (some 2) 0 100 110
      (by decide)).2 (by decide) (by decide)⟩

/-- C7: `ClearCache` clears all entries: for every cache state, every key `k` and every
time `now`, `GetCachedData(k)` right after `ClearCache` returns a miss. -/
theorem GetCachedData_after_ClearCache {V : Type} (bc : BaseCollector V) (k : String)
    (now : Int) : bc.ClearCache.GetCachedData k now = (none, false) := by
  unfold BaseCollector.GetCachedData BaseCollector.ClearCache
  simp only [GoMap.get_make]
  split_ifs <;> rfl


/-! ## The collector registry -/

theorem GoMap.keys_make {V : Type} : (GoMap.make : GoMap V).keys = [] := rfl

theorem GoMap.keys_set {V : Type} (m : GoMap V) (k : String) (v : V) :
    (m.set k v).keys = k :: m.keys.filter (fun x => !decide (x = k)) := by
  simp [GoMap.keys, GoMap.set, List.filter_map, Function.comp_def]

theorem GoMap.len_eq_length_keys {V : Type} (m : GoMap V) : m.len = m.keys.length := by
  simp [GoMap.len, GoMap.keys]

/-- C8: `NewCollectors` returns an error if and only if none of the CPU, memory, I/O and
PIDs collectors is enabled in the configuration; with at least one enabled it returns a
non-empty map and no error. -/
theorem NewCollectors_error_iff_none_enabled (V : Type) (cfg : Config) :
    ((∃ e, (NewCollectors cfg : Except String (GoMap (Collector V))) = .error e) ↔
        (cfg.Collectors.CPU.Enabled = false ∧ cfg.Collectors.Memory.Enabled = false ∧
          cfg.Collectors.Io.Enabled = false ∧ cfg.Collectors.PIDs.Enabled = false)) ∧
      ((cfg.Collectors.CPU.Enabled = true ∨ cfg.Collectors.Memory.Enabled = true ∨
          cfg.Collectors.Io.Enabled = true ∨ cfg.Collectors.PIDs.Enabled = true) →
        ∃ m, (NewCollectors cfg : Except String (GoMap (Collector V))) = .ok m ∧
          m.len ≠ 0 ∧ m.entries ≠ []) := by
  rcases cfg with ⟨w, cg, ⟨⟨e1, p1⟩, ⟨e2, p2, s2⟩, ⟨e3, p3, d3⟩, ⟨e4⟩⟩, lg, adv⟩
  cases e1 <;> cases e2 <;> cases e3 <;> cases e4 <;>
    simp [NewCollectors, GoMap.set, GoMap.len, GoMap.make]

/-- C8 at the configuration of the tests with only the memory collector enabled. -/
theorem NewCollectors_error_iff_none_enabled_witness :
    (sampleConfig 60 false true false false).Collectors.Memory.Enabled = true ∧
      ∃ m, (NewCollectors (sampleConfig 60 false true false false) :
          Except String (GoMap (Collector Nat))) = .ok m ∧ m.len ≠ 0 ∧ m.entries ≠ [] :=
  ⟨rfl, (NewCollectors_error_iff_none_enabled Nat (sampleConfig 60 false true false false)).2
    (Or.inr (Or.inl rfl))⟩

/-- C9: for every configuration with at least one collector enabled, `NewCollectors` returns
a map whose keys are exactly the names among `cpu`, `memory`, `io`, `pids` whose `Enabled`
flag is true, each once; with all four enabled the map has exactly 4 entries. -/
theorem NewCollectors_keys (V : Type) (cfg : Config)
    (h : cfg.Collectors.CPU.Enabled = true ∨ cfg.Collectors.Memory.Enabled = true ∨
      cfg.Collectors.Io.Enabled = true ∨ cfg.Collectors.PIDs.Enabled = true) :
    ∃ m, (NewCollectors cfg : Except String (GoMap (Collector V))) = .ok m ∧
      (∀ name : String, name ∈ m.keys ↔
        ((name = "cpu" ∧ cfg.Collectors.CPU.Enabled = true) ∨
          (name = "memory" ∧ cfg.Collectors.Memory.Enabled = true) ∨
          (name = "io" ∧ cfg.Collectors.Io.Enabled = true) ∨
          (name = "pids" ∧ cfg.Collectors.PIDs.Enabled = true))) ∧
      m.keys.Nodup ∧
      ((cfg.Collectors.CPU.Enabled = true ∧ cfg.Collectors.Memory.Enabled = true ∧
          cfg.Collectors.Io.Enabled = true ∧ cfg.Collectors.PIDs.Enabled = true) →
        m.len = 4) := by
  rcases cfg with ⟨w, cg, ⟨⟨e1, p1⟩, ⟨e2, p2, s2⟩, ⟨e3, p3, d3⟩, ⟨e4⟩⟩, lg, adv⟩
  cases e1 <;> cases e2 <;> cases e3 <;> cases e4 <;>
    simp [NewCollectors, GoMap.keys_set, GoMap.keys_make, GoMap.len_eq_length_keys] at h ⊢ <;>
    (intro name; tauto)

/-- C9 at the configuration of the tests of the source, with all four collectors enabled. -/
theorem NewCollectors_keys_witness :
    ∃ m, (NewCollectors (sampleConfig 60 true true true true) :
        Except String (GoMap (Collector Nat))) = .ok m ∧
      (∀ name : String, name ∈ m.keys ↔
        (name = "cpu" ∨ name = "memory" ∨ name = "io" ∨ name = "pids")) ∧ m.len = 4 := by
  obtain ⟨m, h1, h2, _, h4⟩ :=
    NewCollectors_keys Nat (sampleConfig 60 true true true true) (Or.inl rfl)
  refine ⟨m, h1, ?_, h4 ⟨rfl, rfl, rfl, rfl⟩⟩
  intro name
  rw [h2 name]
  simp [sampleConfig]


/-! ## Disabled collectors -/

/-- C10: a disabled collector is a no-op.  For each of the CPU, memory, I/O and PIDs
collectors built from a configuration in which it is disabled, `Describe` emits no
descriptor, and `Collect` emits no sample, performs no scan and leaves the collector, its
self-observability metrics included, as it was. -/
theorem disabled_collector_is_noop (V : Type) (cfg : Config) (env : ScrapeEnv) :
    (cfg.Collectors.CPU.Enabled = false →
        (NewCPUCollector cfg : CPUCollector V).Describe = [] ∧
        ((NewCPUCollector cfg : CPUCollector V).Collect env).samples = [] ∧
        ((NewCPUCollector cfg : CPUCollector V).Collect env).scans = 0 ∧
        ((NewCPUCollector cfg : CPUCollector V).Collect env).collector = NewCPUCollector cfg) ∧
      (cfg.Collectors.Memory.Enabled = false →
        (NewMemoryCollector cfg : MemoryCollector V).Describe = [] ∧
        ((NewMemoryCollector cfg : MemoryCollector V).Collect env).samples = [] ∧
        ((NewMemoryCollector cfg : MemoryCollector V).Collect env).scans = 0 ∧
        ((NewMemoryCollector cfg : MemoryCollector V).Collect env).collector
          = NewMemoryCollector cfg) ∧
      (cfg.Collectors.Io.Enabled = false →
        (NewIOCollector cfg : IOCollector V).Describe = [] ∧
        ((NewIOCollector cfg : IOCollector V).Collect env).samples = [] ∧
        ((NewIOCollector cfg : IOCollector V).Collect env).scans = 0 ∧
        ((NewIOCollector cfg : IOCollector V).Collect env).collector = NewIOCollector cfg) ∧
      (cfg.Collectors.PIDs.Enabled = false →
        (NewPIDsCollector cfg : PIDsCollector V).Describe = [] ∧
        ((NewPIDsCollector cfg : PIDsCollector V).Collect env).samples = [] ∧
        ((NewPIDsCollector cfg : PIDsCollector V).Collect env).scans = 0 ∧
        ((NewPIDsCollector cfg : PIDsCollector V).Collect env).collector
          = NewPIDsCollector cfg) := by
  refine ⟨?_, ?_, ?_, ?_⟩ <;> intro h
  · have he : (NewCPUCollector cfg : CPUCollector V).base.Enabled = false := h
    simp [CPUCollector.Describe, CPUCollector.Collect, he]
  · have he : (NewMemoryCollector cfg : MemoryCollector V).base.Enabled = false := h
    simp [MemoryCollector.Describe, MemoryCollector.Collect, he]
  · have he : (NewIOCollector cfg : IOCollector V).base.Enabled = false := h
    simp [IOCollector.Describe, IOCollector.Collect, he]
  · have he : (NewPIDsCollector cfg : PIDsCollector V).base.Enabled = false := h
    simp [PIDsCollector.Describe, PIDsCollector.Collect, he]

/-- C10 at the configuration of the tests with all four collectors disabled, on a scrape of
the tree `clashTree`. -/
theorem disabled_collector_is_noop_witness :
    ((NewCPUCollector (sampleConfig 60 false false false false) : CPUCollector Nat).Describe = [] ∧
        ((NewCPUCollector (sampleConfig 60 false false false false) : CPUCollector Nat).Collect
          (sampleEnv clashTree)).samples = []) ∧
      ((NewMemoryCollector (sampleConfig 60 false false false false) :
          MemoryCollector Nat).Describe = [] ∧
        ((NewMemoryCollector (sampleConfig 60 false false false false) :
          MemoryCollector Nat).Collect (sampleEnv clashTree)).scans = 0) ∧
      ((NewIOCollector (sampleConfig 60 false false false false) : IOCollector Nat).Collect
          (sampleEnv clashTree)).scans = 0 ∧
      ((NewPIDsCollector (sampleConfig 60 false false false false) : PIDsCollector Nat).Collect
          (sampleEnv clashTree)).samples = [] :=
  have h := disabled_collector_is_noop Nat (sampleConfig 60 false false false false)
    (sampleEnv clashTree)
  ⟨⟨(h.1 rfl).1, (h.1 rfl).2.1⟩, ⟨(h.2.1 rfl).1, (h.2.1 rfl).2.2.1⟩, (h.2.2.1 rfl).2.2.1,
    (h.2.2.2 rfl).2.1⟩


/-! ## The derived name against its reference definition -/

theorem ReplaceAll_eq_map (rel : GoString) :
    ReplaceAll rel '/' ".".toList = rel.map fun c => if c = '/' then '.' else c := by
  induction rel with
  | nil => rfl
  | cons c rest ih => rw [ReplaceAll_cons, ih, List.map_cons]

/-- C16: `getCgroupName` equals its reference definition: the root path maps to `root`, and
for every root and every non-empty relative path `rel` not starting with `/`, the path
`root + "/" + rel` maps to `rel` with every `/` replaced by `.`. -/
theorem getCgroupName_eq_referenceName (s : Scanner) :
    s.getCgroupName s.cgroupPath = referenceName [] ∧
      referenceName [] = "root".toList ∧
      ∀ rel : GoString, rel ≠ [] → rel.head? ≠ some '/' →
        s.getCgroupName (s.cgroupPath ++ '/' :: rel) = referenceName rel ∧
          referenceName rel = rel.map fun c => if c = '/' then '.' else c := by
  refine ⟨?_, rfl, ?_⟩
  · have h := getCgroupName_pathBelow s []
    simpa [pathBelow, referenceName] using h
  · intro rel hrel _
    have h := getCgroupName_pathBelow s rel
    simp only [pathBelow, hrel, if_false] at h
    rw [h, ReplaceAll_eq_map]
    simp [referenceName, hrel]

/-- C16 at the root `/sys/fs/cgroup` and the relative path `kube/pod1`. -/
theorem getCgroupName_eq_referenceName_witness :
    ("kube/pod1".toList ≠ [] ∧ "kube/pod1".toList.head? ≠ some '/') ∧
      (NewScanner sysFsCgroup).getCgroupName (sysFsCgroup ++ '/' :: "kube/pod1".toList)
        = "kube.pod1".toList :=
  ⟨by decide,
    ((getCgroupName_eq_referenceName (NewScanner sysFsCgroup)).2.2 "kube/pod1".toList
      (by decide) (by decide)).1.trans (by decide)⟩

/-! ## Validation of the configuration -/

theorem validLogLevels_index (level : String) :
    validLogLevels.index level = true ↔
      level = "debug" ∨ level = "info" ∨ level = "warn" ∨ level = "error" := by
  unfold GoMap.index GoMap.get validLogLevels
  by_cases h1 : level = "debug"
  · simp [h1, List.lookup]
  by_cases h2 : level = "info"
  · simp [h2, List.lookup]
  by_cases h3 : level = "warn"
  · simp [h3, List.lookup]
  by_cases h4 : level = "error"
  · simp [h4, List.lookup]
  have e1 : (level == "debug") = false := by simp [h1]
  have e2 : (level == "info") = false := by simp [h2]
  have e3 : (level == "warn") = false := by simp [h3]
  have e4 : (level == "error") = false := by simp [h4]
  simp [List.lookup, e1, e2, e3, e4, h1, h2, h3, h4]

theorem validLogFormats_index (format : String) :
    validLogFormats.index format = true ↔ format = "logfmt" ∨ format = "json" := by
  unfold GoMap.index GoMap.get validLogFormats
  by_cases h1 : format = "logfmt"
  · simp [h1, List.lookup]
  by_cases h2 : format = "json"
  · simp [h2, List.lookup]
  have e1 : (format == "logfmt") = false := by simp [h1]
  have e2 : (format == "json") = false := by simp [h2]
  simp [List.lookup, e1, e2, h1, h2]

/-- C19: `validate` returns no error if and only if the listen address, telemetry path and
cgroup path are non-empty, the refresh interval, max cgroups, scan interval and cache
duration are strictly positive, the log level is one of `debug`, `info`, `warn`, `error` and
the log format is one of `logfmt`, `json`; in particular an empty listen address or an
unknown log level is rejected. -/
theorem validate_eq_none_iff (config : Config) :
    (validate config = none ↔
        (config.Web.ListenAddress ≠ "" ∧ config.Web.TelemetryPath ≠ "" ∧
          config.Cgroup.Path ≠ [] ∧ 0 < config.Cgroup.RefreshInterval ∧
          0 < config.Advanced.MaxCgroups ∧ 0 < config.Advanced.ScanInterval ∧
          0 < config.Advanced.CacheDuration ∧
          (config.Logging.Level = "debug" ∨ config.Logging.Level = "info" ∨
            config.Logging.Level = "warn" ∨ config.Logging.Level = "error") ∧
          (config.Logging.Format = "logfmt" ∨ config.Logging.Format = "json"))) ∧
      (config.Web.ListenAddress = "" → validate config ≠ none) ∧
      (¬ (config.Logging.Level = "debug" ∨ config.Logging.Level = "info" ∨
          config.Logging.Level = "warn" ∨ config.Logging.Level = "error") →
        validate config ≠ none) := by
  have hl := validLogLevels_index config.Logging.Level
  have hf := validLogFormats_index config.Logging.Format
  have key : validate config = none ↔
      (config.Web.ListenAddress ≠ "" ∧ config.Web.TelemetryPath ≠ "" ∧
        config.Cgroup.Path ≠ [] ∧ 0 < config.Cgroup.RefreshInterval ∧
        0 < config.Advanced.MaxCgroups ∧ 0 < config.Advanced.ScanInterval ∧
        0 < config.Advanced.CacheDuration ∧
        (config.Logging.Level = "debug" ∨ config.Logging.Level = "info" ∨
          config.Logging.Level = "warn" ∨ config.Logging.Level = "error") ∧
        (config.Logging.Format = "logfmt" ∨ config.Logging.Format = "json")) := by
    rw [← hl, ← hf]
    unfold validate
    constructor
    · intro h
      split_ifs at h with h1 h2 h3 h4 h5 h6 h7 h8 h9
      refine ⟨h1, h2, h3, by omega, by omega, by omega, by omega, ?_, ?_⟩
      · simpa using h5
      · simpa using h6
    · rintro ⟨h1, h2, h3, h4, h5, h6, h7, h8, h9⟩
      rw [if_neg h1, if_neg h2, if_neg h3, if_neg (by omega), if_neg (by simp [h8]),
        if_neg (by simp [h9]), if_neg (by omega), if_neg (by omega), if_neg (by omega)]
  refine ⟨key, ?_, ?_⟩
  · intro h hv
    exact (key.mp hv).1 h
  · intro h hv
    exact h (key.mp hv).2.2.2.2.2.2.2.1

/-- C19 at the configuration of the tests of the source, as it is and with an empty listen
address. -/
theorem validate_eq_none_iff_witness :
    validate (sampleConfig 60 true true true true) = none ∧
      validate { sampleConfig 60 true true true true with
        Web := { ListenAddress := "", TelemetryPath := "/metrics" } } ≠ none :=
  ⟨by decide,
    (validate_eq_none_iff { sampleConfig 60 true true true true with
      Web := { ListenAddress := "", TelemetryPath := "/metrics" } }).2.1 rfl⟩


/-! ## The cap a collector scans under -/

/-- C15 (the code at the failing input): the scanner of a base collector keeps the cap
`10000` of `NewScanner`, whatever `Advanced.MaxCgroups` is; with `Advanced.MaxCgroups = 1`
the scan of the CPU collector over `clashTree` discovers 4 groups. -/
theorem NewBaseCollector_ignores_MaxCgroups :
    (∀ (V : Type) (name : String) (enabled : Bool) (cfg : Config),
        (NewBaseCollector name enabled cfg : BaseCollector V).scanner.maxCgroups = 10000) ∧
      (cappedConfig 1).Advanced.MaxCgroups = 1 ∧
      ((NewCPUCollector (cappedConfig 1) : CPUCollector Nat).base.scanner.Scan
          Context.Background clashTree).map List.length = .ok 4 ∧
      ((NewCPUCollector (cappedConfig 1) : CPUCollector Nat).Collect
          (sampleEnv clashTree)).collector.metrics.CgroupsScraped.value = 4 := by
  refine ⟨fun _ _ _ _ => rfl, rfl, by decide, by decide⟩

/-! ## The self-observability metrics of a collection pass -/

theorem CPUCollector_foldl_metrics {V : Type} (cgroups : List CgroupInfo) :
    ∀ c : CPUCollector V,
      (cgroups.foldl (fun acc cgroup => acc.collectCgroupMetrics cgroup) c).metrics
        = c.metrics := by
  induction cgroups with
  | nil => intro c; rfl
  | cons g rest ih => intro c; rw [List.foldl_cons, ih]; rfl

theorem MemoryCollector_foldl_metrics {V : Type} (cgroups : List CgroupInfo) :
    ∀ c : MemoryCollector V,
      (cgroups.foldl (fun acc cgroup => acc.collectCgroupMetrics cgroup) c).metrics
        = c.metrics := by
  induction cgroups with
  | nil => intro c; rfl
  | cons g rest ih => intro c; rw [List.foldl_cons, ih]; rfl

theorem IOCollector_foldl_metrics {V : Type} (cgroups : List CgroupInfo) :
    ∀ c : IOCollector V,
      (cgroups.foldl (fun acc cgroup => acc.collectCgroupMetrics cgroup) c).metrics
        = c.metrics := by
  induction cgroups with
  | nil => intro c; rfl
  | cons g rest ih => intro c; rw [List.foldl_cons, ih]; rfl

theorem PIDsCollector_foldl_metrics {V : Type} (cgroups : List CgroupInfo) :
    ∀ c : PIDsCollector V,
      (cgroups.foldl (fun acc cgroup => acc.collectCgroupMetrics cgroup) c).metrics
        = c.metrics := by
  induction cgroups with
  | nil => intro c; rfl
  | cons g rest ih => intro c; rw [List.foldl_cons, ih]; rfl

/-- The descriptors of the samples `CollectorMetrics.Collect` sends are those of
`CollectorMetrics.Describe`. -/
theorem CollectorMetrics.Collect_desc (cm : CollectorMetrics) :
    cm.Collect.map Sample.desc = cm.Describe := rfl


/-! ## The scan step of a collection pass never returns an error -/

mutual
/-- The walk of a subtree under the scan callback, whatever the cap of the scanner: the only
error that comes back is `SkipDir`. -/
theorem walk_scan_no_error (s : Scanner) (node : FsNode) (path : GoString)
    (st : List CgroupInfo) :
    (walk s.scanFn path node st).2 = none ∨
      (walk s.scanFn path node st).2 = some .SkipDir := by
  cases node with
  | broken e => simp [walk_scan_broken]
  | file c => simp [walk_scan_file]
  | dir l es =>
    cases l with
    | false => simp [walk_scan_dir_false]
    | true =>
      have ih := walkNames_scan_no_error s es path
      rw [walk_scan_dir_true, scanFn_dir]
      by_cases h1 : (st.length : Int) ≥ s.maxCgroups
      · simp [h1]
      · cases hr : osReadFile (FsNode.dir true es) controllersName with
        | error e => simp [h1, ih]
        | ok c => simp [h1, ih]
/-- The walk of the entries of a directory under the scan callback returns no error. -/
theorem walkNames_scan_no_error (s : Scanner) (es : FsEntries) (path : GoString)
    (st : List CgroupInfo) :
    (walkNames s.scanFn path es st).2 = none := by
  cases es with
  | nil => simp [walkNames]
  | cons name node rest =>
    have ihr := walkNames_scan_no_error s rest path
    cases node with
    | broken e =>
      rw [walkNames]
      simp [scanFn_err, ihr]
    | file c =>
      rw [walkNames]
      simp [walk_scan_file, ihr]
    | dir l es1 =>
      have ihn := walk_scan_no_error s (.dir l es1) (Join path name) st
      rw [walkNames]
      have hne : ¬ ((walk s.scanFn (Join path name) (.dir l es1) st).2 ≠ none ∧
          (walk s.scanFn (Join path name) (.dir l es1) st).2 ≠ some .SkipDir) := by
        rcases ihn with h | h <;> simp [h]
      rw [if_neg hne]
      exact ihr _
end

/-- The scan of any scanner, under any context and over any tree, returns a node list and a
nil error: the callback answers every error with `nil`, and `filepath.Walk` turns the
`SkipDir` of the root into `nil`. -/
theorem Scan_never_errors (s : Scanner) (ctx : Context) (fs : FsNode) :
    ∃ cgroups, s.Scan ctx fs = .ok cgroups := by
  have hW : (Walk s.scanFn s.cgroupPath fs []).2 = none := by
    cases fs with
    | broken e => simp [Walk, scanFn_err]
    | file c => simp [Walk, walk_scan_file]
    | dir l es =>
      rcases walk_scan_no_error s (.dir l es) s.cgroupPath [] with h | h <;> simp [Walk, h]
  exact ⟨(Walk s.scanFn s.cgroupPath fs []).1, by simp [Scanner.Scan, hW]⟩

/-- `CPUCollector.Collect` of an enabled collector is the pass over the node list that its scan
returns. -/
theorem CPUCollector_Collect_enabled {V : Type} (c : CPUCollector V) (env : ScrapeEnv)
    (he : c.base.Enabled = true) :
    ∃ cgroups, c.base.scanner.Scan Context.Background env.fs = .ok cgroups ∧
      c.Collect env = c.collectWith env (.ok cgroups) := by
  obtain ⟨cgroups, h⟩ := Scan_never_errors c.base.scanner Context.Background env.fs
  refine ⟨cgroups, h, ?_⟩
  unfold CPUCollector.Collect
  rw [he, h]
  rfl

/-- `MemoryCollector.Collect` of an enabled collector is the pass over the node list that its scan
returns. -/
theorem MemoryCollector_Collect_enabled {V : Type} (c : MemoryCollector V) (env : ScrapeEnv)
    (he : c.base.Enabled = true) :
    ∃ cgroups, c.base.scanner.Scan Context.Background env.fs = .ok cgroups ∧
      c.Collect env = c.collectWith env (.ok cgroups) := by
  obtain ⟨cgroups, h⟩ := Scan_never_errors c.base.scanner Context.Background env.fs
  refine ⟨cgroups, h, ?_⟩
  unfold MemoryCollector.Collect
  rw [he, h]
  rfl

/-- `IOCollector.Collect` of an enabled collector is the pass over the node list that its scan
returns. -/
theorem IOCollector_Collect_enabled {V : Type} (c : IOCollector V) (env : ScrapeEnv)
    (he : c.base.Enabled = true) :
    ∃ cgroups, c.base.scanner.Scan Context.Background env.fs = .ok cgroups ∧
      c.Collect env = c.collectWith env (.ok cgroups) := by
  obtain ⟨cgroups, h⟩ := Scan_never_errors c.base.scanner Context.Background env.fs
  refine ⟨cgroups, h, ?_⟩
  unfold IOCollector.Collect
  rw [he, h]
  rfl

/-- `PIDsCollector.Collect` of an enabled collector is the pass over the node list that its scan
returns. -/
theorem PIDsCollector_Collect_enabled {V : Type} (c : PIDsCollector V) (env : ScrapeEnv)
    (he : c.base.Enabled = true) :
    ∃ cgroups, c.base.scanner.Scan Context.Background env.fs = .ok cgroups ∧
      c.Collect env = c.collectWith env (.ok cgroups) := by
  obtain ⟨cgroups, h⟩ := Scan_never_errors c.base.scanner Context.Background env.fs
  refine ⟨cgroups, h, ?_⟩
  unfold PIDsCollector.Collect
  rw [he, h]
  rfl

/-! ## The self-observability metrics of a collection pass -/

/-- C11: for every enabled subsystem collector, in every state and over every tree, the scan
step of `Collect` returns a node list, never an error, and `Collect` sends a sample of each
of its four self-observability metrics: the scrape duration, the scrape error count, the
last scrape timestamp and the number of cgroups scraped. -/
theorem Collect_emits_self_metrics (V : Type) (env : ScrapeEnv) :
    (∀ c : CPUCollector V, c.base.Enabled = true →
        (∃ cgroups, c.base.scanner.Scan Context.Background env.fs = .ok cgroups) ∧
        ∀ d ∈ [c.metrics.ScrapeDuration.desc, c.metrics.ScrapeErrors.desc,
            c.metrics.LastScrapeTime.desc, c.metrics.CgroupsScraped.desc],
          d ∈ (c.Collect env).samples.map Sample.desc) ∧
      (∀ c : MemoryCollector V, c.base.Enabled = true →
        (∃ cgroups, c.base.scanner.Scan Context.Background env.fs = .ok cgroups) ∧
        ∀ d ∈ [c.metrics.ScrapeDuration.desc, c.metrics.ScrapeErrors.desc,
            c.metrics.LastScrapeTime.desc, c.metrics.CgroupsScraped.desc],
          d ∈ (c.Collect env).samples.map Sample.desc) ∧
      (∀ c : IOCollector V, c.base.Enabled = true →
        (∃ cgroups, c.base.scanner.Scan Context.Background env.fs = .ok cgroups) ∧
        ∀ d ∈ [c.metrics.ScrapeDuration.desc, c.metrics.ScrapeErrors.desc,
            c.metrics.LastScrapeTime.desc, c.metrics.CgroupsScraped.desc],
          d ∈ (c.Collect env).samples.map Sample.desc) ∧
      (∀ c : PIDsCollector V, c.base.Enabled = true →
        (∃ cgroups, c.base.scanner.Scan Context.Background env.fs = .ok cgroups) ∧
        ∀ d ∈ [c.metrics.ScrapeDuration.desc, c.metrics.ScrapeErrors.desc,
            c.metrics.LastScrapeTime.desc, c.metrics.CgroupsScraped.desc],
          d ∈ (c.Collect env).samples.map Sample.desc) := by
  refine ⟨?_, ?_, ?_, ?_⟩ <;> intro c he
  · obtain ⟨cgroups, h1, h2⟩ := CPUCollector_Collect_enabled c env he
    refine ⟨⟨cgroups, h1⟩, ?_⟩
    intro d hd
    rw [h2]
    simp only [CPUCollector.collectWith, List.map_append, List.mem_append,
      CPUCollector_foldl_metrics, CollectorMetrics.Collect_desc]
    exact Or.inr hd
  · obtain ⟨cgroups, h1, h2⟩ := MemoryCollector_Collect_enabled c env he
    refine ⟨⟨cgroups, h1⟩, ?_⟩
    intro d hd
    rw [h2]
    simp only [MemoryCollector.collectWith, List.map_append, List.mem_append,
      MemoryCollector_foldl_metrics, CollectorMetrics.Collect_desc]
    exact Or.inr hd
  · obtain ⟨cgroups, h1, h2⟩ := IOCollector_Collect_enabled c env he
    refine ⟨⟨cgroups, h1⟩, ?_⟩
    intro d hd
    rw [h2]
    simp only [IOCollector.collectWith, List.map_append, List.mem_append,
      IOCollector_foldl_metrics, CollectorMetrics.Collect_desc]
    exact Or.inr hd
  · obtain ⟨cgroups, h1, h2⟩ := PIDsCollector_Collect_enabled c env he
    refine ⟨⟨cgroups, h1⟩, ?_⟩
    intro d hd
    rw [h2]
    simp only [PIDsCollector.collectWith, List.map_append, List.mem_append,
      PIDsCollector_foldl_metrics, CollectorMetrics.Collect_desc]
    exact Or.inr hd

/-- C11 at the CPU collector of the test configuration over `clashTree`: the collector is
enabled and the samples of its `Collect` include the four self-observability metrics, under
their names. -/
theorem Collect_emits_self_metrics_witness :
    (NewCPUCollector (sampleConfig 60 true true true true) : CPUCollector Nat).base.Enabled
        = true ∧
      ∀ n ∈ ["prometheus_cgroup_v2_exporter_cpu_scrape_duration_seconds",
          "prometheus_cgroup_v2_exporter_cpu_scrape_errors_total",
          "prometheus_cgroup_v2_exporter_cpu_last_scrape_timestamp_seconds",
          "prometheus_cgroup_v2_exporter_cpu_cgroups_scraped"],
        n ∈ (((NewCPUCollector (sampleConfig 60 true true true true) : CPUCollector Nat).Collect
          (sampleEnv clashTree)).samples.map Sample.desc).map Desc.fqName := by
  refine ⟨rfl, ?_⟩
  have h := ((Collect_emits_self_metrics Nat (sampleEnv clashTree)).1
    (NewCPUCollector (sampleConfig 60 true true true true)) rfl).2
  intro n hn
  simp only [List.mem_cons, List.mem_singleton, List.not_mem_nil, or_false] at hn
  rcases hn with hn | hn | hn | hn <;> subst hn
  · exact List.mem_map.mpr ⟨_, h _ (List.mem_cons_self _ _), by decide⟩
  · exact List.mem_map.mpr ⟨_, h _ (List.mem_cons_of_mem _ (List.mem_cons_self _ _)), by decide⟩
  · exact List.mem_map.mpr ⟨_, h _ (List.mem_cons_of_mem _ (List.mem_cons_of_mem _
      (List.mem_cons_self _ _))), by decide⟩
  · exact List.mem_map.mpr ⟨_, h _ (List.mem_cons_of_mem _ (List.mem_cons_of_mem _
      (List.mem_cons_of_mem _ (List.mem_cons_self _ _)))), by decide⟩

/-! ## The last-scrape gauge -/

/-- C20: the last-scrape gauge records the last successful scrape.  For every enabled
subsystem collector, in every state and over every tree, the scan step of `Collect` returns
a node list, never an error, the pass counts no scrape error, and the gauge holds the time
of that pass afterwards; `Collect` of a disabled collector, which does not scrape, leaves
the gauge unchanged; and so does any `Collect` whose scan step returns an error, of which
there is none. -/
theorem Collect_LastScrapeTime (V : Type) (env : ScrapeEnv) :
    (∀ c : CPUCollector V,
        (c.base.Enabled = true →
          (∃ cgroups, c.base.scanner.Scan Context.Background env.fs = .ok cgroups) ∧
          (c.Collect env).collector.metrics.ScrapeErrors = c.metrics.ScrapeErrors ∧
          (c.Collect env).collector.metrics.LastScrapeTime.value = env.stamped) ∧
        (c.base.Enabled = false →
          (c.Collect env).collector.metrics.LastScrapeTime = c.metrics.LastScrapeTime) ∧
        ∀ e, c.base.scanner.Scan Context.Background env.fs = .error e →
          (c.Collect env).collector.metrics.LastScrapeTime = c.metrics.LastScrapeTime) ∧
      (∀ c : MemoryCollector V,
        (c.base.Enabled = true →
          (∃ cgroups, c.base.scanner.Scan Context.Background env.fs = .ok cgroups) ∧
          (c.Collect env).collector.metrics.ScrapeErrors = c.metrics.ScrapeErrors ∧
          (c.Collect env).collector.metrics.LastScrapeTime.value = env.stamped) ∧
        (c.base.Enabled = false →
          (c.Collect env).collector.metrics.LastScrapeTime = c.metrics.LastScrapeTime) ∧
        ∀ e, c.base.scanner.Scan Context.Background env.fs = .error e →
          (c.Collect env).collector.metrics.LastScrapeTime = c.metrics.LastScrapeTime) ∧
      (∀ c : IOCollector V,
        (c.base.Enabled = true →
          (∃ cgroups, c.base.scanner.Scan Context.Background env.fs = .ok cgroups) ∧
          (c.Collect env).collector.metrics.ScrapeErrors = c.metrics.ScrapeErrors ∧
          (c.Collect env).collector.metrics.LastScrapeTime.value = env.stamped) ∧
        (c.base.Enabled = false →
          (c.Collect env).collector.metrics.LastScrapeTime = c.metrics.LastScrapeTime) ∧
        ∀ e, c.base.scanner.Scan Context.Background env.fs = .error e →
          (c.Collect env).collector.metrics.LastScrapeTime = c.metrics.LastScrapeTime) ∧
      (∀ c : PIDsCollector V,
        (c.base.Enabled = true →
          (∃ cgroups, c.base.scanner.Scan Context.Background env.fs = .ok cgroups) ∧
          (c.Collect env).collector.metrics.ScrapeErrors = c.metrics.ScrapeErrors ∧
          (c.Collect env).collector.metrics.LastScrapeTime.value = env.stamped) ∧
        (c.base.Enabled = false →
          (c.Collect env).collector.metrics.LastScrapeTime = c.metrics.LastScrapeTime) ∧
        ∀ e, c.base.scanner.Scan Context.Background env.fs = .error e →
          (c.Collect env).collector.metrics.LastScrapeTime = c.metrics.LastScrapeTime) := by
  refine ⟨?_, ?_, ?_, ?_⟩ <;> intro c <;> refine ⟨fun he => ?_, fun he => ?_, fun e h => ?_⟩
  · obtain ⟨cgroups, h1, h2⟩ := CPUCollector_Collect_enabled c env he
    refine ⟨⟨cgroups, h1⟩, ?_, ?_⟩
    · rw [h2]
      simp only [CPUCollector.collectWith, CPUCollector_foldl_metrics]
      rfl
    · rw [h2]
      rfl
  · unfold CPUCollector.Collect
    rw [he]
    rfl
  · obtain ⟨cgroups, h1⟩ := Scan_never_errors c.base.scanner Context.Background env.fs
    rw [h1] at h
    cases h
  · obtain ⟨cgroups, h1, h2⟩ := MemoryCollector_Collect_enabled c env he
    refine ⟨⟨cgroups, h1⟩, ?_, ?_⟩
    · rw [h2]
      simp only [MemoryCollector.collectWith, MemoryCollector_foldl_metrics]
      rfl
    · rw [h2]
      rfl
  · unfold MemoryCollector.Collect
    rw [he]
    rfl
  · obtain ⟨cgroups, h1⟩ := Scan_never_errors c.base.scanner Context.Background env.fs
    rw [h1] at h
    cases h
  · obtain ⟨cgroups, h1, h2⟩ := IOCollector_Collect_enabled c env he
    refine ⟨⟨cgroups, h1⟩, ?_, ?_⟩
    · rw [h2]
      simp only [IOCollector.collectWith, IOCollector_foldl_metrics]
      rfl
    · rw [h2]
      rfl
  · unfold IOCollector.Collect
    rw [he]
    rfl
  · obtain ⟨cgroups, h1⟩ := Scan_never_errors c.base.scanner Context.Background env.fs
    rw [h1] at h
    cases h
  · obtain ⟨cgroups, h1, h2⟩ := PIDsCollector_Collect_enabled c env he
    refine ⟨⟨cgroups, h1⟩, ?_, ?_⟩
    · rw [h2]
      simp only [PIDsCollector.collectWith, PIDsCollector_foldl_metrics]
      rfl
    · rw [h2]
      rfl
  · unfold PIDsCollector.Collect
    rw [he]
    rfl
  · obtain ⟨cgroups, h1⟩ := Scan_never_errors c.base.scanner Context.Background env.fs
    rw [h1] at h
    cases h

/-- C20 at the CPU collector of the test configuration over `clashTree`: the collector is
enabled, its gauge stands at `0` before the pass and at the clock reading `2001` after it,
and no scrape error is counted. -/
theorem Collect_LastScrapeTime_witness :
    (NewCPUCollector (sampleConfig 60 true true true true) : CPUCollector Nat).base.Enabled
        = true ∧
      (NewCPUCollector (sampleConfig 60 true true true true) :
        CPUCollector Nat).metrics.LastScrapeTime.value = 0 ∧
      ((NewCPUCollector (sampleConfig 60 true true true true) : CPUCollector Nat).Collect
        (sampleEnv clashTree)).collector.metrics.LastScrapeTime.value = 2001 ∧
      ((NewCPUCollector (sampleConfig 60 true true true true) : CPUCollector Nat).Collect
        (sampleEnv clashTree)).collector.metrics.ScrapeErrors.value = 0 :=
  ⟨rfl, rfl,
    (((Collect_LastScrapeTime Nat (sampleEnv clashTree)).1
      (NewCPUCollector (sampleConfig 60 true true true true))).1 rfl).2.2,
    congrArg Metric.value
      (((Collect_LastScrapeTime Nat (sampleEnv clashTree)).1
        (NewCPUCollector (sampleConfig 60 true true true true))).1 rfl).2.1⟩


/-! ## The scan: which paths it returns -/

mutual
/-- The walk of a subtree under the scan callback adds the paths of the listed control
groups of the subtree, in order, as far as the cap allows. -/
theorem walk_scan_paths (s : Scanner) (M : Nat) (hM : s.maxCgroups = (M : Int))
    (node : FsNode) (path : GoString) (st : List CgroupInfo) :
    (walk s.scanFn path node st).1.map CgroupInfo.Path =
      st.map CgroupInfo.Path ++ (node.listedGroupPaths path).take (M - st.length) := by
  cases node with
  | broken e => simp [walk_scan_broken, FsNode.listedGroupPaths]
  | file c => simp [walk_scan_file, FsNode.listedGroupPaths]
  | dir l es =>
    cases l with
    | false => simp [walk_scan_dir_false, FsNode.listedGroupPaths]
    | true =>
      rw [walk_scan_dir_true, scanFn_dir]
      by_cases h1 : (st.length : Int) ≥ s.maxCgroups
      · have h2 : M - st.length = 0 := by
          have : M ≤ st.length := by rw [hM] at h1; exact_mod_cast h1
          omega
        simp [h1, h2]
      · have h2 : ¬ M ≤ st.length := by rw [hM] at h1; exact_mod_cast h1
        have ih := walkNames_scan_paths s M hM es path
        cases hr : osReadFile (FsNode.dir true es) controllersName with
        | error e =>
          simp only [h1, if_false, ne_eq, not_true_eq_false]
          simp [FsNode.listedGroupPaths, FsNode.holdsControllers, hr, ih]
        | ok c =>
          simp only [h1, if_false, ne_eq, not_true_eq_false]
          rw [ih]
          have h3 : M - st.length = (M - (st.length + 1)) + 1 := by omega
          simp only [FsNode.listedGroupPaths, FsNode.holdsControllers, hr, if_true,
            List.map_append, List.map_cons, List.map_nil, List.length_append,
            List.length_singleton, List.singleton_append, List.append_assoc]
          rw [h3, List.take_succ_cons]
/-- The same for the walk of the entries of a directory. -/
theorem walkNames_scan_paths (s : Scanner) (M : Nat) (hM : s.maxCgroups = (M : Int))
    (es : FsEntries) (path : GoString) (st : List CgroupInfo) :
    (walkNames s.scanFn path es st).1.map CgroupInfo.Path =
      st.map CgroupInfo.Path ++ (es.listedGroupPaths path).take (M - st.length) := by
  cases es with
  | nil => simp [walkNames, FsEntries.listedGroupPaths]
  | cons name node rest =>
    have ihr := walkNames_scan_paths s M hM rest path
    cases node with
    | broken e =>
      rw [walkNames]
      simp [scanFn_err, FsEntries.listedGroupPaths, FsNode.listedGroupPaths, ihr]
    | file c =>
      rw [walkNames]
      simp [walk_scan_file, FsEntries.listedGroupPaths, FsNode.listedGroupPaths, ihr]
    | dir l es1 =>
      have ihn := walk_scan_paths s M hM (.dir l es1) (Join path name) st
      have hlen := walk_scan_length s M hM (.dir l es1) (Join path name) st
      rw [walkNames]
      have hne : ¬ ((walk s.scanFn (Join path name) (.dir l es1) st).2 ≠ none ∧
          (walk s.scanFn (Join path name) (.dir l es1) st).2 ≠ some .SkipDir) := by
        rcases hlen.2 with h | h
        · simp [h]
        · simp [h.1]
      rw [if_neg hne, ihr, ihn, FsEntries.listedGroupPaths, List.take_append_eq_append_take,
        List.append_assoc]
      have hl : (walk s.scanFn (Join path name) (.dir l es1) st).1.length
          = st.length + min (M - st.length)
              ((FsNode.dir l es1).listedGroupPaths (Join path name)).length := by
        have := congrArg List.length ihn
        simpa using this
      congr 3
      rw [hl]
      omega
end

/-- The paths of the nodes a scan under the cap `M` returns: the first `M` paths of the
listed control groups, in walk order; and no error. -/
theorem Scan_paths (root : GoString) (M : Nat) (ctx : Context) (fs : FsNode) :
    ∃ l, ((NewScanner root).SetMaxCgroups M).Scan ctx fs = .ok l ∧
      l.map CgroupInfo.Path = (fs.listedGroupPaths root).take M := by
  obtain ⟨l, h1, _⟩ := Scan_eq_ok root M ctx fs
  refine ⟨l, h1, ?_⟩
  rw [Scan_ok_eq_walk _ ctx fs l h1]
  have h := walk_scan_paths ((NewScanner root).SetMaxCgroups M) M rfl fs root []
  simpa using h

mutual
theorem listedGroupPaths_length (node : FsNode) (path : GoString) :
    (node.listedGroupPaths path).length = node.countListed := by
  cases node with
  | broken e => simp [FsNode.listedGroupPaths, FsNode.countListed]
  | file c => simp [FsNode.listedGroupPaths, FsNode.countListed]
  | dir l es =>
    cases l with
    | false => simp [FsNode.listedGroupPaths, FsNode.countListed]
    | true =>
      have ih := listedGroupPaths_length_entries es path
      by_cases h : (FsNode.dir true es).holdsControllers = true
      · simp [FsNode.listedGroupPaths, FsNode.countListed, ih, h]
        omega
      · simp [FsNode.listedGroupPaths, FsNode.countListed, ih, h]
theorem listedGroupPaths_length_entries (es : FsEntries) (path : GoString) :
    (es.listedGroupPaths path).length = es.countListed := by
  cases es with
  | nil => simp [FsEntries.listedGroupPaths, FsEntries.countListed]
  | cons name node rest =>
    simp [FsEntries.listedGroupPaths, FsEntries.countListed,
      listedGroupPaths_length node (Join path name), listedGroupPaths_length_entries rest path]
end

mutual
theorem listedGroupPaths_eq_groupPaths (node : FsNode) (path : GoString)
    (h : node.allListable = true) : node.listedGroupPaths path = node.groupPaths path := by
  cases node with
  | broken e => simp [FsNode.listedGroupPaths, FsNode.groupPaths]
  | file c => simp [FsNode.listedGroupPaths, FsNode.groupPaths]
  | dir l es =>
    simp only [FsNode.allListable, Bool.and_eq_true] at h
    obtain ⟨hl, hes⟩ := h
    subst hl
    simp [FsNode.listedGroupPaths, FsNode.groupPaths,
      listedGroupPaths_eq_groupPaths_entries es path hes]
theorem listedGroupPaths_eq_groupPaths_entries (es : FsEntries) (path : GoString)
    (h : es.allListable = true) : es.listedGroupPaths path = es.groupPaths path := by
  cases es with
  | nil => simp [FsEntries.listedGroupPaths, FsEntries.groupPaths]
  | cons name node rest =>
    simp only [FsEntries.allListable, Bool.and_eq_true] at h
    simp [FsEntries.listedGroupPaths, FsEntries.groupPaths,
      listedGroupPaths_eq_groupPaths node (Join path name) h.1,
      listedGroupPaths_eq_groupPaths_entries rest path h.2]
end

/-- C17 (as stated, refuted): under the default cap of `10000`, far from reached, the scan
of `hiddenGroupTree` does not return the path of the group `a`, a directory below the root
that contains a readable `cgroup.controllers` file but cannot be listed. -/
theorem Scan_paths_hidden_group_counterexample :
    ¬ ∃ l, (NewScanner sysFsCgroup).Scan Context.Background hiddenGroupTree = .ok l ∧
      ∀ p, p ∈ l.map CgroupInfo.Path ↔ p ∈ hiddenGroupTree.groupPaths sysFsCgroup := by
  rintro ⟨l, h1, h2⟩
  have h3 : ((NewScanner sysFsCgroup).Scan Context.Background hiddenGroupTree).map
      (fun l => l.map CgroupInfo.Path) = .ok ["/sys/fs/cgroup".toList] := by decide
  rw [h1] at h3
  have h4 : l.map CgroupInfo.Path = ["/sys/fs/cgroup".toList] := by
    simpa [Except.map] using h3
  have h5 : "/sys/fs/cgroup/a".toList ∈ hiddenGroupTree.groupPaths sysFsCgroup := by decide
  have h6 := (h2 _).mpr h5
  rw [h4] at h6
  revert h6
  decide

/-- C17 (amended): when the cap is not reached, the paths of the nodes `Scan` returns are
exactly, and in walk order, the directories at or below the root that contain a readable
`cgroup.controllers` file and can be listed, as can every directory above them; a directory
without that file yields no node and no error, and its sub-directories are still examined.
When every directory of the tree can be listed, these are all the directories that contain
a readable `cgroup.controllers` file. -/
theorem Scan_paths_below_cap (root : GoString) (M : Nat) (ctx : Context) (fs : FsNode)
    (hcap : fs.countListed ≤ M) :
    ∃ l, ((NewScanner root).SetMaxCgroups M).Scan ctx fs = .ok l ∧
      l.map CgroupInfo.Path = fs.listedGroupPaths root ∧
      (fs.allListable = true → l.map CgroupInfo.Path = fs.groupPaths root) := by
  obtain ⟨l, h1, h2⟩ := Scan_paths root M ctx fs
  have h3 : l.map CgroupInfo.Path = fs.listedGroupPaths root := by
    rw [h2, List.take_of_length_le]
    rw [listedGroupPaths_length]
    exact hcap
  refine ⟨l, h1, h3, ?_⟩
  intro h
  rw [h3, listedGroupPaths_eq_groupPaths fs root h]

/-- The amended C17 at `faultyTree` under the cap `10`: the root group holds the file, the
directory `locked` does not hold a readable one, and its child `inner` is still found. -/
theorem Scan_paths_below_cap_witness :
    (faultyTree.countListed ≤ 10 ∧ faultyTree.allListable = true) ∧
      ∃ l, ((NewScanner sysFsCgroup).SetMaxCgroups (10 : Nat)).Scan Context.Background
          faultyTree = .ok l ∧
        l.map CgroupInfo.Path =
          ["/sys/fs/cgroup".toList, "/sys/fs/cgroup/locked/inner".toList,
            "/sys/fs/cgroup/ok1".toList, "/sys/fs/cgroup/ok2".toList] := by
  refine ⟨by decide, ?_⟩
  obtain ⟨l, h1, _, h3⟩ :=
    Scan_paths_below_cap sysFsCgroup 10 Context.Background faultyTree (by decide)
  refine ⟨l, h1, ?_⟩
  rw [h3 (by decide)]
  decide

/-- C18: per-entry errors never abort the walk.  For every tree and every cap `M`, `Scan`
returns no error; and when the only faults of the tree are entries that cannot be stat'ed
and `cgroup.controllers` files that cannot be read (every directory can be listed), it
returns every directory that contains a readable `cgroup.controllers` file, in walk order,
up to the cap: the first `M` of them. -/
theorem Scan_survives_entry_errors (root : GoString) (M : Nat) (ctx : Context) (fs : FsNode) :
    ∃ l, ((NewScanner root).SetMaxCgroups M).Scan ctx fs = .ok l ∧
      (fs.allListable = true →
        l.map CgroupInfo.Path = (fs.groupPaths root).take M ∧
          ∀ p ∈ (fs.groupPaths root).take M, p ∈ l.map CgroupInfo.Path) := by
  obtain ⟨l, h1, h2⟩ := Scan_paths root M ctx fs
  refine ⟨l, h1, ?_⟩
  intro h
  rw [listedGroupPaths_eq_groupPaths fs root h] at h2
  exact ⟨h2, fun p hp => by rw [h2]; exact hp⟩

/-- C18 at `faultyTree`, which has an entry that cannot be stat'ed and a directory whose
`cgroup.controllers` cannot be read, under the cap `3`: the first three readable control
groups are returned. -/
theorem Scan_survives_entry_errors_witness :
    faultyTree.allListable = true ∧
      ∃ l, ((NewScanner sysFsCgroup).SetMaxCgroups (3 : Nat)).Scan Context.Background
          faultyTree = .ok l ∧
        l.map CgroupInfo.Path =
          ["/sys/fs/cgroup".toList, "/sys/fs/cgroup/locked/inner".toList,
            "/sys/fs/cgroup/ok1".toList] := by
  refine ⟨by decide, ?_⟩
  obtain ⟨l, h1, h2⟩ :=
    Scan_survives_entry_errors sysFsCgroup 3 Context.Background faultyTree
  refine ⟨l, h1, ?_⟩
  rw [(h2 (by decide)).1]
  decide


/-! ## The names and labels of the described metrics -/

theorem namedUnder_intro (ns sub name help : String) (labels : List String) (h : name ≠ "")
    (h2 : BuildFQName ns sub name = ns ++ "_" ++ sub ++ "_" ++ name) :
    namedUnder ns sub
      { fqName := BuildFQName ns sub name, help := help, variableLabels := labels } :=
  ⟨name, h, rfl, h2⟩

theorem CPUCollector_Describe_named (V : Type) (cfg : Config) :
    ∀ d ∈ (NewCPUCollector cfg : CPUCollector V).Describe,
      namedUnder "cgroup" "cpu" d ∨ namedUnder "prometheus_cgroup_v2_exporter" "cpu" d := by
  rcases cfg with ⟨w, cg, ⟨⟨e1, p1⟩, ⟨e2, p2, s2⟩, ⟨e3, p3, d3⟩, ⟨e4⟩⟩, lg, adv⟩
  cases e1 <;> cases p1 <;>
    simp only [NewCPUCollector, CPUCollector.initMetrics, CPUCollector.Describe, NewBaseCollector,
      BaseCollector.Enabled, MetricVec.Describe, describeOpt, CollectorMetrics.Describe,
      NewCollectorMetrics, Metric.Describe, NewCounterVec, NewGaugeVec, NewHistogram,
      NewCounter, NewGauge, Opts.desc, Bool.not_true, Bool.not_false, if_true, if_false,
      List.append_nil, List.cons_append, List.nil_append, List.not_mem_nil, false_implies,
      implies_true, List.forall_mem_cons, Bool.false_eq_true] <;>
    (repeat' apply And.intro) <;>
    first
      | trivial
      | exact Or.inl (namedUnder_intro _ _ _ _ _ (by decide) (by decide))
      | exact Or.inr (namedUnder_intro _ _ _ _ _ (by decide) (by decide))

theorem MemoryCollector_Describe_named (V : Type) (cfg : Config) :
    ∀ d ∈ (NewMemoryCollector cfg : MemoryCollector V).Describe,
      namedUnder "cgroup" "memory" d ∨ namedUnder "prometheus_cgroup_v2_exporter" "memory" d := by
  rcases cfg with ⟨w, cg, ⟨⟨e1, p1⟩, ⟨e2, p2, s2⟩, ⟨e3, p3, d3⟩, ⟨e4⟩⟩, lg, adv⟩
  cases e2 <;> cases p2 <;> cases s2 <;>
    simp only [NewMemoryCollector, MemoryCollector.initMetrics, MemoryCollector.Describe, NewBaseCollector,
      BaseCollector.Enabled, MetricVec.Describe, describeOpt, CollectorMetrics.Describe,
      NewCollectorMetrics, Metric.Describe, NewCounterVec, NewGaugeVec, NewHistogram,
      NewCounter, NewGauge, Opts.desc, Bool.not_true, Bool.not_false, if_true, if_false,
      List.append_nil, List.cons_append, List.nil_append, List.not_mem_nil, false_implies,
      implies_true, List.forall_mem_cons, Bool.false_eq_true] <;>
    (repeat' apply And.intro) <;>
    first
      | trivial
      | exact Or.inl (namedUnder_intro _ _ _ _ _ (by decide) (by decide))
      | exact Or.inr (namedUnder_intro _ _ _ _ _ (by decide) (by decide))

theorem IOCollector_Describe_named (V : Type) (cfg : Config) :
    ∀ d ∈ (NewIOCollector cfg : IOCollector V).Describe,
      namedUnder "cgroup" "io" d ∨ namedUnder "prometheus_cgroup_v2_exporter" "io" d := by
  rcases cfg with ⟨w, cg, ⟨⟨e1, p1⟩, ⟨e2, p2, s2⟩, ⟨e3, p3, d3⟩, ⟨e4⟩⟩, lg, adv⟩
  cases e3 <;> cases p3 <;>
    simp only [NewIOCollector, IOCollector.initMetrics, IOCollector.Describe, NewBaseCollector,
      BaseCollector.Enabled, MetricVec.Describe, describeOpt, CollectorMetrics.Describe,
      NewCollectorMetrics, Metric.Describe, NewCounterVec, NewGaugeVec, NewHistogram,
      NewCounter, NewGauge, Opts.desc, Bool.not_true, Bool.not_false, if_true, if_false,
      List.append_nil, List.cons_append, List.nil_append, List.not_mem_nil, false_implies,
      implies_true, List.forall_mem_cons, Bool.false_eq_true] <;>
    (repeat' apply And.intro) <;>
    first
      | trivial
      | exact Or.inl (namedUnder_intro _ _ _ _ _ (by decide) (by decide))
      | exact Or.inr (namedUnder_intro _ _ _ _ _ (by decide) (by decide))

theorem PIDsCollector_Describe_named (V : Type) (cfg : Config) :
    ∀ d ∈ (NewPIDsCollector cfg : PIDsCollector V).Describe,
      namedUnder "cgroup" "processes" d ∨ namedUnder "prometheus_cgroup_v2_exporter" "pids" d := by
  rcases cfg with ⟨w, cg, ⟨⟨e1, p1⟩, ⟨e2, p2, s2⟩, ⟨e3, p3, d3⟩, ⟨e4⟩⟩, lg, adv⟩
  cases e4 <;>
    simp only [NewPIDsCollector, PIDsCollector.initMetrics, PIDsCollector.Describe, NewBaseCollector,
      BaseCollector.Enabled, MetricVec.Describe, describeOpt, CollectorMetrics.Describe,
      NewCollectorMetrics, Metric.Describe, NewCounterVec, NewGaugeVec, NewHistogram,
      NewCounter, NewGauge, Opts.desc, Bool.not_true, Bool.not_false, if_true, if_false,
      List.append_nil, List.cons_append, List.nil_append, List.not_mem_nil, false_implies,
      implies_true, List.forall_mem_cons, Bool.false_eq_true] <;>
    (repeat' apply And.intro) <;>
    first
      | trivial
      | exact Or.inl (namedUnder_intro _ _ _ _ _ (by decide) (by decide))
      | exact Or.inr (namedUnder_intro _ _ _ _ _ (by decide) (by decide))

theorem CPUCollector_Describe_labels (V : Type) (cfg : Config) :
    ∀ d ∈ (NewCPUCollector cfg : CPUCollector V).Describe,
      d.variableLabels = [] ∨ d.variableLabels.head? = some "cgroup" := by
  rcases cfg with ⟨w, cg, ⟨⟨e1, p1⟩, ⟨e2, p2, s2⟩, ⟨e3, p3, d3⟩, ⟨e4⟩⟩, lg, adv⟩
  cases e1 <;> cases p1 <;>
    simp [NewCPUCollector, CPUCollector.initMetrics, CPUCollector.Describe, NewBaseCollector,
      BaseCollector.Enabled, MetricVec.Describe, describeOpt, CollectorMetrics.Describe,
      NewCollectorMetrics, Metric.Describe, NewCounterVec, NewGaugeVec, NewHistogram,
      NewCounter, NewGauge, Opts.desc]

theorem MemoryCollector_Describe_labels (V : Type) (cfg : Config) :
    ∀ d ∈ (NewMemoryCollector cfg : MemoryCollector V).Describe,
      d.variableLabels = [] ∨ d.variableLabels.head? = some "cgroup" := by
  rcases cfg with ⟨w, cg, ⟨⟨e1, p1⟩, ⟨e2, p2, s2⟩, ⟨e3, p3, d3⟩, ⟨e4⟩⟩, lg, adv⟩
  cases e2 <;> cases p2 <;> cases s2 <;>
    simp [NewMemoryCollector, MemoryCollector.initMetrics, MemoryCollector.Describe, NewBaseCollector,
      BaseCollector.Enabled, MetricVec.Describe, describeOpt, CollectorMetrics.Describe,
      NewCollectorMetrics, Metric.Describe, NewCounterVec, NewGaugeVec, NewHistogram,
      NewCounter, NewGauge, Opts.desc]

theorem IOCollector_Describe_labels (V : Type) (cfg : Config) :
    ∀ d ∈ (NewIOCollector cfg : IOCollector V).Describe,
      d.variableLabels = [] ∨ d.variableLabels.head? = some "cgroup" := by
  rcases cfg with ⟨w, cg, ⟨⟨e1, p1⟩, ⟨e2, p2, s2⟩, ⟨e3, p3, d3⟩, ⟨e4⟩⟩, lg, adv⟩
  cases e3 <;> cases p3 <;>
    simp [NewIOCollector, IOCollector.initMetrics, IOCollector.Describe, NewBaseCollector,
      BaseCollector.Enabled, MetricVec.Describe, describeOpt, CollectorMetrics.Describe,
      NewCollectorMetrics, Metric.Describe, NewCounterVec, NewGaugeVec, NewHistogram,
      NewCounter, NewGauge, Opts.desc]

theorem PIDsCollector_Describe_labels (V : Type) (cfg : Config) :
    ∀ d ∈ (NewPIDsCollector cfg : PIDsCollector V).Describe,
      d.variableLabels = [] ∨ d.variableLabels.head? = some "cgroup" := by
  rcases cfg with ⟨w, cg, ⟨⟨e1, p1⟩, ⟨e2, p2, s2⟩, ⟨e3, p3, d3⟩, ⟨e4⟩⟩, lg, adv⟩
  cases e4 <;>
    simp [NewPIDsCollector, PIDsCollector.initMetrics, PIDsCollector.Describe, NewBaseCollector,
      BaseCollector.Enabled, MetricVec.Describe, describeOpt, CollectorMetrics.Describe,
      NewCollectorMetrics, Metric.Describe, NewCounterVec, NewGaugeVec, NewHistogram,
      NewCounter, NewGauge, Opts.desc]

theorem CPUCollector_Describe_names_sublist (V : Type) (cfg : Config) :
    List.Sublist ((NewCPUCollector cfg : CPUCollector V).Describe.map Desc.fqName)
      ((NewCPUCollector (sampleConfig 60 true true true true) : CPUCollector Unit).Describe.map
        Desc.fqName) := by
  rcases cfg with ⟨w, cg, ⟨⟨e1, p1⟩, ⟨e2, p2, s2⟩, ⟨e3, p3, d3⟩, ⟨e4⟩⟩, lg, adv⟩
  cases e1 <;> cases p1 <;>
    simp [NewCPUCollector, CPUCollector.initMetrics, CPUCollector.Describe, NewBaseCollector,
      BaseCollector.Enabled, MetricVec.Describe, describeOpt, CollectorMetrics.Describe,
      NewCollectorMetrics, Metric.Describe, NewCounterVec, NewGaugeVec, NewHistogram,
      NewCounter, NewGauge, Opts.desc, sampleConfig]

theorem MemoryCollector_Describe_names_sublist (V : Type) (cfg : Config) :
    List.Sublist ((NewMemoryCollector cfg : MemoryCollector V).Describe.map Desc.fqName)
      ((NewMemoryCollector (sampleConfig 60 true true true true) : MemoryCollector Unit).Describe.map
        Desc.fqName) := by
  rcases cfg with ⟨w, cg, ⟨⟨e1, p1⟩, ⟨e2, p2, s2⟩, ⟨e3, p3, d3⟩, ⟨e4⟩⟩, lg, adv⟩
  cases e2 <;> cases p2 <;> cases s2 <;>
    simp [NewMemoryCollector, MemoryCollector.initMetrics, MemoryCollector.Describe, NewBaseCollector,
      BaseCollector.Enabled, MetricVec.Describe, describeOpt, CollectorMetrics.Describe,
      NewCollectorMetrics, Metric.Describe, NewCounterVec, NewGaugeVec, NewHistogram,
      NewCounter, NewGauge, Opts.desc, sampleConfig]

theorem IOCollector_Describe_names_sublist (V : Type) (cfg : Config) :
    List.Sublist ((NewIOCollector cfg : IOCollector V).Describe.map Desc.fqName)
      ((NewIOCollector (sampleConfig 60 true true true true) : IOCollector Unit).Describe.map
        Desc.fqName) := by
  rcases cfg with ⟨w, cg, ⟨⟨e1, p1⟩, ⟨e2, p2, s2⟩, ⟨e3, p3, d3⟩, ⟨e4⟩⟩, lg, adv⟩
  cases e3 <;> cases p3 <;>
    simp [NewIOCollector, IOCollector.initMetrics, IOCollector.Describe, NewBaseCollector,
      BaseCollector.Enabled, MetricVec.Describe, describeOpt, CollectorMetrics.Describe,
      NewCollectorMetrics, Metric.Describe, NewCounterVec, NewGaugeVec, NewHistogram,
      NewCounter, NewGauge, Opts.desc, sampleConfig]

theorem PIDsCollector_Describe_names_sublist (V : Type) (cfg : Config) :
    List.Sublist ((NewPIDsCollector cfg : PIDsCollector V).Describe.map Desc.fqName)
      ((NewPIDsCollector (sampleConfig 60 true true true true) : PIDsCollector Unit).Describe.map
        Desc.fqName) := by
  rcases cfg with ⟨w, cg, ⟨⟨e1, p1⟩, ⟨e2, p2, s2⟩, ⟨e3, p3, d3⟩, ⟨e4⟩⟩, lg, adv⟩
  cases e4 <;>
    simp [NewPIDsCollector, PIDsCollector.initMetrics, PIDsCollector.Describe, NewBaseCollector,
      BaseCollector.Enabled, MetricVec.Describe, describeOpt, CollectorMetrics.Describe,
      NewCollectorMetrics, Metric.Describe, NewCounterVec, NewGaugeVec, NewHistogram,
      NewCounter, NewGauge, Opts.desc, sampleConfig]

/-- With every collector enabled and every toggle on, the described names are pairwise
distinct. -/
theorem describedNames_full_nodup :
    (describedNames Unit (sampleConfig 60 true true true true)).Nodup := by
  decide


/-- C14: for every configuration, the fully-qualified metric names described by the CPU,
memory, I/O and PIDs collectors together (business and self-observability metrics, with
every collector enabled or not and every feature toggle on or off) are pairwise distinct. -/
theorem describedNames_nodup (V : Type) (cfg : Config) : (describedNames V cfg).Nodup := by
  have hsub : List.Sublist (describedNames V cfg)
      (describedNames Unit (sampleConfig 60 true true true true)) := by
    unfold describedNames describedDescs
    simp only [List.map_append]
    exact ((((CPUCollector_Describe_names_sublist V cfg).append
      (MemoryCollector_Describe_names_sublist V cfg)).append
      (IOCollector_Describe_names_sublist V cfg)).append
      (PIDsCollector_Describe_names_sublist V cfg))
  exact hsub.nodup describedNames_full_nodup

/-- C13 (as stated, refuted): the PIDs collector describes the business metric
`cgroup_processes_count` and the self-observability metric
`prometheus_cgroup_v2_exporter_pids_scrape_duration_seconds`; the latter is not of the form
`<namespace>_<subsystem>_<name>` for any subsystem among `cpu`, `memory`, `io`, `processes`,
and its subsystem component `pids` is not the `processes` of the business metrics. -/
theorem PIDs_self_metric_subsystem_counterexample :
    ("cgroup_processes_count" ∈
        (NewPIDsCollector (sampleConfig 60 true true true true) :
          PIDsCollector Nat).Describe.map Desc.fqName ∧
      "prometheus_cgroup_v2_exporter_pids_scrape_duration_seconds" ∈
        (NewPIDsCollector (sampleConfig 60 true true true true) :
          PIDsCollector Nat).Describe.map Desc.fqName) ∧
    ¬ hasSubsystemForm specSubsystems
        "prometheus_cgroup_v2_exporter_pids_scrape_duration_seconds" := by
  refine ⟨by decide, ?_⟩
  rintro ⟨ns, sub, name, _, _, hsub, heq⟩
  have hinf : ('_' :: sub.data ++ ['_']) <:+:
      "prometheus_cgroup_v2_exporter_pids_scrape_duration_seconds".data := by
    refine ⟨ns.data, name.data, ?_⟩
    have hdata := (congrArg String.data heq).symm
    simpa [String.data_append, List.append_assoc] using hdata
  simp only [specSubsystems, List.mem_cons, List.mem_singleton, List.not_mem_nil,
    or_false] at hsub
  rcases hsub with rfl | rfl | rfl | rfl <;> revert hinf <;> decide

/-- C13 (amended): every metric name a collector describes has the form
`<namespace>_<subsystem>_<name>`: `cgroup_<s>_<name>` for a business metric, with `s` being
`cpu`, `memory`, `io`, `processes` for the CPU, memory, I/O and PIDs collectors, and
`prometheus_cgroup_v2_exporter_<c>_<name>` for a self-observability metric, with `c` the name
of the collector, `cpu`, `memory`, `io`, `pids`.  The two subsystem components are equal for
the CPU, memory and I/O collectors; for the PIDs collector they are `processes` and
`pids`. -/
theorem described_names_form (V : Type) (cfg : Config) :
    (∀ d ∈ (NewCPUCollector cfg : CPUCollector V).Describe,
        namedUnder "cgroup" "cpu" d ∨ namedUnder "prometheus_cgroup_v2_exporter" "cpu" d) ∧
      (∀ d ∈ (NewMemoryCollector cfg : MemoryCollector V).Describe,
        namedUnder "cgroup" "memory" d ∨
          namedUnder "prometheus_cgroup_v2_exporter" "memory" d) ∧
      (∀ d ∈ (NewIOCollector cfg : IOCollector V).Describe,
        namedUnder "cgroup" "io" d ∨ namedUnder "prometheus_cgroup_v2_exporter" "io" d) ∧
      (∀ d ∈ (NewPIDsCollector cfg : PIDsCollector V).Describe,
        namedUnder "cgroup" "processes" d ∨
          namedUnder "prometheus_cgroup_v2_exporter" "pids" d) ∧
      (∀ d ∈ describedDescs V cfg,
        hasSubsystemForm ["cpu", "memory", "io", "processes", "pids"] d.fqName) := by
  have h1 := CPUCollector_Describe_named V cfg
  have h2 := MemoryCollector_Describe_named V cfg
  have h3 := IOCollector_Describe_named V cfg
  have h4 := PIDsCollector_Describe_named V cfg
  have form : ∀ (ns sub : String) (d : Desc), ns ≠ "" →
      sub ∈ ["cpu", "memory", "io", "processes", "pids"] → namedUnder ns sub d →
      hasSubsystemForm ["cpu", "memory", "io", "processes", "pids"] d.fqName := by
    rintro ns sub d hns hsub ⟨name, hname, _, heq⟩
    exact ⟨ns, sub, name, hns, hname, hsub, heq⟩
  refine ⟨h1, h2, h3, h4, ?_⟩
  intro d hd
  simp only [describedDescs, List.mem_append] at hd
  rcases hd with ((hd | hd) | hd) | hd
  · rcases h1 d hd with h | h
    · exact form _ _ d (by decide) (by decide) h
    · exact form _ _ d (by decide) (by decide) h
  · rcases h2 d hd with h | h
    · exact form _ _ d (by decide) (by decide) h
    · exact form _ _ d (by decide) (by decide) h
  · rcases h3 d hd with h | h
    · exact form _ _ d (by decide) (by decide) h
    · exact form _ _ d (by decide) (by decide) h
  · rcases h4 d hd with h | h
    · exact form _ _ d (by decide) (by decide) h
    · exact form _ _ d (by decide) (by decide) h


/-! ## The scan and its cancellation signal -/

/-- C21 (the code at the failing input): `Scan` never consults its context: its result is
the same for every context, and with a context that is already cancelled the scan of
`clashTree` completes the walk and returns all 4 nodes with a nil error. -/
theorem Scan_ignores_context :
    (∀ (s : Scanner) (ctx : Context) (fs : FsNode),
        s.Scan ctx fs = s.Scan Context.Background fs) ∧
      cancelledContext.done = true ∧
      ((NewScanner sysFsCgroup).Scan cancelledContext clashTree).map
          (fun l => l.map CgroupInfo.Path) =
        .ok ["/sys/fs/cgroup".toList, "/sys/fs/cgroup/a".toList, "/sys/fs/cgroup/a/b".toList,
          "/sys/fs/cgroup/a.b".toList] := by
  refine ⟨fun _ _ _ => rfl, rfl, by decide⟩

/-! ## The cap truncates without reordering -/

mutual
theorem countListed_le_countGroups (node : FsNode) : node.countListed ≤ node.countGroups := by
  cases node with
  | broken e => simp [FsNode.countListed, FsNode.countGroups]
  | file c => simp [FsNode.countListed, FsNode.countGroups]
  | dir l es =>
    have ih := countListed_le_countGroups_entries es
    cases l with
    | false => simp [FsNode.countListed]
    | true =>
      simp only [FsNode.countListed, FsNode.countGroups, if_true]
      omega
theorem countListed_le_countGroups_entries (es : FsEntries) :
    es.countListed ≤ es.countGroups := by
  cases es with
  | nil => simp [FsEntries.countListed, FsEntries.countGroups]
  | cons name node rest =>
    have h1 := countListed_le_countGroups node
    have h2 := countListed_le_countGroups_entries rest
    simp only [FsEntries.countListed, FsEntries.countGroups]
    omega
end

/-- The callback with its log, on a directory reached when the cap has been reached: it
logs the directory and answers `SkipDir`. -/
theorem visitFn_dir_capped (s : Scanner) (path : GoString) (l : Bool) (es : FsEntries)
    (st : List CgroupInfo) (log : List GoString) (h : (st.length : Int) ≥ s.maxCgroups) :
    s.visitFn (st, log) path (some (.dir l es)) none = ((st, log ++ [path]), some .SkipDir) := by
  simp [Scanner.visitFn, scanFn_dir, h]

/-- C23: the cap truncates without reordering.  For every tree with `N` directories that
hold a readable `cgroup.controllers` file and every cap `M ≥ 0`, the node paths returned by
`Scan` with cap `M` are exactly the first `min N M` node paths, in the same order, of the
`Scan` of the same tree with a cap of at least `N`; and once `M` nodes have been gathered,
the walk of any further directory calls the callback on that directory alone and on nothing
below it. -/
theorem Scan_cap_truncates (root : GoString) (M M2 : Nat) (ctx : Context) (fs : FsNode)
    (hM2 : fs.countGroups ≤ M2) :
    (∃ l l2, ((NewScanner root).SetMaxCgroups M).Scan ctx fs = .ok l ∧
        ((NewScanner root).SetMaxCgroups M2).Scan ctx fs = .ok l2 ∧
        l.map CgroupInfo.Path = (l2.map CgroupInfo.Path).take (min fs.countGroups M)) ∧
      (∀ (path : GoString) (listable : Bool) (es : FsEntries) (st : List CgroupInfo)
          (log : List GoString), M ≤ st.length →
        walk ((NewScanner root).SetMaxCgroups M).visitFn path (.dir listable es) (st, log) =
          ((st, log ++ [path]), if listable then some .SkipDir else none)) := by
  constructor
  · obtain ⟨l, h1, h2⟩ := Scan_paths root M ctx fs
    obtain ⟨l2, h3, h4⟩ := Scan_paths root M2 ctx fs
    refine ⟨l, l2, h1, h3, ?_⟩
    have hlen : (fs.listedGroupPaths root).length ≤ fs.countGroups := by
      rw [listedGroupPaths_length]
      exact countListed_le_countGroups fs
    have h5 : l2.map CgroupInfo.Path = fs.listedGroupPaths root := by
      rw [h4, List.take_of_length_le (by omega)]
    rw [h2, h5]
    by_cases hc : M ≤ fs.countGroups
    · rw [Nat.min_eq_right hc]
    · rw [Nat.min_eq_left (by omega), List.take_of_length_le (by omega),
        List.take_of_length_le hlen]
  · intro path listable es st log hst
    have hcap : (st.length : Int) ≥ ((NewScanner root).SetMaxCgroups M).maxCgroups := by
      show (st.length : Int) ≥ (M : Int)
      exact_mod_cast hst
    cases listable with
    | false =>
      rw [walk]
      simp [Scanner.visitFn, scanFn_err]
    | true =>
      rw [walk]
      simp [visitFn_dir_capped _ path true es st log hcap]

/-- C23 at `clashTree`, which has 4 control groups: the scan under the cap `2` returns the
first two paths of the scan under the cap `4`. -/
theorem Scan_cap_truncates_witness :
    clashTree.countGroups ≤ 4 ∧
      ∃ l l2, ((NewScanner sysFsCgroup).SetMaxCgroups (2 : Nat)).Scan Context.Background
          clashTree = .ok l ∧
        ((NewScanner sysFsCgroup).SetMaxCgroups (4 : Nat)).Scan Context.Background
          clashTree = .ok l2 ∧
        l.map CgroupInfo.Path = (l2.map CgroupInfo.Path).take 2 ∧
        l.map CgroupInfo.Path = ["/sys/fs/cgroup".toList, "/sys/fs/cgroup/a".toList] := by
  refine ⟨by decide, ?_⟩
  obtain ⟨l, l2, h1, h2, h3⟩ :=
    (Scan_cap_truncates sysFsCgroup 2 4 Context.Background clashTree (by decide)).1
  have h4 : min clashTree.countGroups 2 = 2 := by decide
  rw [h4] at h3
  refine ⟨l, l2, h1, h2, h3, ?_⟩
  have h5 : (((NewScanner sysFsCgroup).SetMaxCgroups (2 : Nat)).Scan Context.Background
      clashTree).map (fun l => l.map CgroupInfo.Path) =
        .ok ["/sys/fs/cgroup".toList, "/sys/fs/cgroup/a".toList] := by decide
  rw [h1] at h5
  simpa [Except.map] using h5

/-! ## The labels of the samples -/

/-- The label tuples of the children after `WithLabelValues(lvs...)`: those there were, and
`lvs`. -/
theorem updateChild_labels (f : Int → Int) (lvs : List GoString) (P : List GoString → Prop)
    (hl : P lvs) :
    ∀ l : List (List GoString × Int), (∀ p ∈ l, P p.1) → ∀ p ∈ updateChild f lvs l, P p.1
  | [], _, p, hp => by
    simp only [updateChild, List.mem_singleton] at hp
    subst hp
    exact hl
  | (l0, x) :: rest, h, p, hp => by
    simp only [updateChild] at hp
    split_ifs at hp with heq
    · rcases List.mem_cons.mp hp with hp | hp
      · subst hp
        exact h (l0, x) (List.mem_cons_self _ _)
      · exact h p (List.mem_cons_of_mem _ hp)
    · rcases List.mem_cons.mp hp with hp | hp
      · subst hp
        exact h (l0, x) (List.mem_cons_self _ _)
      · exact updateChild_labels f lvs P hl rest
          (fun q hq => h q (List.mem_cons_of_mem _ hq)) p hp

theorem MetricVec.Add_allExample (v : MetricVec) (rest : List GoString) (x : Int)
    (h : v.allExample) : (v.Add ("example".toList :: rest) x).allExample :=
  updateChild_labels _ ("example".toList :: rest) (fun l => l.head? = some "example".toList) rfl
    v.children h

theorem MetricVec.Set_allExample (v : MetricVec) (rest : List GoString) (x : Int)
    (h : v.allExample) : (v.Set ("example".toList :: rest) x).allExample :=
  updateChild_labels _ ("example".toList :: rest) (fun l => l.head? = some "example".toList) rfl
    v.children h

theorem MetricVec.Collect_allExample (v : MetricVec) (h : v.allExample) :
    ∀ x ∈ v.Collect, x.labelValues.head? = some "example".toList := by
  intro x hx
  obtain ⟨p, hp, rfl⟩ := List.mem_map.mp hx
  exact h p hp

theorem collectOpt_allExample (o : Option MetricVec) (h : ∀ v, o = some v → v.allExample) :
    ∀ x ∈ collectOpt o, x.labelValues.head? = some "example".toList := by
  cases o with
  | none => intro x hx; cases hx
  | some v => exact MetricVec.Collect_allExample v (h v rfl)

/-- A vector without children. -/
theorem MetricVec.allExample_of_nil (v : MetricVec) (h : v.children = []) : v.allExample := by
  intro p hp
  rw [h] at hp
  cases hp

/-- The samples of the self-observability metrics carry the descriptors `Describe` gives. -/
theorem mem_metrics_Collect_desc (cm : CollectorMetrics) (x : Sample) (hx : x ∈ cm.Collect) :
    x.desc ∈ cm.Describe := by
  have h : x.desc ∈ cm.Collect.map Sample.desc := List.mem_map.mpr ⟨x, hx, rfl⟩
  rw [CollectorMetrics.Collect_desc] at h
  exact h

/-- The per-group loop of `CPUCollector.Collect` keeps every child of every vector under the
label value `example`. -/
theorem CPUCollector_foldl_allExample {V : Type} (cgroups : List CgroupInfo) :
    ∀ c : CPUCollector V,
      (c.cpuUsageTotal.allExample ∧
        c.cpuUserTotal.allExample ∧
        c.cpuSystemTotal.allExample ∧
        c.cpuThrottledTotal.allExample ∧
        c.cpuPeriodsTotal.allExample ∧
        (∀ v, c.cpuPressureTotal = some v → v.allExample)) →
      ((cgroups.foldl (fun acc cgroup => acc.collectCgroupMetrics cgroup) c).cpuUsageTotal.allExample ∧
        (cgroups.foldl (fun acc cgroup => acc.collectCgroupMetrics cgroup) c).cpuUserTotal.allExample ∧
        (cgroups.foldl (fun acc cgroup => acc.collectCgroupMetrics cgroup) c).cpuSystemTotal.allExample ∧
        (cgroups.foldl (fun acc cgroup => acc.collectCgroupMetrics cgroup) c).cpuThrottledTotal.allExample ∧
        (cgroups.foldl (fun acc cgroup => acc.collectCgroupMetrics cgroup) c).cpuPeriodsTotal.allExample ∧
        (∀ v, (cgroups.foldl (fun acc cgroup => acc.collectCgroupMetrics cgroup) c).cpuPressureTotal = some v → v.allExample)) := by
  induction cgroups with
  | nil => intro c h; exact h
  | cons g rest ih =>
    intro c h
    obtain ⟨h1, h2, h3, h4, h5, h6⟩ := h
    rw [List.foldl_cons]
    exact ih (c.collectCgroupMetrics g)
      ⟨MetricVec.Add_allExample _ _ _ h1, MetricVec.Add_allExample _ _ _ h2, MetricVec.Add_allExample _ _ _ h3, h4, h5, h6⟩

/-- A newly built collector holds no child in any of its vectors. -/
theorem CPUCollector_New_allExample (V : Type) (cfg : Config) :
    (NewCPUCollector cfg : CPUCollector V).cpuUsageTotal.allExample ∧
        (NewCPUCollector cfg : CPUCollector V).cpuUserTotal.allExample ∧
        (NewCPUCollector cfg : CPUCollector V).cpuSystemTotal.allExample ∧
        (NewCPUCollector cfg : CPUCollector V).cpuThrottledTotal.allExample ∧
        (NewCPUCollector cfg : CPUCollector V).cpuPeriodsTotal.allExample ∧
        (∀ v, (NewCPUCollector cfg : CPUCollector V).cpuPressureTotal = some v → v.allExample) := by
  refine ⟨MetricVec.allExample_of_nil _ rfl, MetricVec.allExample_of_nil _ rfl, MetricVec.allExample_of_nil _ rfl, MetricVec.allExample_of_nil _ rfl, MetricVec.allExample_of_nil _ rfl, ?_⟩
  all_goals
    intro v hv
    apply MetricVec.allExample_of_nil
    simp only [NewCPUCollector, CPUCollector.initMetrics] at hv
    split_ifs at hv
    cases hv
    rfl

/-- Every sample that `Collect` of a newly built collector sends is a sample of one of its
self-observability metrics or carries `example` as its first label value. -/
theorem CPUCollector_Collect_example (V : Type) (cfg : Config) (env : ScrapeEnv) :
    ∀ x ∈ ((NewCPUCollector cfg : CPUCollector V).Collect env).samples,
      x.desc ∈ (NewCPUCollector cfg : CPUCollector V).metrics.Describe ∨
        x.labelValues.head? = some "example".toList := by
  intro x hx
  cases he : (NewCPUCollector cfg : CPUCollector V).base.Enabled with
  | false =>
    unfold CPUCollector.Collect at hx
    rw [he] at hx
    cases hx
  | true =>
    obtain ⟨cgroups, _, h2⟩ :=
      CPUCollector_Collect_enabled (NewCPUCollector cfg : CPUCollector V) env he
    rw [h2] at hx
    have hinv := CPUCollector_foldl_allExample cgroups
      ({ (NewCPUCollector cfg : CPUCollector V) with metrics := { (NewCPUCollector cfg : CPUCollector V).metrics with
          CgroupsScraped :=
            (NewCPUCollector cfg : CPUCollector V).metrics.CgroupsScraped.Set cgroups.length } } :
          CPUCollector V)
      (CPUCollector_New_allExample V cfg)
    obtain ⟨h1, h2, h3, h4, h5, h6⟩ := hinv
    simp only [CPUCollector.collectWith, List.mem_append] at hx
    rcases hx with (((((hx | hx) | hx) | hx) | hx) | hx) | hx
    · exact Or.inr (MetricVec.Collect_allExample _ h1 x hx)
    · exact Or.inr (MetricVec.Collect_allExample _ h2 x hx)
    · exact Or.inr (MetricVec.Collect_allExample _ h3 x hx)
    · exact Or.inr (MetricVec.Collect_allExample _ h4 x hx)
    · exact Or.inr (MetricVec.Collect_allExample _ h5 x hx)
    · exact Or.inr (collectOpt_allExample _ h6 x hx)
    · refine Or.inl ?_
      have h := mem_metrics_Collect_desc _ x hx
      rw [CPUCollector_foldl_metrics] at h
      exact h

/-- The per-group loop of `MemoryCollector.Collect` keeps every child of every vector under the
label value `example`. -/
theorem MemoryCollector_foldl_allExample {V : Type} (cgroups : List CgroupInfo) :
    ∀ c : MemoryCollector V,
      (c.memoryUsageBytes.allExample ∧
        c.memoryLimitBytes.allExample ∧
        c.memoryCacheBytes.allExample ∧
        c.memoryRSSBytes.allExample ∧
        c.memoryOOMEvents.allExample ∧
        (∀ v, c.memorySwapUsageBytes = some v → v.allExample) ∧
        (∀ v, c.memoryPressureTotal = some v → v.allExample)) →
      ((cgroups.foldl (fun acc cgroup => acc.collectCgroupMetrics cgroup) c).memoryUsageBytes.allExample ∧
        (cgroups.foldl (fun acc cgroup => acc.collectCgroupMetrics cgroup) c).memoryLimitBytes.allExample ∧
        (cgroups.foldl (fun acc cgroup => acc.collectCgroupMetrics cgroup) c).memoryCacheBytes.allExample ∧
        (cgroups.foldl (fun acc cgroup => acc.collectCgroupMetrics cgroup) c).memoryRSSBytes.allExample ∧
        (cgroups.foldl (fun acc cgroup => acc.collectCgroupMetrics cgroup) c).memoryOOMEvents.allExample ∧
        (∀ v, (cgroups.foldl (fun acc cgroup => acc.collectCgroupMetrics cgroup) c).memorySwapUsageBytes = some v → v.allExample) ∧
        (∀ v, (cgroups.foldl (fun acc cgroup => acc.collectCgroupMetrics cgroup) c).memoryPressureTotal = some v → v.allExample)) := by
  induction cgroups with
  | nil => intro c h; exact h
  | cons g rest ih =>
    intro c h
    obtain ⟨h1, h2, h3, h4, h5, h6, h7⟩ := h
    rw [List.foldl_cons]
    exact ih (c.collectCgroupMetrics g)
      ⟨MetricVec.Set_allExample _ _ _ h1, MetricVec.Set_allExample _ _ _ h2, MetricVec.Set_allExample _ _ _ h3, h4, h5, h6, h7⟩

/-- A newly built collector holds no child in any of its vectors. -/
theorem MemoryCollector_New_allExample (V : Type) (cfg : Config) :
    (NewMemoryCollector cfg : MemoryCollector V).memoryUsageBytes.allExample ∧
        (NewMemoryCollector cfg : MemoryCollector V).memoryLimitBytes.allExample ∧
        (NewMemoryCollector cfg : MemoryCollector V).memoryCacheBytes.allExample ∧
        (NewMemoryCollector cfg : MemoryCollector V).memoryRSSBytes.allExample ∧
        (NewMemoryCollector cfg : MemoryCollector V).memoryOOMEvents.allExample ∧
        (∀ v, (NewMemoryCollector cfg : MemoryCollector V).memorySwapUsageBytes = some v → v.allExample) ∧
        (∀ v, (NewMemoryCollector cfg : MemoryCollector V).memoryPressureTotal = some v → v.allExample) := by
  refine ⟨MetricVec.allExample_of_nil _ rfl, MetricVec.allExample_of_nil _ rfl, MetricVec.allExample_of_nil _ rfl, MetricVec.allExample_of_nil _ rfl, MetricVec.allExample_of_nil _ rfl, ?_, ?_⟩
  all_goals
    intro v hv
    apply MetricVec.allExample_of_nil
    simp only [NewMemoryCollector, MemoryCollector.initMetrics] at hv
    split_ifs at hv
    cases hv
    rfl

/-- Every sample that `Collect` of a newly built collector sends is a sample of one of its
self-observability metrics or carries `example` as its first label value. -/
theorem MemoryCollector_Collect_example (V : Type) (cfg : Config) (env : ScrapeEnv) :
    ∀ x ∈ ((NewMemoryCollector cfg : MemoryCollector V).Collect env).samples,
      x.desc ∈ (NewMemoryCollector cfg : MemoryCollector V).metrics.Describe ∨
        x.labelValues.head? = some "example".toList := by
  intro x hx
  cases he : (NewMemoryCollector cfg : MemoryCollector V).base.Enabled with
  | false =>
    unfold MemoryCollector.Collect at hx
    rw [he] at hx
    cases hx
  | true =>
    obtain ⟨cgroups, _, h2⟩ :=
      MemoryCollector_Collect_enabled (NewMemoryCollector cfg : MemoryCollector V) env he
    rw [h2] at hx
    have hinv := MemoryCollector_foldl_allExample cgroups
      ({ (NewMemoryCollector cfg : MemoryCollector V) with metrics := { (NewMemoryCollector cfg : MemoryCollector V).metrics with
          CgroupsScraped :=
            (NewMemoryCollector cfg : MemoryCollector V).metrics.CgroupsScraped.Set cgroups.length } } :
          MemoryCollector V)
      (MemoryCollector_New_allExample V cfg)
    obtain ⟨h1, h2, h3, h4, h5, h6, h7⟩ := hinv
    simp only [MemoryCollector.collectWith, List.mem_append] at hx
    rcases hx with ((((((hx | hx) | hx) | hx) | hx) | hx) | hx) | hx
    · exact Or.inr (MetricVec.Collect_allExample _ h1 x hx)
    · exact Or.inr (MetricVec.Collect_allExample _ h2 x hx)
    · exact Or.inr (MetricVec.Collect_allExample _ h3 x hx)
    · exact Or.inr (MetricVec.Collect_allExample _ h4 x hx)
    · exact Or.inr (MetricVec.Collect_allExample _ h5 x hx)
    · exact Or.inr (collectOpt_allExample _ h6 x hx)
    · exact Or.inr (collectOpt_allExample _ h7 x hx)
    · refine Or.inl ?_
      have h := mem_metrics_Collect_desc _ x hx
      rw [MemoryCollector_foldl_metrics] at h
      exact h

/-- The per-group loop of `IOCollector.Collect` keeps every child of every vector under the
label value `example`. -/
theorem IOCollector_foldl_allExample {V : Type} (cgroups : List CgroupInfo) :
    ∀ c : IOCollector V,
      (c.ioReadBytesTotal.allExample ∧
        c.ioWriteBytesTotal.allExample ∧
        c.ioReadOpsTotal.allExample ∧
        c.ioWriteOpsTotal.allExample ∧
        (∀ v, c.ioPressureTotal = some v → v.allExample)) →
      ((cgroups.foldl (fun acc cgroup => acc.collectCgroupMetrics cgroup) c).ioReadBytesTotal.allExample ∧
        (cgroups.foldl (fun acc cgroup => acc.collectCgroupMetrics cgroup) c).ioWriteBytesTotal.allExample ∧
        (cgroups.foldl (fun acc cgroup => acc.collectCgroupMetrics cgroup) c).ioReadOpsTotal.allExample ∧
        (cgroups.foldl (fun acc cgroup => acc.collectCgroupMetrics cgroup) c).ioWriteOpsTotal.allExample ∧
        (∀ v, (cgroups.foldl (fun acc cgroup => acc.collectCgroupMetrics cgroup) c).ioPressureTotal = some v → v.allExample)) := by
  induction cgroups with
  | nil => intro c h; exact h
  | cons g rest ih =>
    intro c h
    obtain ⟨h1, h2, h3, h4, h5⟩ := h
    rw [List.foldl_cons]
    exact ih (c.collectCgroupMetrics g)
      ⟨MetricVec.Add_allExample _ _ _ h1, MetricVec.Add_allExample _ _ _ h2, h3, h4, h5⟩

/-- A newly built collector holds no child in any of its vectors. -/
theorem IOCollector_New_allExample (V : Type) (cfg : Config) :
    (NewIOCollector cfg : IOCollector V).ioReadBytesTotal.allExample ∧
        (NewIOCollector cfg : IOCollector V).ioWriteBytesTotal.allExample ∧
        (NewIOCollector cfg : IOCollector V).ioReadOpsTotal.allExample ∧
        (NewIOCollector cfg : IOCollector V).ioWriteOpsTotal.allExample ∧
        (∀ v, (NewIOCollector cfg : IOCollector V).ioPressureTotal = some v → v.allExample) := by
  refine ⟨MetricVec.allExample_of_nil _ rfl, MetricVec.allExample_of_nil _ rfl, MetricVec.allExample_of_nil _ rfl, MetricVec.allExample_of_nil _ rfl, ?_⟩
  all_goals
    intro v hv
    apply MetricVec.allExample_of_nil
    simp only [NewIOCollector, IOCollector.initMetrics] at hv
    split_ifs at hv
    cases hv
    rfl

/-- Every sample that `Collect` of a newly built collector sends is a sample of one of its
self-observability metrics or carries `example` as its first label value. -/
theorem IOCollector_Collect_example (V : Type) (cfg : Config) (env : ScrapeEnv) :
    ∀ x ∈ ((NewIOCollector cfg : IOCollector V).Collect env).samples,
      x.desc ∈ (NewIOCollector cfg : IOCollector V).metrics.Describe ∨
        x.labelValues.head? = some "example".toList := by
  intro x hx
  cases he : (NewIOCollector cfg : IOCollector V).base.Enabled with
  | false =>
    unfold IOCollector.Collect at hx
    rw [he] at hx
    cases hx
  | true =>
    obtain ⟨cgroups, _, h2⟩ :=
      IOCollector_Collect_enabled (NewIOCollector cfg : IOCollector V) env he
    rw [h2] at hx
    have hinv := IOCollector_foldl_allExample cgroups
      ({ (NewIOCollector cfg : IOCollector V) with metrics := { (NewIOCollector cfg : IOCollector V).metrics with
          CgroupsScraped :=
            (NewIOCollector cfg : IOCollector V).metrics.CgroupsScraped.Set cgroups.length } } :
          IOCollector V)
      (IOCollector_New_allExample V cfg)
    obtain ⟨h1, h2, h3, h4, h5⟩ := hinv
    simp only [IOCollector.collectWith, List.mem_append] at hx
    rcases hx with ((((hx | hx) | hx) | hx) | hx) | hx
    · exact Or.inr (MetricVec.Collect_allExample _ h1 x hx)
    · exact Or.inr (MetricVec.Collect_allExample _ h2 x hx)
    · exact Or.inr (MetricVec.Collect_allExample _ h3 x hx)
    · exact Or.inr (MetricVec.Collect_allExample _ h4 x hx)
    · exact Or.inr (collectOpt_allExample _ h5 x hx)
    · refine Or.inl ?_
      have h := mem_metrics_Collect_desc _ x hx
      rw [IOCollector_foldl_metrics] at h
      exact h

/-- The per-group loop of `PIDsCollector.Collect` keeps every child of every vector under the
label value `example`. -/
theorem PIDsCollector_foldl_allExample {V : Type} (cgroups : List CgroupInfo) :
    ∀ c : PIDsCollector V,
      (c.processesCount.allExample ∧
        c.processesRunning.allExample ∧
        c.processesSleeping.allExample ∧
        c.processesZombie.allExample) →
      ((cgroups.foldl (fun acc cgroup => acc.collectCgroupMetrics cgroup) c).processesCount.allExample ∧
        (cgroups.foldl (fun acc cgroup => acc.collectCgroupMetrics cgroup) c).processesRunning.allExample ∧
        (cgroups.foldl (fun acc cgroup => acc.collectCgroupMetrics cgroup) c).processesSleeping.allExample ∧
        (cgroups.foldl (fun acc cgroup => acc.collectCgroupMetrics cgroup) c).processesZombie.allExample) := by
  induction cgroups with
  | nil => intro c h; exact h
  | cons g rest ih =>
    intro c h
    obtain ⟨h1, h2, h3, h4⟩ := h
    rw [List.foldl_cons]
    exact ih (c.collectCgroupMetrics g)
      ⟨MetricVec.Set_allExample _ _ _ h1, MetricVec.Set_allExample _ _ _ h2, h3, h4⟩

/-- A newly built collector holds no child in any of its vectors. -/
theorem PIDsCollector_New_allExample (V : Type) (cfg : Config) :
    (NewPIDsCollector cfg : PIDsCollector V).processesCount.allExample ∧
        (NewPIDsCollector cfg : PIDsCollector V).processesRunning.allExample ∧
        (NewPIDsCollector cfg : PIDsCollector V).processesSleeping.allExample ∧
        (NewPIDsCollector cfg : PIDsCollector V).processesZombie.allExample := by
  refine ⟨MetricVec.allExample_of_nil _ rfl, MetricVec.allExample_of_nil _ rfl, MetricVec.allExample_of_nil _ rfl, MetricVec.allExample_of_nil _ rfl⟩

/-- Every sample that `Collect` of a newly built collector sends is a sample of one of its
self-observability metrics or carries `example` as its first label value. -/
theorem PIDsCollector_Collect_example (V : Type) (cfg : Config) (env : ScrapeEnv) :
    ∀ x ∈ ((NewPIDsCollector cfg : PIDsCollector V).Collect env).samples,
      x.desc ∈ (NewPIDsCollector cfg : PIDsCollector V).metrics.Describe ∨
        x.labelValues.head? = some "example".toList := by
  intro x hx
  cases he : (NewPIDsCollector cfg : PIDsCollector V).base.Enabled with
  | false =>
    unfold PIDsCollector.Collect at hx
    rw [he] at hx
    cases hx
  | true =>
    obtain ⟨cgroups, _, h2⟩ :=
      PIDsCollector_Collect_enabled (NewPIDsCollector cfg : PIDsCollector V) env he
    rw [h2] at hx
    have hinv := PIDsCollector_foldl_allExample cgroups
      ({ (NewPIDsCollector cfg : PIDsCollector V) with metrics := { (NewPIDsCollector cfg : PIDsCollector V).metrics with
          CgroupsScraped :=
            (NewPIDsCollector cfg : PIDsCollector V).metrics.CgroupsScraped.Set cgroups.length } } :
          PIDsCollector V)
      (PIDsCollector_New_allExample V cfg)
    obtain ⟨h1, h2, h3, h4⟩ := hinv
    simp only [PIDsCollector.collectWith, List.mem_append] at hx
    rcases hx with (((hx | hx) | hx) | hx) | hx
    · exact Or.inr (MetricVec.Collect_allExample _ h1 x hx)
    · exact Or.inr (MetricVec.Collect_allExample _ h2 x hx)
    · exact Or.inr (MetricVec.Collect_allExample _ h3 x hx)
    · exact Or.inr (MetricVec.Collect_allExample _ h4 x hx)
    · refine Or.inl ?_
      have h := mem_metrics_Collect_desc _ x hx
      rw [PIDsCollector_foldl_metrics] at h
      exact h

/-- C12 (the code at the failing input): `collectCgroupMetrics` of each collector ignores
the group it is called on, and every sample that `Collect` of a newly built collector sends,
for every configuration and over every tree, is a self-observability sample or carries
`example` as its first label value.  For the two-level tree `root/workload-a`,
`root/workload-b` the scan names its groups `workload-a` and `workload-b`, and the business
samples of the four collectors all carry the cgroup label `example`, which is the name of
no scanned group. -/
theorem Collect_labels_every_sample_example :
    (∀ (V : Type) (c : CPUCollector V) (g g2 : CgroupInfo),
        c.collectCgroupMetrics g = c.collectCgroupMetrics g2) ∧
      (∀ (V : Type) (c : MemoryCollector V) (g g2 : CgroupInfo),
        c.collectCgroupMetrics g = c.collectCgroupMetrics g2) ∧
      (∀ (V : Type) (c : IOCollector V) (g g2 : CgroupInfo),
        c.collectCgroupMetrics g = c.collectCgroupMetrics g2) ∧
      (∀ (V : Type) (c : PIDsCollector V) (g g2 : CgroupInfo),
        c.collectCgroupMetrics g = c.collectCgroupMetrics g2) ∧
      (∀ (V : Type) (cfg : Config) (env : ScrapeEnv),
        (∀ x ∈ ((NewCPUCollector cfg : CPUCollector V).Collect env).samples,
          x.desc ∈ (NewCPUCollector cfg : CPUCollector V).metrics.Describe ∨
            x.labelValues.head? = some "example".toList) ∧
        (∀ x ∈ ((NewMemoryCollector cfg : MemoryCollector V).Collect env).samples,
          x.desc ∈ (NewMemoryCollector cfg : MemoryCollector V).metrics.Describe ∨
            x.labelValues.head? = some "example".toList) ∧
        (∀ x ∈ ((NewIOCollector cfg : IOCollector V).Collect env).samples,
          x.desc ∈ (NewIOCollector cfg : IOCollector V).metrics.Describe ∨
            x.labelValues.head? = some "example".toList) ∧
        (∀ x ∈ ((NewPIDsCollector cfg : PIDsCollector V).Collect env).samples,
          x.desc ∈ (NewPIDsCollector cfg : PIDsCollector V).metrics.Describe ∨
            x.labelValues.head? = some "example".toList)) ∧
      ((NewScanner sysFsCgroup).Scan Context.Background workloadTree).map
          (fun l => l.map CgroupInfo.Name) = .ok ["workload-a".toList, "workload-b".toList] ∧
      sampleLabels ((NewCPUCollector (sampleConfig 60 true true true true) :
          CPUCollector Nat).Collect (sampleEnv workloadTree)).samples =
        [("cgroup_cpu_usage_seconds_total", ["example".toList, "user".toList]),
          ("cgroup_cpu_user_seconds_total", ["example".toList]),
          ("cgroup_cpu_system_seconds_total", ["example".toList]),
          ("prometheus_cgroup_v2_exporter_cpu_scrape_duration_seconds", []),
          ("prometheus_cgroup_v2_exporter_cpu_scrape_errors_total", []),
          ("prometheus_cgroup_v2_exporter_cpu_last_scrape_timestamp_seconds", []),
          ("prometheus_cgroup_v2_exporter_cpu_cgroups_scraped", [])] ∧
      sampleLabels ((NewMemoryCollector (sampleConfig 60 true true true true) :
          MemoryCollector Nat).Collect (sampleEnv workloadTree)).samples =
        [("cgroup_memory_usage_bytes", ["example".toList]),
          ("cgroup_memory_limit_bytes", ["example".toList]),
          ("cgroup_memory_cache_bytes", ["example".toList]),
          ("prometheus_cgroup_v2_exporter_memory_scrape_duration_seconds", []),
          ("prometheus_cgroup_v2_exporter_memory_scrape_errors_total", []),
          ("prometheus_cgroup_v2_exporter_memory_last_scrape_timestamp_seconds", []),
          ("prometheus_cgroup_v2_exporter_memory_cgroups_scraped", [])] ∧
      sampleLabels ((NewIOCollector (sampleConfig 60 true true true true) :
          IOCollector Nat).Collect (sampleEnv workloadTree)).samples =
        [("cgroup_io_read_bytes_total", ["example".toList, "sda".toList]),
          ("cgroup_io_write_bytes_total", ["example".toList, "sda".toList]),
          ("prometheus_cgroup_v2_exporter_io_scrape_duration_seconds", []),
          ("prometheus_cgroup_v2_exporter_io_scrape_errors_total", []),
          ("prometheus_cgroup_v2_exporter_io_last_scrape_timestamp_seconds", []),
          ("prometheus_cgroup_v2_exporter_io_cgroups_scraped", [])] ∧
      sampleLabels ((NewPIDsCollector (sampleConfig 60 true true true true) :
          PIDsCollector Nat).Collect (sampleEnv workloadTree)).samples =
        [("cgroup_processes_count", ["example".toList]),
          ("cgroup_processes_running", ["example".toList]),
          ("prometheus_cgroup_v2_exporter_pids_scrape_duration_seconds", []),
          ("prometheus_cgroup_v2_exporter_pids_scrape_errors_total", []),
          ("prometheus_cgroup_v2_exporter_pids_last_scrape_timestamp_seconds", []),
          ("prometheus_cgroup_v2_exporter_pids_cgroups_scraped", [])] := by
  refine ⟨fun _ _ _ _ => rfl, fun _ _ _ _ => rfl, fun _ _ _ _ => rfl, fun _ _ _ _ => rfl,
    fun V cfg env => ⟨CPUCollector_Collect_example V cfg env,
      MemoryCollector_Collect_example V cfg env, IOCollector_Collect_example V cfg env,
      PIDsCollector_Collect_example V cfg env⟩,
    by decide, by decide, by decide, by decide, by decide⟩

/-! ## The feature toggles -/

/-- The samples of a list of metric vectors belong to the families of those vectors. -/
theorem mem_flatMap_Collect (vs : List MetricVec) (x : Sample)
    (hx : x ∈ vs.flatMap MetricVec.Collect) :
    x.desc.fqName ∈ vs.map fun v => v.desc.fqName := by
  obtain ⟨v, hv, hxv⟩ := List.mem_flatMap.mp hx
  obtain ⟨c, _, rfl⟩ := List.mem_map.mp hxv
  exact List.mem_map.mpr ⟨v, hv, rfl⟩

/-- The samples of the self-observability metrics carry the names `Describe` gives. -/
theorem mem_metrics_Collect (cm : CollectorMetrics) (x : Sample) (hx : x ∈ cm.Collect) :
    x.desc.fqName ∈ describedFamilies cm.Describe :=
  List.mem_map.mpr ⟨x.desc, mem_metrics_Collect_desc cm x hx, rfl⟩

/-- The per-group loop of `CPUCollector.Collect` leaves `cpuPressureTotal` as it is. -/
theorem CPUCollector_foldl_cpuPressureTotal {V : Type} (cgroups : List CgroupInfo) :
    ∀ c : CPUCollector V,
      (cgroups.foldl (fun acc cgroup => acc.collectCgroupMetrics cgroup) c).cpuPressureTotal = c.cpuPressureTotal := by
  induction cgroups with
  | nil => intro c; rfl
  | cons g rest ih => intro c; rw [List.foldl_cons, ih]; rfl

/-- The fixed vectors after the per-group loop of `CPUCollector.Collect` are determined by the
fixed vectors before it. -/
theorem CPUCollector_foldl_fixed {V : Type} (cgroups : List CgroupInfo) :
    ∀ c c' : CPUCollector V,
      (c.cpuUsageTotal = c'.cpuUsageTotal ∧
        c.cpuUserTotal = c'.cpuUserTotal ∧
        c.cpuSystemTotal = c'.cpuSystemTotal ∧
        c.cpuThrottledTotal = c'.cpuThrottledTotal ∧
        c.cpuPeriodsTotal = c'.cpuPeriodsTotal) →
      ((cgroups.foldl (fun acc cgroup => acc.collectCgroupMetrics cgroup) c).cpuUsageTotal =
          (cgroups.foldl (fun acc cgroup => acc.collectCgroupMetrics cgroup) c').cpuUsageTotal ∧
        (cgroups.foldl (fun acc cgroup => acc.collectCgroupMetrics cgroup) c).cpuUserTotal =
          (cgroups.foldl (fun acc cgroup => acc.collectCgroupMetrics cgroup) c').cpuUserTotal ∧
        (cgroups.foldl (fun acc cgroup => acc.collectCgroupMetrics cgroup) c).cpuSystemTotal =
          (cgroups.foldl (fun acc cgroup => acc.collectCgroupMetrics cgroup) c').cpuSystemTotal ∧
        (cgroups.foldl (fun acc cgroup => acc.collectCgroupMetrics cgroup) c).cpuThrottledTotal =
          (cgroups.foldl (fun acc cgroup => acc.collectCgroupMetrics cgroup) c').cpuThrottledTotal ∧
        (cgroups.foldl (fun acc cgroup => acc.collectCgroupMetrics cgroup) c).cpuPeriodsTotal =
          (cgroups.foldl (fun acc cgroup => acc.collectCgroupMetrics cgroup) c').cpuPeriodsTotal) := by
  induction cgroups with
  | nil => intro c c' h; exact h
  | cons g rest ih =>
    intro c c' h
    obtain ⟨h1, h2, h3, h4, h5⟩ := h
    rw [List.foldl_cons, List.foldl_cons]
    exact ih (c.collectCgroupMetrics g) (c'.collectCgroupMetrics g)
      ⟨by simp only [CPUCollector.collectCgroupMetrics, h1],
        by simp only [CPUCollector.collectCgroupMetrics, h2],
        by simp only [CPUCollector.collectCgroupMetrics, h3],
        by simp only [CPUCollector.collectCgroupMetrics, h4],
        by simp only [CPUCollector.collectCgroupMetrics, h5]⟩

/-- `Collect` of a disabled collector sends no sample. -/
theorem CPUCollector_Collect_disabled {V : Type} (c : CPUCollector V) (env : ScrapeEnv)
    (he : c.base.Enabled = false) : (c.Collect env).samples = [] := by
  unfold CPUCollector.Collect
  rw [he]
  rfl

/-- `Collect` of an enabled collector sends every sample of `cpuPressureTotal` when that vector is
not nil. -/
theorem CPUCollector_Collect_forwards_cpuPressureTotal {V : Type} (c : CPUCollector V) (env : ScrapeEnv)
    (v : MetricVec) (he : c.base.Enabled = true) (hv : c.cpuPressureTotal = some v) :
    ∀ x ∈ v.Collect, x ∈ (c.Collect env).samples := by
  intro x hx
  obtain ⟨cgroups, _, h2⟩ := CPUCollector_Collect_enabled c env he
  rw [h2]
  have ho : (cgroups.foldl (fun acc cgroup => acc.collectCgroupMetrics cgroup)
      ({ c with metrics := { c.metrics with
        CgroupsScraped := c.metrics.CgroupsScraped.Set cgroups.length } } :
          CPUCollector V)).cpuPressureTotal = some v :=
    (CPUCollector_foldl_cpuPressureTotal cgroups _).trans hv
  simp only [CPUCollector.collectWith, List.mem_append]
  rw [ho]
  simp [collectOpt, hx]

/-- The vector `cpuPressureTotal` of a newly built collector holds no child. -/
theorem CPUCollector_New_collectOpt_cpuPressureTotal (V : Type) (cfg : Config) :
    collectOpt (NewCPUCollector cfg : CPUCollector V).cpuPressureTotal = [] := by
  simp only [NewCPUCollector, CPUCollector.initMetrics]
  split_ifs <;> rfl

/-- The samples `Collect` of a newly built collector sends depend on the configuration
through the hierarchy root and the `Enabled` flag only. -/
theorem CPUCollector_samples_toggle_free (V : Type) (cfg cfg' : Config) (env : ScrapeEnv)
    (hp : cfg'.Cgroup.Path = cfg.Cgroup.Path)
    (he : cfg'.Collectors.CPU.Enabled = cfg.Collectors.CPU.Enabled) :
    ((NewCPUCollector cfg' : CPUCollector V).Collect env).samples =
      ((NewCPUCollector cfg : CPUCollector V).Collect env).samples := by
  cases hE : cfg.Collectors.CPU.Enabled with
  | false =>
    rw [CPUCollector_Collect_disabled (NewCPUCollector cfg : CPUCollector V) env hE,
      CPUCollector_Collect_disabled (NewCPUCollector cfg' : CPUCollector V) env (he.trans hE)]
  | true =>
    obtain ⟨cgroups, h1, h2⟩ := CPUCollector_Collect_enabled (NewCPUCollector cfg : CPUCollector V) env hE
    obtain ⟨cgroups', h1', h2'⟩ :=
      CPUCollector_Collect_enabled (NewCPUCollector cfg' : CPUCollector V) env (he.trans hE)
    have hs : (NewCPUCollector cfg' : CPUCollector V).base.scanner = (NewCPUCollector cfg : CPUCollector V).base.scanner :=
      congrArg NewScanner hp
    rw [hs, h1] at h1'
    cases h1'
    rw [h2, h2']
    obtain ⟨g1, g2, g3, g4, g5⟩ := CPUCollector_foldl_fixed cgroups
      ({ (NewCPUCollector cfg' : CPUCollector V) with metrics := { (NewCPUCollector cfg' : CPUCollector V).metrics with
        CgroupsScraped := (NewCPUCollector cfg' : CPUCollector V).metrics.CgroupsScraped.Set cgroups.length } } :
          CPUCollector V)
      ({ (NewCPUCollector cfg : CPUCollector V) with metrics := { (NewCPUCollector cfg : CPUCollector V).metrics with
        CgroupsScraped := (NewCPUCollector cfg : CPUCollector V).metrics.CgroupsScraped.Set cgroups.length } } :
          CPUCollector V)
      ⟨rfl, rfl, rfl, rfl, rfl⟩
    simp only [CPUCollector.collectWith, CPUCollector_foldl_metrics, CPUCollector_foldl_cpuPressureTotal]
    rw [g1, g2, g3, g4, g5, CPUCollector_New_collectOpt_cpuPressureTotal V cfg', CPUCollector_New_collectOpt_cpuPressureTotal V cfg]
    rfl

/-- Every sample `Collect` sends is a sample of the pass over some node list. -/
theorem CPUCollector_Collect_mem {V : Type} (c : CPUCollector V) (env : ScrapeEnv) (x : Sample)
    (hx : x ∈ (c.Collect env).samples) :
    ∃ cgroups, x ∈ (c.collectWith env (.ok cgroups)).samples := by
  cases he : c.base.Enabled with
  | false =>
    rw [CPUCollector_Collect_disabled c env he] at hx
    cases hx
  | true =>
    obtain ⟨cgroups, _, h2⟩ := CPUCollector_Collect_enabled c env he
    rw [h2] at hx
    exact ⟨cgroups, hx⟩

theorem CPUCollector_foldl_vecs {V : Type} (cgroups : List CgroupInfo) :
    ∀ c : CPUCollector V,
      (cgroups.foldl (fun acc cgroup => acc.collectCgroupMetrics cgroup) c).vecs.map
          (fun v => v.desc.fqName) = c.vecs.map fun v => v.desc.fqName := by
  induction cgroups with
  | nil => intro c; rfl
  | cons g rest ih => intro c; rw [List.foldl_cons, ih]; rfl

/-- The samples of a pass of the collector over a node list are those of the vectors it
holds after the per-group loop, followed by those of the self-observability metrics. -/
theorem CPUCollector_collectWith_samples {V : Type} (c : CPUCollector V) (env : ScrapeEnv)
    (cgroups : List CgroupInfo) :
    ∃ post : CPUCollector V,
      post.vecs.map (fun v => v.desc.fqName) = c.vecs.map (fun v => v.desc.fqName) ∧
      post.metrics.Describe = c.metrics.Describe ∧
      (c.collectWith env (.ok cgroups)).samples =
        post.vecs.flatMap MetricVec.Collect ++ post.metrics.Collect := by
  refine ⟨cgroups.foldl (fun acc cgroup => acc.collectCgroupMetrics cgroup)
    { c with metrics := { c.metrics with
        CgroupsScraped := c.metrics.CgroupsScraped.Set cgroups.length } }, ?_, ?_, ?_⟩
  · rw [CPUCollector_foldl_vecs]
    rfl
  · rw [CPUCollector_foldl_metrics]
    rfl
  · simp only [CPUCollector.collectWith, CPUCollector.vecs]
    cases (cgroups.foldl (fun acc cgroup => acc.collectCgroupMetrics cgroup)
      ({ c with metrics := { c.metrics with
        CgroupsScraped := c.metrics.CgroupsScraped.Set cgroups.length } } :
          CPUCollector V)).cpuPressureTotal <;>
      simp [collectOpt, List.flatMap_cons, List.flatMap_nil]

/-- Every sample of a pass of the collector over a node list belongs to the family of one of
the vectors the collector holds or to one of its self-observability metrics. -/
theorem CPUCollector_samples_family {V : Type} (c : CPUCollector V) (env : ScrapeEnv)
    (cgroups : List CgroupInfo) :
    ∀ x ∈ (c.collectWith env (.ok cgroups)).samples,
      x.desc.fqName ∈
        (c.vecs.map fun v => v.desc.fqName) ++ describedFamilies c.metrics.Describe := by
  intro x hx
  obtain ⟨post, h1, h2, h3⟩ := CPUCollector_collectWith_samples c env cgroups
  rw [h3] at hx
  rcases List.mem_append.mp hx with hx | hx
  · exact List.mem_append.mpr (Or.inl (by
      rw [← h1]
      exact mem_flatMap_Collect _ x hx))
  · exact List.mem_append.mpr (Or.inr (by
      rw [← h2]
      exact mem_metrics_Collect _ x hx))

/-- What `initMetrics` and `Describe` make of the toggles of a newly built collector, and the
families of the samples of a pass when a toggle is cleared. -/
theorem CPUCollector_toggles (V : Type) (cfg : Config) :
    (cfg.Collectors.CPU.Enabled = true →
        ("cgroup_cpu_pressure_seconds_total" ∈
            describedFamilies (NewCPUCollector cfg : CPUCollector V).Describe ↔
          cfg.Collectors.CPU.IncludePressure = true) ∧
        (describedFamilies (NewCPUCollector cfg : CPUCollector V).Describe).filter
            (fun n => n != "cgroup_cpu_pressure_seconds_total") =
          cpuFixedFamilies ++ describedFamilies (NewCollectorMetrics "cpu").Describe) ∧
      ((NewCPUCollector cfg : CPUCollector V).cpuPressureTotal.isSome = cfg.Collectors.CPU.IncludePressure) ∧
      (cfg.Collectors.CPU.IncludePressure = false →
        ∀ (env : ScrapeEnv) (cgroups : List CgroupInfo),
          ∀ x ∈ ((NewCPUCollector cfg : CPUCollector V).collectWith env (.ok cgroups)).samples,
            x.desc.fqName ≠ "cgroup_cpu_pressure_seconds_total") := by
  rcases cfg with ⟨w, cg, ⟨⟨e1, p1⟩, ⟨e2, p2, s2⟩, ⟨e3, p3, d3⟩, ⟨e4⟩⟩, lg, adv⟩
  refine ⟨?_, ?_, ?_⟩
  · cases e1 <;> cases p1 <;>
      simp [describedFamilies, cpuFixedFamilies, NewCPUCollector, CPUCollector.initMetrics,
        CPUCollector.Describe, NewBaseCollector, BaseCollector.Enabled, MetricVec.Describe,
        describeOpt, CollectorMetrics.Describe, NewCollectorMetrics, Metric.Describe,
        NewCounterVec, NewGaugeVec, NewHistogram, NewCounter, NewGauge, Opts.desc,
        BuildFQName]
  · cases p1 <;>
      simp [NewCPUCollector, CPUCollector.initMetrics, NewBaseCollector]
  · intro hp env cgroups x hx heq
    have h := CPUCollector_samples_family _ env cgroups x hx
    rw [heq] at h
    simp only at hp
    subst hp
    revert h
    simp [describedFamilies, CPUCollector.vecs, NewCPUCollector,
      CPUCollector.initMetrics, NewBaseCollector, NewCounterVec, NewGaugeVec, Opts.desc,
      BuildFQName, CollectorMetrics.Describe, NewCollectorMetrics, Metric.Describe,
      NewHistogram, NewCounter, NewGauge]

/-- The per-group loop of `MemoryCollector.Collect` leaves `memorySwapUsageBytes` as it is. -/
theorem MemoryCollector_foldl_memorySwapUsageBytes {V : Type} (cgroups : List CgroupInfo) :
    ∀ c : MemoryCollector V,
      (cgroups.foldl (fun acc cgroup => acc.collectCgroupMetrics cgroup) c).memorySwapUsageBytes = c.memorySwapUsageBytes := by
  induction cgroups with
  | nil => intro c; rfl
  | cons g rest ih => intro c; rw [List.foldl_cons, ih]; rfl

/-- The per-group loop of `MemoryCollector.Collect` leaves `memoryPressureTotal` as it is. -/
theorem MemoryCollector_foldl_memoryPressureTotal {V : Type} (cgroups : List CgroupInfo) :
    ∀ c : MemoryCollector V,
      (cgroups.foldl (fun acc cgroup => acc.collectCgroupMetrics cgroup) c).memoryPressureTotal = c.memoryPressureTotal := by
  induction cgroups with
  | nil => intro c; rfl
  | cons g rest ih => intro c; rw [List.foldl_cons, ih]; rfl

/-- The fixed vectors after the per-group loop of `MemoryCollector.Collect` are determined by the
fixed vectors before it. -/
theorem MemoryCollector_foldl_fixed {V : Type} (cgroups : List CgroupInfo) :
    ∀ c c' : MemoryCollector V,
      (c.memoryUsageBytes = c'.memoryUsageBytes ∧
        c.memoryLimitBytes = c'.memoryLimitBytes ∧
        c.memoryCacheBytes = c'.memoryCacheBytes ∧
        c.memoryRSSBytes = c'.memoryRSSBytes ∧
        c.memoryOOMEvents = c'.memoryOOMEvents) →
      ((cgroups.foldl (fun acc cgroup => acc.collectCgroupMetrics cgroup) c).memoryUsageBytes =
          (cgroups.foldl (fun acc cgroup => acc.collectCgroupMetrics cgroup) c').memoryUsageBytes ∧
        (cgroups.foldl (fun acc cgroup => acc.collectCgroupMetrics cgroup) c).memoryLimitBytes =
          (cgroups.foldl (fun acc cgroup => acc.collectCgroupMetrics cgroup) c').memoryLimitBytes ∧
        (cgroups.foldl (fun acc cgroup => acc.collectCgroupMetrics cgroup) c).memoryCacheBytes =
          (cgroups.foldl (fun acc cgroup => acc.collectCgroupMetrics cgroup) c').memoryCacheBytes ∧
        (cgroups.foldl (fun acc cgroup => acc.collectCgroupMetrics cgroup) c).memoryRSSBytes =
          (cgroups.foldl (fun acc cgroup => acc.collectCgroupMetrics cgroup) c').memoryRSSBytes ∧
        (cgroups.foldl (fun acc cgroup => acc.collectCgroupMetrics cgroup) c).memoryOOMEvents =
          (cgroups.foldl (fun acc cgroup => acc.collectCgroupMetrics cgroup) c').memoryOOMEvents) := by
  induction cgroups with
  | nil => intro c c' h; exact h
  | cons g rest ih =>
    intro c c' h
    obtain ⟨h1, h2, h3, h4, h5⟩ := h
    rw [List.foldl_cons, List.foldl_cons]
    exact ih (c.collectCgroupMetrics g) (c'.collectCgroupMetrics g)
      ⟨by simp only [MemoryCollector.collectCgroupMetrics, h1],
        by simp only [MemoryCollector.collectCgroupMetrics, h2],
        by simp only [MemoryCollector.collectCgroupMetrics, h3],
        by simp only [MemoryCollector.collectCgroupMetrics, h4],
        by simp only [MemoryCollector.collectCgroupMetrics, h5]⟩

/-- `Collect` of a disabled collector sends no sample. -/
theorem MemoryCollector_Collect_disabled {V : Type} (c : MemoryCollector V) (env : ScrapeEnv)
    (he : c.base.Enabled = false) : (c.Collect env).samples = [] := by
  unfold MemoryCollector.Collect
  rw [he]
  rfl

/-- `Collect` of an enabled collector sends every sample of `memorySwapUsageBytes` when that vector is
not nil. -/
theorem MemoryCollector_Collect_forwards_memorySwapUsageBytes {V : Type} (c : MemoryCollector V) (env : ScrapeEnv)
    (v : MetricVec) (he : c.base.Enabled = true) (hv : c.memorySwapUsageBytes = some v) :
    ∀ x ∈ v.Collect, x ∈ (c.Collect env).samples := by
  intro x hx
  obtain ⟨cgroups, _, h2⟩ := MemoryCollector_Collect_enabled c env he
  rw [h2]
  have ho : (cgroups.foldl (fun acc cgroup => acc.collectCgroupMetrics cgroup)
      ({ c with metrics := { c.metrics with
        CgroupsScraped := c.metrics.CgroupsScraped.Set cgroups.length } } :
          MemoryCollector V)).memorySwapUsageBytes = some v :=
    (MemoryCollector_foldl_memorySwapUsageBytes cgroups _).trans hv
  simp only [MemoryCollector.collectWith, List.mem_append]
  rw [ho]
  simp [collectOpt, hx]

/-- The vector `memorySwapUsageBytes` of a newly built collector holds no child. -/
theorem MemoryCollector_New_collectOpt_memorySwapUsageBytes (V : Type) (cfg : Config) :
    collectOpt (NewMemoryCollector cfg : MemoryCollector V).memorySwapUsageBytes = [] := by
  simp only [NewMemoryCollector, MemoryCollector.initMetrics]
  split_ifs <;> rfl

/-- `Collect` of an enabled collector sends every sample of `memoryPressureTotal` when that vector is
not nil. -/
theorem MemoryCollector_Collect_forwards_memoryPressureTotal {V : Type} (c : MemoryCollector V) (env : ScrapeEnv)
    (v : MetricVec) (he : c.base.Enabled = true) (hv : c.memoryPressureTotal = some v) :
    ∀ x ∈ v.Collect, x ∈ (c.Collect env).samples := by
  intro x hx
  obtain ⟨cgroups, _, h2⟩ := MemoryCollector_Collect_enabled c env he
  rw [h2]
  have ho : (cgroups.foldl (fun acc cgroup => acc.collectCgroupMetrics cgroup)
      ({ c with metrics := { c.metrics with
        CgroupsScraped := c.metrics.CgroupsScraped.Set cgroups.length } } :
          MemoryCollector V)).memoryPressureTotal = some v :=
    (MemoryCollector_foldl_memoryPressureTotal cgroups _).trans hv
  simp only [MemoryCollector.collectWith, List.mem_append]
  rw [ho]
  simp [collectOpt, hx]

/-- The vector `memoryPressureTotal` of a newly built collector holds no child. -/
theorem MemoryCollector_New_collectOpt_memoryPressureTotal (V : Type) (cfg : Config) :
    collectOpt (NewMemoryCollector cfg : MemoryCollector V).memoryPressureTotal = [] := by
  simp only [NewMemoryCollector, MemoryCollector.initMetrics]
  split_ifs <;> rfl

/-- The samples `Collect` of a newly built collector sends depend on the configuration
through the hierarchy root and the `Enabled` flag only. -/
theorem MemoryCollector_samples_toggle_free (V : Type) (cfg cfg' : Config) (env : ScrapeEnv)
    (hp : cfg'.Cgroup.Path = cfg.Cgroup.Path)
    (he : cfg'.Collectors.Memory.Enabled = cfg.Collectors.Memory.Enabled) :
    ((NewMemoryCollector cfg' : MemoryCollector V).Collect env).samples =
      ((NewMemoryCollector cfg : MemoryCollector V).Collect env).samples := by
  cases hE : cfg.Collectors.Memory.Enabled with
  | false =>
    rw [MemoryCollector_Collect_disabled (NewMemoryCollector cfg : MemoryCollector V) env hE,
      MemoryCollector_Collect_disabled (NewMemoryCollector cfg' : MemoryCollector V) env (he.trans hE)]
  | true =>
    obtain ⟨cgroups, h1, h2⟩ := MemoryCollector_Collect_enabled (NewMemoryCollector cfg : MemoryCollector V) env hE
    obtain ⟨cgroups', h1', h2'⟩ :=
      MemoryCollector_Collect_enabled (NewMemoryCollector cfg' : MemoryCollector V) env (he.trans hE)
    have hs : (NewMemoryCollector cfg' : MemoryCollector V).base.scanner = (NewMemoryCollector cfg : MemoryCollector V).base.scanner :=
      congrArg NewScanner hp
    rw [hs, h1] at h1'
    cases h1'
    rw [h2, h2']
    obtain ⟨g1, g2, g3, g4, g5⟩ := MemoryCollector_foldl_fixed cgroups
      ({ (NewMemoryCollector cfg' : MemoryCollector V) with metrics := { (NewMemoryCollector cfg' : MemoryCollector V).metrics with
        CgroupsScraped := (NewMemoryCollector cfg' : MemoryCollector V).metrics.CgroupsScraped.Set cgroups.length } } :
          MemoryCollector V)
      ({ (NewMemoryCollector cfg : MemoryCollector V) with metrics := { (NewMemoryCollector cfg : MemoryCollector V).metrics with
        CgroupsScraped := (NewMemoryCollector cfg : MemoryCollector V).metrics.CgroupsScraped.Set cgroups.length } } :
          MemoryCollector V)
      ⟨rfl, rfl, rfl, rfl, rfl⟩
    simp only [MemoryCollector.collectWith, MemoryCollector_foldl_metrics, MemoryCollector_foldl_memorySwapUsageBytes, MemoryCollector_foldl_memoryPressureTotal]
    rw [g1, g2, g3, g4, g5, MemoryCollector_New_collectOpt_memorySwapUsageBytes V cfg', MemoryCollector_New_collectOpt_memoryPressureTotal V cfg', MemoryCollector_New_collectOpt_memorySwapUsageBytes V cfg, MemoryCollector_New_collectOpt_memoryPressureTotal V cfg]
    rfl

/-- Every sample `Collect` sends is a sample of the pass over some node list. -/
theorem MemoryCollector_Collect_mem {V : Type} (c : MemoryCollector V) (env : ScrapeEnv) (x : Sample)
    (hx : x ∈ (c.Collect env).samples) :
    ∃ cgroups, x ∈ (c.collectWith env (.ok cgroups)).samples := by
  cases he : c.base.Enabled with
  | false =>
    rw [MemoryCollector_Collect_disabled c env he] at hx
    cases hx
  | true =>
    obtain ⟨cgroups, _, h2⟩ := MemoryCollector_Collect_enabled c env he
    rw [h2] at hx
    exact ⟨cgroups, hx⟩

theorem MemoryCollector_foldl_vecs {V : Type} (cgroups : List CgroupInfo) :
    ∀ c : MemoryCollector V,
      (cgroups.foldl (fun acc cgroup => acc.collectCgroupMetrics cgroup) c).vecs.map
          (fun v => v.desc.fqName) = c.vecs.map fun v => v.desc.fqName := by
  induction cgroups with
  | nil => intro c; rfl
  | cons g rest ih => intro c; rw [List.foldl_cons, ih]; rfl

/-- The samples of a pass of the collector over a node list are those of the vectors it
holds after the per-group loop, followed by those of the self-observability metrics. -/
theorem MemoryCollector_collectWith_samples {V : Type} (c : MemoryCollector V) (env : ScrapeEnv)
    (cgroups : List CgroupInfo) :
    ∃ post : MemoryCollector V,
      post.vecs.map (fun v => v.desc.fqName) = c.vecs.map (fun v => v.desc.fqName) ∧
      post.metrics.Describe = c.metrics.Describe ∧
      (c.collectWith env (.ok cgroups)).samples =
        post.vecs.flatMap MetricVec.Collect ++ post.metrics.Collect := by
  refine ⟨cgroups.foldl (fun acc cgroup => acc.collectCgroupMetrics cgroup)
    { c with metrics := { c.metrics with
        CgroupsScraped := c.metrics.CgroupsScraped.Set cgroups.length } }, ?_, ?_, ?_⟩
  · rw [MemoryCollector_foldl_vecs]
    rfl
  · rw [MemoryCollector_foldl_metrics]
    rfl
  · simp only [MemoryCollector.collectWith, MemoryCollector.vecs]
    cases (cgroups.foldl (fun acc cgroup => acc.collectCgroupMetrics cgroup)
      ({ c with metrics := { c.metrics with
        CgroupsScraped := c.metrics.CgroupsScraped.Set cgroups.length } } :
          MemoryCollector V)).memorySwapUsageBytes <;>
    cases (cgroups.foldl (fun acc cgroup => acc.collectCgroupMetrics cgroup)
      ({ c with metrics := { c.metrics with
        CgroupsScraped := c.metrics.CgroupsScraped.Set cgroups.length } } :
          MemoryCollector V)).memoryPressureTotal <;>
      simp [collectOpt, List.flatMap_cons, List.flatMap_nil]

/-- Every sample of a pass of the collector over a node list belongs to the family of one of
the vectors the collector holds or to one of its self-observability metrics. -/
theorem MemoryCollector_samples_family {V : Type} (c : MemoryCollector V) (env : ScrapeEnv)
    (cgroups : List CgroupInfo) :
    ∀ x ∈ (c.collectWith env (.ok cgroups)).samples,
      x.desc.fqName ∈
        (c.vecs.map fun v => v.desc.fqName) ++ describedFamilies c.metrics.Describe := by
  intro x hx
  obtain ⟨post, h1, h2, h3⟩ := MemoryCollector_collectWith_samples c env cgroups
  rw [h3] at hx
  rcases List.mem_append.mp hx with hx | hx
  · exact List.mem_append.mpr (Or.inl (by
      rw [← h1]
      exact mem_flatMap_Collect _ x hx))
  · exact List.mem_append.mpr (Or.inr (by
      rw [← h2]
      exact mem_metrics_Collect _ x hx))

/-- What `initMetrics` and `Describe` make of the toggles of a newly built collector, and the
families of the samples of a pass when a toggle is cleared. -/
theorem MemoryCollector_toggles (V : Type) (cfg : Config) :
    (cfg.Collectors.Memory.Enabled = true →
        ("cgroup_memory_swap_usage_bytes" ∈
            describedFamilies (NewMemoryCollector cfg : MemoryCollector V).Describe ↔
          cfg.Collectors.Memory.IncludeSwap = true) ∧
        ("cgroup_memory_pressure_seconds_total" ∈
            describedFamilies (NewMemoryCollector cfg : MemoryCollector V).Describe ↔
          cfg.Collectors.Memory.IncludePressure = true) ∧
        (describedFamilies (NewMemoryCollector cfg : MemoryCollector V).Describe).filter
            (fun n => n != "cgroup_memory_swap_usage_bytes" && n != "cgroup_memory_pressure_seconds_total") =
          memoryFixedFamilies ++ describedFamilies (NewCollectorMetrics "memory").Describe) ∧
      ((NewMemoryCollector cfg : MemoryCollector V).memorySwapUsageBytes.isSome = cfg.Collectors.Memory.IncludeSwap) ∧
      ((NewMemoryCollector cfg : MemoryCollector V).memoryPressureTotal.isSome = cfg.Collectors.Memory.IncludePressure) ∧
      (cfg.Collectors.Memory.IncludeSwap = false →
        ∀ (env : ScrapeEnv) (cgroups : List CgroupInfo),
          ∀ x ∈ ((NewMemoryCollector cfg : MemoryCollector V).collectWith env (.ok cgroups)).samples,
            x.desc.fqName ≠ "cgroup_memory_swap_usage_bytes") ∧
      (cfg.Collectors.Memory.IncludePressure = false →
        ∀ (env : ScrapeEnv) (cgroups : List CgroupInfo),
          ∀ x ∈ ((NewMemoryCollector cfg : MemoryCollector V).collectWith env (.ok cgroups)).samples,
            x.desc.fqName ≠ "cgroup_memory_pressure_seconds_total") := by
  rcases cfg with ⟨w, cg, ⟨⟨e1, p1⟩, ⟨e2, p2, s2⟩, ⟨e3, p3, d3⟩, ⟨e4⟩⟩, lg, adv⟩
  refine ⟨?_, ?_, ?_, ?_, ?_⟩
  · cases e2 <;> cases p2 <;> cases s2 <;>
      simp [describedFamilies, memoryFixedFamilies, NewMemoryCollector, MemoryCollector.initMetrics,
        MemoryCollector.Describe, NewBaseCollector, BaseCollector.Enabled, MetricVec.Describe,
        describeOpt, CollectorMetrics.Describe, NewCollectorMetrics, Metric.Describe,
        NewCounterVec, NewGaugeVec, NewHistogram, NewCounter, NewGauge, Opts.desc,
        BuildFQName]
  · cases p2 <;> cases s2 <;>
      simp [NewMemoryCollector, MemoryCollector.initMetrics, NewBaseCollector]
  · cases p2 <;> cases s2 <;>
      simp [NewMemoryCollector, MemoryCollector.initMetrics, NewBaseCollector]
  · intro hp env cgroups x hx heq
    have h := MemoryCollector_samples_family _ env cgroups x hx
    rw [heq] at h
    simp only at hp
    subst hp
    revert h
    cases p2 <;>
    simp [describedFamilies, MemoryCollector.vecs, NewMemoryCollector,
      MemoryCollector.initMetrics, NewBaseCollector, NewCounterVec, NewGaugeVec, Opts.desc,
      BuildFQName, CollectorMetrics.Describe, NewCollectorMetrics, Metric.Describe,
      NewHistogram, NewCounter, NewGauge]
  · intro hp env cgroups x hx heq
    have h := MemoryCollector_samples_family _ env cgroups x hx
    rw [heq] at h
    simp only at hp
    subst hp
    revert h
    cases s2 <;>
    simp [describedFamilies, MemoryCollector.vecs, NewMemoryCollector,
      MemoryCollector.initMetrics, NewBaseCollector, NewCounterVec, NewGaugeVec, Opts.desc,
      BuildFQName, CollectorMetrics.Describe, NewCollectorMetrics, Metric.Describe,
      NewHistogram, NewCounter, NewGauge]

/-- The per-group loop of `IOCollector.Collect` leaves `ioPressureTotal` as it is. -/
theorem IOCollector_foldl_ioPressureTotal {V : Type} (cgroups : List CgroupInfo) :
    ∀ c : IOCollector V,
      (cgroups.foldl (fun acc cgroup => acc.collectCgroupMetrics cgroup) c).ioPressureTotal = c.ioPressureTotal := by
  induction cgroups with
  | nil => intro c; rfl
  | cons g rest ih => intro c; rw [List.foldl_cons, ih]; rfl

/-- The fixed vectors after the per-group loop of `IOCollector.Collect` are determined by the
fixed vectors before it. -/
theorem IOCollector_foldl_fixed {V : Type} (cgroups : List CgroupInfo) :
    ∀ c c' : IOCollector V,
      (c.ioReadBytesTotal = c'.ioReadBytesTotal ∧
        c.ioWriteBytesTotal = c'.ioWriteBytesTotal ∧
        c.ioReadOpsTotal = c'.ioReadOpsTotal ∧
        c.ioWriteOpsTotal = c'.ioWriteOpsTotal) →
      ((cgroups.foldl (fun acc cgroup => acc.collectCgroupMetrics cgroup) c).ioReadBytesTotal =
          (cgroups.foldl (fun acc cgroup => acc.collectCgroupMetrics cgroup) c').ioReadBytesTotal ∧
        (cgroups.foldl (fun acc cgroup => acc.collectCgroupMetrics cgroup) c).ioWriteBytesTotal =
          (cgroups.foldl (fun acc cgroup => acc.collectCgroupMetrics cgroup) c').ioWriteBytesTotal ∧
        (cgroups.foldl (fun acc cgroup => acc.collectCgroupMetrics cgroup) c).ioReadOpsTotal =
          (cgroups.foldl (fun acc cgroup => acc.collectCgroupMetrics cgroup) c').ioReadOpsTotal ∧
        (cgroups.foldl (fun acc cgroup => acc.collectCgroupMetrics cgroup) c).ioWriteOpsTotal =
          (cgroups.foldl (fun acc cgroup => acc.collectCgroupMetrics cgroup) c').ioWriteOpsTotal) := by
  induction cgroups with
  | nil => intro c c' h; exact h
  | cons g rest ih =>
    intro c c' h
    obtain ⟨h1, h2, h3, h4⟩ := h
    rw [List.foldl_cons, List.foldl_cons]
    exact ih (c.collectCgroupMetrics g) (c'.collectCgroupMetrics g)
      ⟨by simp only [IOCollector.collectCgroupMetrics, h1],
        by simp only [IOCollector.collectCgroupMetrics, h2],
        by simp only [IOCollector.collectCgroupMetrics, h3],
        by simp only [IOCollector.collectCgroupMetrics, h4]⟩

/-- `Collect` of a disabled collector sends no sample. -/
theorem IOCollector_Collect_disabled {V : Type} (c : IOCollector V) (env : ScrapeEnv)
    (he : c.base.Enabled = false) : (c.Collect env).samples = [] := by
  unfold IOCollector.Collect
  rw [he]
  rfl

/-- `Collect` of an enabled collector sends every sample of `ioPressureTotal` when that vector is
not nil. -/
theorem IOCollector_Collect_forwards_ioPressureTotal {V : Type} (c : IOCollector V) (env : ScrapeEnv)
    (v : MetricVec) (he : c.base.Enabled = true) (hv : c.ioPressureTotal = some v) :
    ∀ x ∈ v.Collect, x ∈ (c.Collect env).samples := by
  intro x hx
  obtain ⟨cgroups, _, h2⟩ := IOCollector_Collect_enabled c env he
  rw [h2]
  have ho : (cgroups.foldl (fun acc cgroup => acc.collectCgroupMetrics cgroup)
      ({ c with metrics := { c.metrics with
        CgroupsScraped := c.metrics.CgroupsScraped.Set cgroups.length } } :
          IOCollector V)).ioPressureTotal = some v :=
    (IOCollector_foldl_ioPressureTotal cgroups _).trans hv
  simp only [IOCollector.collectWith, List.mem_append]
  rw [ho]
  simp [collectOpt, hx]

/-- The vector `ioPressureTotal` of a newly built collector holds no child. -/
theorem IOCollector_New_collectOpt_ioPressureTotal (V : Type) (cfg : Config) :
    collectOpt (NewIOCollector cfg : IOCollector V).ioPressureTotal = [] := by
  simp only [NewIOCollector, IOCollector.initMetrics]
  split_ifs <;> rfl

/-- The samples `Collect` of a newly built collector sends depend on the configuration
through the hierarchy root and the `Enabled` flag only. -/
theorem IOCollector_samples_toggle_free (V : Type) (cfg cfg' : Config) (env : ScrapeEnv)
    (hp : cfg'.Cgroup.Path = cfg.Cgroup.Path)
    (he : cfg'.Collectors.Io.Enabled = cfg.Collectors.Io.Enabled) :
    ((NewIOCollector cfg' : IOCollector V).Collect env).samples =
      ((NewIOCollector cfg : IOCollector V).Collect env).samples := by
  cases hE : cfg.Collectors.Io.Enabled with
  | false =>
    rw [IOCollector_Collect_disabled (NewIOCollector cfg : IOCollector V) env hE,
      IOCollector_Collect_disabled (NewIOCollector cfg' : IOCollector V) env (he.trans hE)]
  | true =>
    obtain ⟨cgroups, h1, h2⟩ := IOCollector_Collect_enabled (NewIOCollector cfg : IOCollector V) env hE
    obtain ⟨cgroups', h1', h2'⟩ :=
      IOCollector_Collect_enabled (NewIOCollector cfg' : IOCollector V) env (he.trans hE)
    have hs : (NewIOCollector cfg' : IOCollector V).base.scanner = (NewIOCollector cfg : IOCollector V).base.scanner :=
      congrArg NewScanner hp
    rw [hs, h1] at h1'
    cases h1'
    rw [h2, h2']
    obtain ⟨g1, g2, g3, g4⟩ := IOCollector_foldl_fixed cgroups
      ({ (NewIOCollector cfg' : IOCollector V) with metrics := { (NewIOCollector cfg' : IOCollector V).metrics with
        CgroupsScraped := (NewIOCollector cfg' : IOCollector V).metrics.CgroupsScraped.Set cgroups.length } } :
          IOCollector V)
      ({ (NewIOCollector cfg : IOCollector V) with metrics := { (NewIOCollector cfg : IOCollector V).metrics with
        CgroupsScraped := (NewIOCollector cfg : IOCollector V).metrics.CgroupsScraped.Set cgroups.length } } :
          IOCollector V)
      ⟨rfl, rfl, rfl, rfl⟩
    simp only [IOCollector.collectWith, IOCollector_foldl_metrics, IOCollector_foldl_ioPressureTotal]
    rw [g1, g2, g3, g4, IOCollector_New_collectOpt_ioPressureTotal V cfg', IOCollector_New_collectOpt_ioPressureTotal V cfg]
    rfl

/-- Every sample `Collect` sends is a sample of the pass over some node list. -/
theorem IOCollector_Collect_mem {V : Type} (c : IOCollector V) (env : ScrapeEnv) (x : Sample)
    (hx : x ∈ (c.Collect env).samples) :
    ∃ cgroups, x ∈ (c.collectWith env (.ok cgroups)).samples := by
  cases he : c.base.Enabled with
  | false =>
    rw [IOCollector_Collect_disabled c env he] at hx
    cases hx
  | true =>
    obtain ⟨cgroups, _, h2⟩ := IOCollector_Collect_enabled c env he
    rw [h2] at hx
    exact ⟨cgroups, hx⟩

theorem IOCollector_foldl_vecs {V : Type} (cgroups : List CgroupInfo) :
    ∀ c : IOCollector V,
      (cgroups.foldl (fun acc cgroup => acc.collectCgroupMetrics cgroup) c).vecs.map
          (fun v => v.desc.fqName) = c.vecs.map fun v => v.desc.fqName := by
  induction cgroups with
  | nil => intro c; rfl
  | cons g rest ih => intro c; rw [List.foldl_cons, ih]; rfl

/-- The samples of a pass of the collector over a node list are those of the vectors it
holds after the per-group loop, followed by those of the self-observability metrics. -/
theorem IOCollector_collectWith_samples {V : Type} (c : IOCollector V) (env : ScrapeEnv)
    (cgroups : List CgroupInfo) :
    ∃ post : IOCollector V,
      post.vecs.map (fun v => v.desc.fqName) = c.vecs.map (fun v => v.desc.fqName) ∧
      post.metrics.Describe = c.metrics.Describe ∧
      (c.collectWith env (.ok cgroups)).samples =
        post.vecs.flatMap MetricVec.Collect ++ post.metrics.Collect := by
  refine ⟨cgroups.foldl (fun acc cgroup => acc.collectCgroupMetrics cgroup)
    { c with metrics := { c.metrics with
        CgroupsScraped := c.metrics.CgroupsScraped.Set cgroups.length } }, ?_, ?_, ?_⟩
  · rw [IOCollector_foldl_vecs]
    rfl
  · rw [IOCollector_foldl_metrics]
    rfl
  · simp only [IOCollector.collectWith, IOCollector.vecs]
    cases (cgroups.foldl (fun acc cgroup => acc.collectCgroupMetrics cgroup)
      ({ c with metrics := { c.metrics with
        CgroupsScraped := c.metrics.CgroupsScraped.Set cgroups.length } } :
          IOCollector V)).ioPressureTotal <;>
      simp [collectOpt, List.flatMap_cons, List.flatMap_nil]

/-- Every sample of a pass of the collector over a node list belongs to the family of one of
the vectors the collector holds or to one of its self-observability metrics. -/
theorem IOCollector_samples_family {V : Type} (c : IOCollector V) (env : ScrapeEnv)
    (cgroups : List CgroupInfo) :
    ∀ x ∈ (c.collectWith env (.ok cgroups)).samples,
      x.desc.fqName ∈
        (c.vecs.map fun v => v.desc.fqName) ++ describedFamilies c.metrics.Describe := by
  intro x hx
  obtain ⟨post, h1, h2, h3⟩ := IOCollector_collectWith_samples c env cgroups
  rw [h3] at hx
  rcases List.mem_append.mp hx with hx | hx
  · exact List.mem_append.mpr (Or.inl (by
      rw [← h1]
      exact mem_flatMap_Collect _ x hx))
  · exact List.mem_append.mpr (Or.inr (by
      rw [← h2]
      exact mem_metrics_Collect _ x hx))

/-- What `initMetrics` and `Describe` make of the toggles of a newly built collector, and the
families of the samples of a pass when a toggle is cleared. -/
theorem IOCollector_toggles (V : Type) (cfg : Config) :
    (cfg.Collectors.Io.Enabled = true →
        ("cgroup_io_pressure_seconds_total" ∈
            describedFamilies (NewIOCollector cfg : IOCollector V).Describe ↔
          cfg.Collectors.Io.IncludePressure = true) ∧
        (describedFamilies (NewIOCollector cfg : IOCollector V).Describe).filter
            (fun n => n != "cgroup_io_pressure_seconds_total") =
          ioFixedFamilies ++ describedFamilies (NewCollectorMetrics "io").Describe) ∧
      ((NewIOCollector cfg : IOCollector V).ioPressureTotal.isSome = cfg.Collectors.Io.IncludePressure) ∧
      (cfg.Collectors.Io.IncludePressure = false →
        ∀ (env : ScrapeEnv) (cgroups : List CgroupInfo),
          ∀ x ∈ ((NewIOCollector cfg : IOCollector V).collectWith env (.ok cgroups)).samples,
            x.desc.fqName ≠ "cgroup_io_pressure_seconds_total") := by
  rcases cfg with ⟨w, cg, ⟨⟨e1, p1⟩, ⟨e2, p2, s2⟩, ⟨e3, p3, d3⟩, ⟨e4⟩⟩, lg, adv⟩
  refine ⟨?_, ?_, ?_⟩
  · cases e3 <;> cases p3 <;>
      simp [describedFamilies, ioFixedFamilies, NewIOCollector, IOCollector.initMetrics,
        IOCollector.Describe, NewBaseCollector, BaseCollector.Enabled, MetricVec.Describe,
        describeOpt, CollectorMetrics.Describe, NewCollectorMetrics, Metric.Describe,
        NewCounterVec, NewGaugeVec, NewHistogram, NewCounter, NewGauge, Opts.desc,
        BuildFQName]
  · cases p3 <;>
      simp [NewIOCollector, IOCollector.initMetrics, NewBaseCollector]
  · intro hp env cgroups x hx heq
    have h := IOCollector_samples_family _ env cgroups x hx
    rw [heq] at h
    simp only at hp
    subst hp
    revert h
    simp [describedFamilies, IOCollector.vecs, NewIOCollector,
      IOCollector.initMetrics, NewBaseCollector, NewCounterVec, NewGaugeVec, Opts.desc,
      BuildFQName, CollectorMetrics.Describe, NewCollectorMetrics, Metric.Describe,
      NewHistogram, NewCounter, NewGauge]

/-- C22 (counterexample): the memory collector that is disabled while `IncludeSwap` and
`IncludePressure` are set describes neither the swap nor the pressure family, and its
`Collect` sends no sample; and the enabled memory collector with both toggles set, whose
`Describe` lists both families, sends no sample of either in a pass over `clashTree`. -/
theorem toggles_disabled_collector_counterexample :
    memoryOffConfig.Collectors.Memory.IncludeSwap = true ∧
      memoryOffConfig.Collectors.Memory.IncludePressure = true ∧
      (NewMemoryCollector memoryOffConfig : MemoryCollector Nat).Describe = [] ∧
      "cgroup_memory_swap_usage_bytes" ∉
        describedFamilies (NewMemoryCollector memoryOffConfig : MemoryCollector Nat).Describe ∧
      "cgroup_memory_pressure_seconds_total" ∉
        describedFamilies (NewMemoryCollector memoryOffConfig : MemoryCollector Nat).Describe ∧
      ((NewMemoryCollector memoryOffConfig : MemoryCollector Nat).Collect
          (sampleEnv clashTree)).samples.length = 0 ∧
      "cgroup_memory_swap_usage_bytes" ∈
        describedFamilies
          (NewMemoryCollector (sampleConfig 60 true true true true) :
            MemoryCollector Nat).Describe ∧
      "cgroup_memory_swap_usage_bytes" ∉
        sampleFamilies ((NewMemoryCollector (sampleConfig 60 true true true true) :
          MemoryCollector Nat).Collect (sampleEnv clashTree)).samples ∧
      "cgroup_memory_pressure_seconds_total" ∉
        sampleFamilies ((NewMemoryCollector (sampleConfig 60 true true true true) :
          MemoryCollector Nat).Collect (sampleEnv clashTree)).samples := by
  refine ⟨rfl, rfl, rfl, by decide, by decide, rfl, by decide, by decide, by decide⟩

/-- C22 (amended): for an enabled CPU, memory or I/O collector, the
`pressure_seconds_total` family is described if and only if the `IncludePressure` toggle of
that collector is set, and the memory `swap_usage_bytes` family if and only if `IncludeSwap`
is set; the other families described are the fixed families of the collector and its
self-observability metrics, whatever the toggles.  `initMetrics` creates the vector of an
optional family if and only if its toggle is set; `Collect` of an enabled collector, in any
state, sends every sample of an optional vector that is not nil; with the toggle cleared,
`Collect` sends no sample of the family; and the samples of the other families that
`Collect` sends are the same for two configurations that differ in the toggles only. -/
theorem toggles_of_enabled_collectors (V : Type) (cfg cfg' : Config) :
    ((cfg.Collectors.CPU.Enabled = true →
          ("cgroup_cpu_pressure_seconds_total" ∈
              describedFamilies (NewCPUCollector cfg : CPUCollector V).Describe ↔
            cfg.Collectors.CPU.IncludePressure = true) ∧
          (describedFamilies (NewCPUCollector cfg : CPUCollector V).Describe).filter
              (fun n => n != "cgroup_cpu_pressure_seconds_total") =
            cpuFixedFamilies ++
              describedFamilies (NewCollectorMetrics "cpu").Describe) ∧
        ((NewCPUCollector cfg : CPUCollector V).cpuPressureTotal.isSome = cfg.Collectors.CPU.IncludePressure) ∧
        (∀ (c : CPUCollector V) (env : ScrapeEnv) (v : MetricVec),
          c.base.Enabled = true → c.cpuPressureTotal = some v →
          ∀ x ∈ v.Collect, x ∈ (c.Collect env).samples) ∧
        (cfg.Collectors.CPU.IncludePressure = false →
          ∀ (env : ScrapeEnv), ∀ x ∈ ((NewCPUCollector cfg : CPUCollector V).Collect env).samples,
            x.desc.fqName ≠ "cgroup_cpu_pressure_seconds_total") ∧
        (cfg'.Cgroup.Path = cfg.Cgroup.Path →
          cfg'.Collectors.CPU.Enabled = cfg.Collectors.CPU.Enabled →
          ∀ (env : ScrapeEnv),
            ((NewCPUCollector cfg' : CPUCollector V).Collect env).samples.filter
                (fun x => x.desc.fqName != "cgroup_cpu_pressure_seconds_total") =
              ((NewCPUCollector cfg : CPUCollector V).Collect env).samples.filter
                (fun x => x.desc.fqName != "cgroup_cpu_pressure_seconds_total"))) ∧
      ((cfg.Collectors.Memory.Enabled = true →
          ("cgroup_memory_swap_usage_bytes" ∈
              describedFamilies (NewMemoryCollector cfg : MemoryCollector V).Describe ↔
            cfg.Collectors.Memory.IncludeSwap = true) ∧
          ("cgroup_memory_pressure_seconds_total" ∈
              describedFamilies (NewMemoryCollector cfg : MemoryCollector V).Describe ↔
            cfg.Collectors.Memory.IncludePressure = true) ∧
          (describedFamilies (NewMemoryCollector cfg : MemoryCollector V).Describe).filter
              (fun n => n != "cgroup_memory_swap_usage_bytes" && n != "cgroup_memory_pressure_seconds_total") =
            memoryFixedFamilies ++
              describedFamilies (NewCollectorMetrics "memory").Describe) ∧
        ((NewMemoryCollector cfg : MemoryCollector V).memorySwapUsageBytes.isSome = cfg.Collectors.Memory.IncludeSwap) ∧
        ((NewMemoryCollector cfg : MemoryCollector V).memoryPressureTotal.isSome = cfg.Collectors.Memory.IncludePressure) ∧
        (∀ (c : MemoryCollector V) (env : ScrapeEnv) (v : MetricVec),
          c.base.Enabled = true → c.memorySwapUsageBytes = some v →
          ∀ x ∈ v.Collect, x ∈ (c.Collect env).samples) ∧
        (∀ (c : MemoryCollector V) (env : ScrapeEnv) (v : MetricVec),
          c.base.Enabled = true → c.memoryPressureTotal = some v →
          ∀ x ∈ v.Collect, x ∈ (c.Collect env).samples) ∧
        (cfg.Collectors.Memory.IncludeSwap = false →
          ∀ (env : ScrapeEnv), ∀ x ∈ ((NewMemoryCollector cfg : MemoryCollector V).Collect env).samples,
            x.desc.fqName ≠ "cgroup_memory_swap_usage_bytes") ∧
        (cfg.Collectors.Memory.IncludePressure = false →
          ∀ (env : ScrapeEnv), ∀ x ∈ ((NewMemoryCollector cfg : MemoryCollector V).Collect env).samples,
            x.desc.fqName ≠ "cgroup_memory_pressure_seconds_total") ∧
        (cfg'.Cgroup.Path = cfg.Cgroup.Path →
          cfg'.Collectors.Memory.Enabled = cfg.Collectors.Memory.Enabled →
          ∀ (env : ScrapeEnv),
            ((NewMemoryCollector cfg' : MemoryCollector V).Collect env).samples.filter
                (fun x => x.desc.fqName != "cgroup_memory_swap_usage_bytes" && x.desc.fqName != "cgroup_memory_pressure_seconds_total") =
              ((NewMemoryCollector cfg : MemoryCollector V).Collect env).samples.filter
                (fun x => x.desc.fqName != "cgroup_memory_swap_usage_bytes" && x.desc.fqName != "cgroup_memory_pressure_seconds_total"))) ∧
      ((cfg.Collectors.Io.Enabled = true →
          ("cgroup_io_pressure_seconds_total" ∈
              describedFamilies (NewIOCollector cfg : IOCollector V).Describe ↔
            cfg.Collectors.Io.IncludePressure = true) ∧
          (describedFamilies (NewIOCollector cfg : IOCollector V).Describe).filter
              (fun n => n != "cgroup_io_pressure_seconds_total") =
            ioFixedFamilies ++
              describedFamilies (NewCollectorMetrics "io").Describe) ∧
        ((NewIOCollector cfg : IOCollector V).ioPressureTotal.isSome = cfg.Collectors.Io.IncludePressure) ∧
        (∀ (c : IOCollector V) (env : ScrapeEnv) (v : MetricVec),
          c.base.Enabled = true → c.ioPressureTotal = some v →
          ∀ x ∈ v.Collect, x ∈ (c.Collect env).samples) ∧
        (cfg.Collectors.Io.IncludePressure = false →
          ∀ (env : ScrapeEnv), ∀ x ∈ ((NewIOCollector cfg : IOCollector V).Collect env).samples,
            x.desc.fqName ≠ "cgroup_io_pressure_seconds_total") ∧
        (cfg'.Cgroup.Path = cfg.Cgroup.Path →
          cfg'.Collectors.Io.Enabled = cfg.Collectors.Io.Enabled →
          ∀ (env : ScrapeEnv),
            ((NewIOCollector cfg' : IOCollector V).Collect env).samples.filter
                (fun x => x.desc.fqName != "cgroup_io_pressure_seconds_total") =
              ((NewIOCollector cfg : IOCollector V).Collect env).samples.filter
                (fun x => x.desc.fqName != "cgroup_io_pressure_seconds_total"))) := by
  refine ⟨?_, ?_, ?_⟩
  · obtain ⟨hd, hs1, hn1⟩ := CPUCollector_toggles V cfg
    refine ⟨hd, hs1, fun c env v he hv => CPUCollector_Collect_forwards_cpuPressureTotal c env v he hv, ?_, ?_⟩
    · intro hp env x hx
      obtain ⟨cgroups, hc⟩ := CPUCollector_Collect_mem _ env x hx
      exact hn1 hp env cgroups x hc
    · intro hp he env
      rw [CPUCollector_samples_toggle_free V cfg cfg' env hp he]
  · obtain ⟨hd, hs1, hs2, hn1, hn2⟩ := MemoryCollector_toggles V cfg
    refine ⟨hd, hs1, hs2, fun c env v he hv => MemoryCollector_Collect_forwards_memorySwapUsageBytes c env v he hv, fun c env v he hv => MemoryCollector_Collect_forwards_memoryPressureTotal c env v he hv, ?_, ?_, ?_⟩
    · intro hp env x hx
      obtain ⟨cgroups, hc⟩ := MemoryCollector_Collect_mem _ env x hx
      exact hn1 hp env cgroups x hc
    · intro hp env x hx
      obtain ⟨cgroups, hc⟩ := MemoryCollector_Collect_mem _ env x hx
      exact hn2 hp env cgroups x hc
    · intro hp he env
      rw [MemoryCollector_samples_toggle_free V cfg cfg' env hp he]
  · obtain ⟨hd, hs1, hn1⟩ := IOCollector_toggles V cfg
    refine ⟨hd, hs1, fun c env v he hv => IOCollector_Collect_forwards_ioPressureTotal c env v he hv, ?_, ?_⟩
    · intro hp env x hx
      obtain ⟨cgroups, hc⟩ := IOCollector_Collect_mem _ env x hx
      exact hn1 hp env cgroups x hc
    · intro hp he env
      rw [IOCollector_samples_toggle_free V cfg cfg' env hp he]

/-- C22 (amended) at the test configuration with every toggle cleared, compared with the
test configuration itself: the CPU collector is enabled and does not describe the pressure
family; no sample of the memory swap family is sent for `clashTree`; the samples of the
other I/O families are the same under both configurations; and `Collect` of the enabled CPU
collector that holds `pressuredVec` sends the sample of that vector. -/
theorem toggles_of_enabled_collectors_witness :
    togglesOffConfig.Collectors.CPU.Enabled = true ∧
      togglesOffConfig.Collectors.CPU.IncludePressure = false ∧
      "cgroup_cpu_pressure_seconds_total" ∉
        describedFamilies (NewCPUCollector togglesOffConfig : CPUCollector Nat).Describe ∧
      togglesOffConfig.Collectors.Memory.IncludeSwap = false ∧
      (∀ x ∈ ((NewMemoryCollector togglesOffConfig : MemoryCollector Nat).Collect
            (sampleEnv clashTree)).samples,
        x.desc.fqName ≠ "cgroup_memory_swap_usage_bytes") ∧
      (sampleConfig 60 true true true true).Cgroup.Path = togglesOffConfig.Cgroup.Path ∧
      (sampleConfig 60 true true true true).Collectors.Io.Enabled =
        togglesOffConfig.Collectors.Io.Enabled ∧
      ((NewIOCollector (sampleConfig 60 true true true true) : IOCollector Nat).Collect
          (sampleEnv clashTree)).samples.filter
            (fun x => x.desc.fqName != "cgroup_io_pressure_seconds_total") =
        ((NewIOCollector togglesOffConfig : IOCollector Nat).Collect
          (sampleEnv clashTree)).samples.filter
            (fun x => x.desc.fqName != "cgroup_io_pressure_seconds_total") ∧
      pressuredCPUCollector.base.Enabled = true ∧
      pressuredCPUCollector.cpuPressureTotal = some pressuredVec ∧
      sampleLabels pressuredVec.Collect =
        [("cgroup_cpu_pressure_seconds_total", ["workload-a".toList, "some".toList])] ∧
      (∀ x ∈ pressuredVec.Collect,
        x ∈ (pressuredCPUCollector.Collect (sampleEnv clashTree)).samples) := by
  obtain ⟨⟨hd, _, hf, _, _⟩, ⟨_, _, _, _, _, hn, _, _⟩, ⟨_, _, _, _, hio⟩⟩ :=
    toggles_of_enabled_collectors Nat togglesOffConfig (sampleConfig 60 true true true true)
  refine ⟨rfl, rfl, ?_, rfl, hn rfl (sampleEnv clashTree), rfl, rfl,
    hio rfl rfl (sampleEnv clashTree), rfl, rfl, by decide,
    hf pressuredCPUCollector (sampleEnv clashTree) pressuredVec rfl rfl⟩
  intro h
  exact Bool.noConfusion ((hd rfl).1.mp h)

end CgroupExporter
